import Mathlib

/-!
# map-yard: the outline-grid terrain generator

A shallow embedding of `prototypes/outline-grid/main.js`.

JavaScript numbers are modelled by an arbitrary linearly ordered field `α`
(the reals for exact arithmetic, the rationals for evaluation).  Functions of
the host that the file calls but does not define (`Math.sqrt`, `Math.cos`,
`Math.sin`, `Math.PI`, `Array.prototype.sort`, the imported `xxHash32`, the
`Float32Array` bit cast, the loaded `mountains` drawings) are parameters of the
definitions that use them.  A pass over the grid is a fold of its callback
over the visited cells, with the data the callback changes as state; a thrown
exception is `Except.error`.
-/

namespace MapYard

variable {α : Type} [LinearOrderedField α]

/-! ## Data model -/

/-- The four strings that `selectBiome` returns. -/
inductive Biome where
  | mountain
  | town
  | grass
  | water
  deriving DecidableEq, Repr

/-- An object with the fields `x` and `y`. -/
structure Vec (α : Type) where
  x : α
  y : α
  deriving DecidableEq, Repr

/-- A grid tile after the "assign level & biomes" pass. -/
structure Tile (α : Type) where
  random : α
  x : α
  y : α
  level : α
  biome : Biome
  deriving DecidableEq, Repr

/-! ## `selectBiome` (lines 147-152) -/

/-- The function `selectBiome(p)`; it reads `p.level` and `p.random` only. -/
def selectBiome (level random : α) : Biome :=
  if level > 1.4 then Biome.mountain
  else if level > 1.0 ∧ random < 0.02 then Biome.town
  else if level > 0.8 then Biome.grass
  else Biome.water

/-! ## Geometry helpers (lines 5-25) -/

/-- The position `{x, y}` of a tile. -/
def Tile.pos (t : Tile α) : Vec α := ⟨t.x, t.y⟩

/-- The function `middle(a, b)`. -/
def middle (a b : Vec α) : Vec α :=
  ⟨(a.x + b.x) / 2, (a.y + b.y) / 2⟩

/-- The function `distance(a, b)`; `sqrt` stands for `Math.sqrt`. -/
def distance (sqrt : α → α) (a b : Vec α) : α :=
  let dx := a.x - b.x
  let dy := a.y - b.y
  sqrt (dx ^ 2 + dy ^ 2)

/-- The function `smootherstep(x)`. -/
def smootherstep (x : α) : α :=
  6 * (x ^ 5) - 15 * (x ^ 4) + 10 * (x ^ 3)

/-! ## Grids (lines 34-45) -/

/-- The object `{width, height, data}` built by `gridMake`. -/
structure Grid (β : Type) where
  width : ℕ
  height : ℕ
  data : List (List β)

/-- The function `gridMake(width, height, callable)`: `height` rows of `width`
cells, the cell of column `x` and row `y` holding `callable({x, y})`. -/
def gridMake {β : Type} (width height : ℕ) (callable : ℕ → ℕ → β) : Grid β :=
  { width := width
    height := height
    data := (List.range height).map fun y => (List.range width).map fun x => callable x y }

/-- Every row is present and has the declared width. -/
def Grid.WellFormed {β : Type} (g : Grid β) : Prop :=
  g.data.length = g.height ∧ ∀ row ∈ g.data, row.length = g.width

/-- Array read `xs[i]` at an integer-valued number: `undefined` (here `none`)
below zero and from the length on. -/
def index {β : Type} (xs : List β) (i : ℤ) : Option β :=
  if 0 ≤ i then xs[i.toNat]? else none

/-- The exceptions the runtime raises in this file: reading a property of
`undefined`. -/
inductive JsError where
  | typeError
  deriving DecidableEq, Repr

/-! ## Random number hash (lines 57-72, 101) -/

/-- The constant `UINT32_MAX`. -/
def UINT32_MAX : ℕ := 0xffffffff

/-- The function `rnhNorm(seeds)`.  The imported `xxHash32` and the bit cast
`float2uint32` are parameters. -/
def rnhNorm (xxHash32 : List ℕ → ℕ → ℕ) (float2uint32 : List α → List ℕ)
    (seeds : List α) : α :=
  (xxHash32 (float2uint32 seeds) 0 : α) / (UINT32_MAX : α)

/-- The function `rnhMinMax(seeds, min, max)`. -/
def rnhMinMax (xxHash32 : List ℕ → ℕ → ℕ) (float2uint32 : List α → List ℕ)
    (seeds : List α) (min max : α) : α :=
  let r := rnhNorm xxHash32 float2uint32 seeds
  min + (r * (max - min))

/-! ## Gradient noise (lines 78-99) -/

/-- The inner function `interpolate(a, b, x)` of `perlinNoise`. -/
def interpolate (a b x : α) : α :=
  a + smootherstep x * (b - a)

/-- The lattice entry `perlin.data[y][x]`, `none` when the row or the entry is
`undefined`. -/
def gradientAt (perlin : Grid (Vec α)) (x y : ℤ) : Option (Vec α) :=
  match index perlin.data y with
  | none => none
  | some row => index row x

/-- The inner function `dot(p, pf)` of `perlinNoise`, with `pf = {x: pfx, y: pfy}`.
Reading `perlin.data[pf.y][pf.x]` throws when the row is `undefined`; reading
`gradient.x` throws when the entry is. -/
def dot (perlin : Grid (Vec α)) (p : Vec α) (pfx pfy : ℤ) : Except JsError α :=
  match index perlin.data pfy with
  | none => Except.error JsError.typeError
  | some row =>
    match index row pfx with
    | none => Except.error JsError.typeError
    | some gradient =>
      let vx := p.x - (pfx : α)
      let vy := p.y - (pfy : α)
      Except.ok (vx * gradient.x + vy * gradient.y)

/-- The function `perlinNoise(perlin, coord)`. -/
def perlinNoise [FloorRing α] (perlin : Grid (Vec α)) (coord : Vec α) : Except JsError α := do
  let xf : ℤ := ⌊coord.x⌋
  let yf : ℤ := ⌊coord.y⌋
  let tl ← dot perlin coord (xf + 0) (yf + 0)
  let tr ← dot perlin coord (xf + 1) (yf + 0)
  let bl ← dot perlin coord (xf + 0) (yf + 1)
  let br ← dot perlin coord (xf + 1) (yf + 1)
  let t := interpolate tl tr (coord.x - (xf : α))
  let b := interpolate bl br (coord.x - (xf : α))
  let v := interpolate t b (coord.y - (yf : α))
  return v

/-! ## Streets (lines 170-179) -/

/-- An entry `{x, y, distance}` of `toList`. -/
structure Target (α : Type) where
  x : α
  y : α
  distance : α
  deriving DecidableEq, Repr

/-- The position `{x, y}` of a target entry. -/
def Target.pos (u : Target α) : Vec α := ⟨u.x, u.y⟩

/-- The comparator `(a, b) => a.distance > b.distance ? 1 : -1`. -/
def byDistance (a b : Target α) : ℤ :=
  if a.distance > b.distance then 1 else -1

/-- The array `toList` built for the town `src` (the loop variable `from`;
`dst` is the callbacks' parameter `to`). -/
def toList (sqrt : α → α) (towns : List (Vec α)) (src : Vec α) : List (Target α) :=
  (towns.filter fun dst => decide (src.x ≠ dst.x) || decide (src.y ≠ dst.y)).map
    fun dst => { x := dst.x, y := dst.y, distance := distance sqrt src dst }

/-- One iteration of the streets loop: the line drawn from `src`, if any.
The parameter `sort` stands for `Array.prototype.sort`; it keeps the length of
the array, so `toList[0]` is defined whenever the array is not empty. -/
def roadFrom (sort : (Target α → Target α → ℤ) → List (Target α) → List (Target α))
    (sqrt : α → α) (towns : List (Vec α)) (src : Vec α) : Option (Vec α × Target α) :=
  let l := toList sqrt towns src
  if l.length > 0 then
    match (sort byDistance l)[0]? with
    | some u => some (src, u)
    | none => none
  else none

/-- The streets pass: the lines `createLine(from, toList[0])` in drawing order. -/
def streets (sort : (Target α → Target α → ℤ) → List (Target α) → List (Target α))
    (sqrt : α → α) (towns : List (Vec α)) : List (Vec α × Target α) :=
  towns.filterMap fun src => roadFrom sort sqrt towns src

/-! ### The host sort -/

/-- What the passes use of `Array.prototype.sort` for one comparator: the
result rearranges the input, and no entry stands before one that the
comparator puts it after. -/
def SortsWith {β : Type} (sort : (β → β → ℤ) → List β → List β) (cmp : β → β → ℤ) : Prop :=
  ∀ l, (sort cmp l).Perm l ∧ (sort cmp l).Pairwise fun a b => ¬ 0 < cmp a b

/-- Insertion step of an insertion sort: `x` goes before the first entry `e`
for which `cmp(x, e)` is negative. -/
def insertBy {β : Type} (cmp : β → β → ℤ) (x : β) : List β → List β
  | [] => [x]
  | e :: l => if cmp x e < 0 then x :: e :: l else e :: insertBy cmp x l

/-- An insertion sort that takes the entries from the front of the array, each
inserted in the part already sorted: the comparator is asked for
(new, old), the argument order of V8's insertion step. -/
def sortFromFront {β : Type} (cmp : β → β → ℤ) (l : List β) : List β :=
  l.foldl (fun acc x => insertBy cmp x acc) []

/-- An insertion sort that takes the entries from the back of the array: the
comparator is asked for (earlier, later). -/
def sortFromBack {β : Type} (cmp : β → β → ℤ) (l : List β) : List β :=
  l.foldr (fun x acc => insertBy cmp x acc) []

/-! ## Coastline (lines 226-297) -/

/-- The nine tiles read by one step of the coastline pass. -/
structure Neighbourhood (α : Type) where
  p : Tile α
  pl : Tile α
  pr : Tile α
  pt : Tile α
  pb : Tile α
  ptl : Tile α
  ptr : Tile α
  pbl : Tile α
  pbr : Tile α

/-- One rule: `if (cond) { ps.push(t); }`. -/
def pushIf (cond : Bool) (t : Tile α) (ps : List (Tile α)) : List (Tile α) :=
  if cond then ps ++ [t] else ps

/-- The array `ps` after the sixteen rules, in source order. -/
def coastAnchors (n : Neighbourhood α) : List (Tile α) :=
  let w := Biome.water
  let g := Biome.grass
  let ps : List (Tile α) := []
  -- tr
  let ps := pushIf (n.p.biome = w && n.pt.biome = w && n.ptr.biome = w && n.pr.biome = g) n.ptr ps
  let ps := pushIf (n.p.biome = w && n.pt.biome = w && n.ptr.biome = g && n.pr.biome = g) n.pt ps
  let ps := pushIf (n.p.biome = w && n.pt.biome = g && n.ptr.biome = g && n.pr.biome = w) n.pr ps
  let ps := pushIf (n.p.biome = w && n.pt.biome = g && n.ptr.biome = w && n.pr.biome = w) n.ptr ps
  -- br
  let ps := pushIf (n.p.biome = w && n.pb.biome = w && n.pbr.biome = w && n.pr.biome = g) n.pbr ps
  let ps := pushIf (n.p.biome = w && n.pb.biome = w && n.pbr.biome = g && n.pr.biome = g) n.pb ps
  let ps := pushIf (n.p.biome = w && n.pb.biome = g && n.pbr.biome = w && n.pr.biome = w) n.pbr ps
  let ps := pushIf (n.p.biome = w && n.pb.biome = g && n.pbr.biome = g && n.pr.biome = w) n.pr ps
  -- bl
  let ps := pushIf (n.p.biome = w && n.pb.biome = w && n.pbl.biome = w && n.pl.biome = g) n.pbl ps
  let ps := pushIf (n.p.biome = w && n.pb.biome = w && n.pbl.biome = g && n.pl.biome = g) n.pb ps
  let ps := pushIf (n.p.biome = w && n.pb.biome = g && n.pbl.biome = w && n.pl.biome = w) n.pbl ps
  let ps := pushIf (n.p.biome = w && n.pb.biome = g && n.pbl.biome = g && n.pl.biome = w) n.pl ps
  -- tl
  let ps := pushIf (n.p.biome = w && n.pt.biome = w && n.ptl.biome = w && n.pl.biome = g) n.ptl ps
  let ps := pushIf (n.p.biome = w && n.pt.biome = w && n.ptl.biome = g && n.pl.biome = g) n.pt ps
  let ps := pushIf (n.p.biome = w && n.pt.biome = g && n.ptl.biome = w && n.pl.biome = w) n.ptl ps
  let ps := pushIf (n.p.biome = w && n.pt.biome = g && n.ptl.biome = g && n.pl.biome = w) n.pl ps
  ps

/-- A call `createQuadraticBezier(start, through, end, '#00f')`. -/
structure Curve (α : Type) where
  startControl : Vec α
  through : Vec α
  endControl : Vec α
  deriving DecidableEq, Repr

/-- The curves appended for the centre tile `p` once `ps` is collected
(lines 291-297). -/
def coastCurves (p : Tile α) (ps : List (Tile α)) : List (Curve α) :=
  if h2 : ps.length = 2 then
    [⟨middle p.pos ps[0].pos, p.pos, middle p.pos ps[1].pos⟩]
  else if h4 : ps.length = 4 then
    [⟨middle p.pos ps[0].pos, p.pos, middle p.pos ps[1].pos⟩,
     ⟨middle p.pos ps[2].pos, p.pos, middle p.pos ps[3].pos⟩]
  else []

/-- The 3x3 neighbourhood turned by a quarter: pt->pr->pb->pl->pt and
ptr->pbr->pbl->ptl->ptr (the tile that was on top is now on the right). -/
def Neighbourhood.rotate (n : Neighbourhood α) : Neighbourhood α :=
  { p := n.p
    pr := n.pt
    pb := n.pr
    pl := n.pb
    pt := n.pl
    pbr := n.ptr
    pbl := n.pbr
    ptl := n.pbl
    ptr := n.ptl }

/-! ## Grid traversal (lines 47-53) -/

/-- The values taken by the variable of `for (let i = start; i < stop; i += 1)`. -/
def forRange (start stop : ℤ) : List ℤ :=
  (List.range (stop - start).toNat).map fun (i : ℕ) => start + (i : ℤ)

/-- The function `gridForEach(grid, border, callable)`.  The effect of
`callable(grid, {x, y})` is a transformer of the state `σ` that may throw. -/
def gridForEach {β σ : Type} (grid : Grid β) (border : ℤ)
    (callable : σ → ℤ → ℤ → Except JsError σ) (init : σ) : Except JsError σ :=
  (forRange border (grid.height - border)).foldlM
    (fun s y => (forRange border (grid.width - border)).foldlM (fun s x => callable s x y) s)
    init

/-- The cells `(x, y)` in row-major order: rows `border <= y < height - border`,
and in each row the columns `border <= x < width - border`. -/
def gridCells {β : Type} (grid : Grid β) (border : ℤ) : List (ℤ × ℤ) :=
  (forRange border (grid.height - border)).flatMap fun y =>
    (forRange border (grid.width - border)).map fun x => (x, y)

/-- The read `grid.data[y][x]`, `none` when the row or the entry is `undefined`. -/
def tileAt {β : Type} (data : List (List β)) (x y : ℤ) : Option β :=
  match index data y with
  | none => none
  | some row => index row x

/-! ### The four rule blocks of the coastline pass (lines 238-289) -/

/-- The anchors pushed by the four rules under the comment `tr`. -/
def anchorsTR (n : Neighbourhood α) : List (Tile α) :=
  let w := Biome.water
  let g := Biome.grass
  let ps : List (Tile α) := []
  let ps := pushIf (n.p.biome = w && n.pt.biome = w && n.ptr.biome = w && n.pr.biome = g) n.ptr ps
  let ps := pushIf (n.p.biome = w && n.pt.biome = w && n.ptr.biome = g && n.pr.biome = g) n.pt ps
  let ps := pushIf (n.p.biome = w && n.pt.biome = g && n.ptr.biome = g && n.pr.biome = w) n.pr ps
  let ps := pushIf (n.p.biome = w && n.pt.biome = g && n.ptr.biome = w && n.pr.biome = w) n.ptr ps
  ps

/-- The anchors pushed by the four rules under the comment `br`. -/
def anchorsBR (n : Neighbourhood α) : List (Tile α) :=
  let w := Biome.water
  let g := Biome.grass
  let ps : List (Tile α) := []
  let ps := pushIf (n.p.biome = w && n.pb.biome = w && n.pbr.biome = w && n.pr.biome = g) n.pbr ps
  let ps := pushIf (n.p.biome = w && n.pb.biome = w && n.pbr.biome = g && n.pr.biome = g) n.pb ps
  let ps := pushIf (n.p.biome = w && n.pb.biome = g && n.pbr.biome = w && n.pr.biome = w) n.pbr ps
  let ps := pushIf (n.p.biome = w && n.pb.biome = g && n.pbr.biome = g && n.pr.biome = w) n.pr ps
  ps

/-- The anchors pushed by the four rules under the comment `bl`. -/
def anchorsBL (n : Neighbourhood α) : List (Tile α) :=
  let w := Biome.water
  let g := Biome.grass
  let ps : List (Tile α) := []
  let ps := pushIf (n.p.biome = w && n.pb.biome = w && n.pbl.biome = w && n.pl.biome = g) n.pbl ps
  let ps := pushIf (n.p.biome = w && n.pb.biome = w && n.pbl.biome = g && n.pl.biome = g) n.pb ps
  let ps := pushIf (n.p.biome = w && n.pb.biome = g && n.pbl.biome = w && n.pl.biome = w) n.pbl ps
  let ps := pushIf (n.p.biome = w && n.pb.biome = g && n.pbl.biome = g && n.pl.biome = w) n.pl ps
  ps

/-- The anchors pushed by the four rules under the comment `tl`. -/
def anchorsTL (n : Neighbourhood α) : List (Tile α) :=
  let w := Biome.water
  let g := Biome.grass
  let ps : List (Tile α) := []
  let ps := pushIf (n.p.biome = w && n.pt.biome = w && n.ptl.biome = w && n.pl.biome = g) n.ptl ps
  let ps := pushIf (n.p.biome = w && n.pt.biome = w && n.ptl.biome = g && n.pl.biome = g) n.pt ps
  let ps := pushIf (n.p.biome = w && n.pt.biome = g && n.ptl.biome = w && n.pl.biome = w) n.ptl ps
  let ps := pushIf (n.p.biome = w && n.pt.biome = g && n.ptl.biome = g && n.pl.biome = w) n.pl ps
  ps

/-! ## Gradient lattice (lines 57-60, 74-76) -/

/-- The function `rnhUnitVector(seeds)`; `cos`, `sin` and `pi` stand for
`Math.cos`, `Math.sin` and `Math.PI`. -/
def rnhUnitVector (xxHash32 : List ℕ → ℕ → ℕ) (float2uint32 : List α → List ℕ)
    (cos sin : α → α) (pi : α) (seeds : List α) : Vec α :=
  let angle := rnhNorm xxHash32 float2uint32 seeds * 2 * pi
  { x := cos angle, y := sin angle }

/-- The function `perlinCreate(seed, width, height)`. -/
def perlinCreate (xxHash32 : List ℕ → ℕ → ℕ) (float2uint32 : List α → List ℕ)
    (cos sin : α → α) (pi : α) (seed : α) (width height : ℕ) : Grid (Vec α) :=
  gridMake width height fun x y =>
    rnhUnitVector xxHash32 float2uint32 cos sin pi [seed, (x : α), (y : α)]

/-! ## Grid construction (lines 109-143) -/

/-- The constant `WIDTH`. -/
def WIDTH : ℕ := 1000

/-- The constant `HEIGHT`. -/
def HEIGHT : ℕ := 700

/-- The constant `GRID_SIZE`. -/
def GRID_SIZE : ℕ := 25

/-- A tile object of the grid `g`: `gridMake` creates it with `random`, `x`
and `y`; `level` and `biome` are absent until the pass "assign level &
biomes" sets them. -/
structure Cell (α : Type) where
  random : α
  x : α
  y : α
  level : Option α
  biome : Option Biome
  deriving DecidableEq, Repr

/-- The callback of `gridMake(w, h, ...)` in `main` (lines 135-143), at the
cell of column `px` and row `py`. -/
def mainCell (xxHash32 : List ℕ → ℕ → ℕ) (float2uint32 : List α → List ℕ)
    (seed : α) (w h : ℕ) (px py : ℕ) : Cell α :=
  let seedRandom : α := 0.7
  let seedX : α := 0.9
  let seedY : α := 0.8
  let gridBorderMin : α := 0.2
  let gridBorderMax : α := 0.8
  let xn : α := (px : α) / (w : α)
  let yn : α := (py : α) / (h : α)
  { random := rnhNorm xxHash32 float2uint32 [seed, seedRandom, xn, yn]
    x := (rnhMinMax xxHash32 float2uint32 [seed, seedX, xn, yn] gridBorderMin gridBorderMax +
      (px : α)) * (GRID_SIZE : α)
    y := (rnhMinMax xxHash32 float2uint32 [seed, seedY, xn, yn] gridBorderMin gridBorderMax +
      (py : α)) * (GRID_SIZE : α)
    level := none
    biome := none }

/-! ## Assign level & biomes (lines 154-164) -/

/-- The callback of the pass "assign level & biomes".  The state is the grid
data, whose tile objects are changed in place, and the array `towns`. -/
def assignLevelAndBiome [FloorRing α] (perlin : Grid (Vec α))
    (st : List (List (Cell α)) × List (Vec α)) (x y : ℤ) :
    Except JsError (List (List (Cell α)) × List (Vec α)) :=
  match index st.1 y with
  | none => Except.error JsError.typeError
  | some row =>
    match index row x with
    | none => Except.error JsError.typeError
    | some p =>
      match perlinNoise perlin { x := p.x / 200, y := p.y / 200 } with
      | Except.error e => Except.error e
      | Except.ok noise =>
        let level := noise + 1.0
        let biome := selectBiome level p.random
        let q : Cell α := { p with level := some level, biome := some biome }
        let data := st.1.set y.toNat (row.set x.toNat q)
        let towns := if biome = Biome.town then st.2 ++ [{ x := p.x, y := p.y }] else st.2
        Except.ok (data, towns)

/-- The tile object `p` once its level and biome are set (unchanged when the
noise cannot be sampled). -/
def classifyCell [FloorRing α] (perlin : Grid (Vec α)) (p : Cell α) : Cell α :=
  match perlinNoise perlin { x := p.x / 200, y := p.y / 200 } with
  | Except.error _ => p
  | Except.ok noise =>
    { p with level := some (noise + 1.0), biome := some (selectBiome (noise + 1.0) p.random) }

/-- The positions of the tiles of a list whose biome is `'town'`, in list order. -/
def townPositions (cells : List (Cell α)) : List (Vec α) :=
  (cells.filter fun c => decide (c.biome = some Biome.town)).map fun c => { x := c.x, y := c.y }



/-! ## Mountains (lines 198-223) -/

/-- An entry `{x, y, xs, ys, node}` of `items`; `node` stands for the clone of
the entry of `mountains` it was made from. -/
structure Item (α μ : Type) where
  x : α
  y : α
  xs : α
  ys : α
  node : μ

/-- The item built for a mountain tile `p` (lines 203-209): `none` when
`mountains[Math.floor(p.random * mountains.length)]` is `undefined`, in which
case `m.cloneNode(true)` throws. -/
def mountainItemOf [FloorRing α] {μ : Type} (mountains : List μ) (p : Tile α) :
    Option (Item α μ) :=
  match index mountains ⌊p.random * (mountains.length : α)⌋ with
  | none => none
  | some m =>
    some { x := p.x, y := p.y, xs := 1.1 + (p.random * 0.2), ys := 1.3 + (p.random * 0.2),
           node := m }

/-- The body of the callback of the mountains pass for the tile `p`. -/
def pushMountain [FloorRing α] {μ : Type} (mountains : List μ) (items : List (Item α μ))
    (p : Tile α) : Except JsError (List (Item α μ)) :=
  if p.biome = Biome.mountain then
    match mountainItemOf mountains p with
    | none => Except.error JsError.typeError
    | some item => Except.ok (items ++ [item])
  else Except.ok items

/-- The callback of the mountains pass; the state is the array `items`. -/
def mountainStep [FloorRing α] {μ : Type} (mountains : List μ) (data : List (List (Tile α)))
    (items : List (Item α μ)) (x y : ℤ) : Except JsError (List (Item α μ)) :=
  match tileAt data x y with
  | none => Except.error JsError.typeError
  | some p => pushMountain mountains items p

/-- The array `items` after the mountains pass over the grid `g`. -/
def mountainItems [FloorRing α] {μ : Type} (mountains : List μ) (g : Grid (Tile α)) :
    Except JsError (List (Item α μ)) :=
  gridForEach g 0 (mountainStep mountains g.data) []

/-- The comparator `(a, b) => (a.y > b.y) ? 1 : -1` of `items.sort`. -/
def byY {μ : Type} (a b : Item α μ) : ℤ :=
  if a.y > b.y then 1 else -1

/-! ## The classified grid -/

/-- The tile object read as a classified tile: `none` while its level or its
biome is not set. -/
def Cell.toTile (c : Cell α) : Option (Tile α) :=
  match c.level, c.biome with
  | some level, some biome =>
    some { random := c.random, x := c.x, y := c.y, level := level, biome := biome }
  | _, _ => none

/-- A row of tile objects all of which are classified. -/
def classifiedRow : List (Cell α) → Option (List (Tile α))
  | [] => some []
  | c :: cs =>
    match c.toTile, classifiedRow cs with
    | some t, some ts => some (t :: ts)
    | _, _ => none

/-- The grid data after the pass "assign level & biomes", every tile carrying
its level and biome. -/
def classified : List (List (Cell α)) → Option (List (List (Tile α)))
  | [] => some []
  | row :: rows =>
    match classifiedRow row, classified rows with
    | some r, some rs => some (r :: rs)
    | _, _ => none

/-! ## Coastline pass (lines 226-298) -/

/-- The callback of the coastline pass; the state is the list of curves
appended so far.  The pass runs on interior cells, where the nine reads are
defined; a read that is `undefined` is rendered as the exception that reading
its biome raises. -/
def coastStep (data : List (List (Tile α))) (curves : List (Curve α)) (x y : ℤ) :
    Except JsError (List (Curve α)) :=
  match tileAt data x y, tileAt data (x - 1) (y + 0), tileAt data (x + 1) (y + 0),
    tileAt data (x - 0) (y - 1), tileAt data (x + 0) (y + 1), tileAt data (x - 1) (y - 1),
    tileAt data (x + 1) (y - 1), tileAt data (x - 1) (y + 1), tileAt data (x + 1) (y + 1) with
  | some p, some pl, some pr, some pt, some pb, some ptl, some ptr, some pbl, some pbr =>
    Except.ok (curves ++ coastCurves p (coastAnchors ⟨p, pl, pr, pt, pb, ptl, ptr, pbl, pbr⟩))
  | _, _, _, _, _, _, _, _, _ => Except.error JsError.typeError

/-! ## The whole run (lines 113-299) -/

/-- The functions and values that `main` takes from its host and its imports. -/
structure Host (α μ : Type) where
  xxHash32 : List ℕ → ℕ → ℕ
  float2uint32 : List α → List ℕ
  sqrt : α → α
  cos : α → α
  sin : α → α
  pi : α
  sortTargets : (Target α → Target α → ℤ) → List (Target α) → List (Target α)
  sortItems : (Item α μ → Item α μ → ℤ) → List (Item α μ) → List (Item α μ)
  mountains : List μ

/-- What a run hands to the renderer: the classified tiles, the towns, the
street lines, the mountain items in drawing order and the coastline curves. -/
structure Output (α μ : Type) where
  tiles : List (List (Tile α))
  towns : List (Vec α)
  roads : List (Vec α × Target α)
  items : List (Item α μ)
  curves : List (Curve α)

/-- The body of `main` for the seed `seed` and a grid of `w` by `h` tiles.
After the pass "assign level & biomes" every tile carries its level and biome,
so `classified` returns the tiles (the branch `none` is not taken when the pass
returns); the later passes read them. -/
def generate [FloorRing α] {μ : Type} (host : Host α μ) (seed : α) (w h : ℕ) :
    Except JsError (Output α μ) :=
  let perlin := perlinCreate host.xxHash32 host.float2uint32 host.cos host.sin host.pi seed
    (10 + 2) (8 + 2)
  let g := gridMake w h (mainCell host.xxHash32 host.float2uint32 seed w h)
  match gridForEach g 0 (assignLevelAndBiome perlin) (g.data, []) with
  | Except.error e => Except.error e
  | Except.ok (data, towns) =>
    match classified data with
    | none => Except.error JsError.typeError
    | some tiles =>
      let roads := streets host.sortTargets host.sqrt towns
      let t : Grid (Tile α) := { width := w, height := h, data := tiles }
      match gridForEach t 0 (mountainStep host.mountains tiles) [] with
      | Except.error e => Except.error e
      | Except.ok items =>
        let sorted := host.sortItems byY items
        match gridForEach t 1 (coastStep tiles) [] with
        | Except.error e => Except.error e
        | Except.ok curves =>
          Except.ok { tiles := tiles, towns := towns, roads := roads, items := sorted,
                      curves := curves }

/-- The function `main`: seed 0.3 and a grid of `WIDTH / GRID_SIZE` by
`HEIGHT / GRID_SIZE` tiles. -/
def main [FloorRing α] {μ : Type} (host : Host α μ) : Except JsError (Output α μ) :=
  generate host 0.3 (WIDTH / GRID_SIZE) (HEIGHT / GRID_SIZE)

/-- A host for evaluating a run over the rationals: the hash always returns
the word 0, the sorts are insertion sorts and `mountains` has three entries. -/
def sampleHost : Host ℚ ℕ :=
  { xxHash32 := fun _ _ => 0
    float2uint32 := fun _ => []
    sqrt := fun x => x
    cos := fun _ => 1
    sin := fun _ => 0
    pi := 3
    sortTargets := sortFromBack
    sortItems := sortFromBack
    mountains := [0, 1, 2] }

/-! ## Theorems -/

/-! ### Biomes -/

/-- C1: selectBiome is a total first-match classifier: it returns mountain iff
L > 1.4; town iff 1.0 < L <= 1.4 and r < 0.02; grass iff 0.8 < L <= 1.4 and not
(L > 1.0 and r < 0.02); water iff L <= 0.8.  In particular level 1.5 gives
mountain, (1.2, 0.01) gives town, (1.2, 0.5) gives grass and level 0.5 gives
water. -/
theorem selectBiome_first_match (L r : α) :
    (selectBiome L r = Biome.mountain ↔ L > 1.4) ∧
    (selectBiome L r = Biome.town ↔ 1.0 < L ∧ L ≤ 1.4 ∧ r < 0.02) ∧
    (selectBiome L r = Biome.grass ↔ 0.8 < L ∧ L ≤ 1.4 ∧ ¬ (L > 1.0 ∧ r < 0.02)) ∧
    (selectBiome L r = Biome.water ↔ L ≤ 0.8) ∧
    selectBiome (1.5 : α) r = Biome.mountain ∧
    selectBiome (1.2 : α) (0.01 : α) = Biome.town ∧
    selectBiome (1.2 : α) (0.5 : α) = Biome.grass ∧
    selectBiome (0.5 : α) r = Biome.water := by
  have h1 : (0.8 : α) < 1.0 := by norm_num
  have h2 : (1.0 : α) < 1.4 := by norm_num
  refine ⟨?_, ?_, ?_, ?_, ?_, ?_, ?_, ?_⟩
  · unfold selectBiome
    split_ifs with hm ht hg <;> simp [hm]
  · unfold selectBiome
    split_ifs with hm ht hg
    · simp only [reduceCtorEq, false_iff]
      intro h; exact absurd hm (not_lt.mpr h.2.1)
    · simp only [true_iff]
      exact ⟨ht.1, not_lt.mp hm, ht.2⟩
    · simp only [reduceCtorEq, false_iff]
      intro h; exact ht ⟨h.1, h.2.2⟩
    · simp only [reduceCtorEq, false_iff]
      intro h; exact ht ⟨h.1, h.2.2⟩
  · unfold selectBiome
    split_ifs with hm ht hg
    · simp only [reduceCtorEq, false_iff]
      intro h; exact absurd hm (not_lt.mpr h.2.1)
    · simp only [reduceCtorEq, false_iff]
      intro h; exact h.2.2 ht
    · simp only [true_iff]
      exact ⟨hg, not_lt.mp hm, ht⟩
    · simp only [reduceCtorEq, false_iff]
      intro h; exact hg h.1
  · unfold selectBiome
    split_ifs with hm ht hg
    · simp only [reduceCtorEq, false_iff]
      intro h; exact absurd (lt_trans (lt_trans h1 h2) hm) (not_lt.mpr h)
    · simp only [reduceCtorEq, false_iff]
      intro h; exact absurd (lt_trans h1 ht.1) (not_lt.mpr h)
    · simp only [reduceCtorEq, false_iff]
      intro h; exact absurd hg (not_lt.mpr h)
    · simp only [true_iff]
      exact not_lt.mp hg
  · unfold selectBiome
    norm_num
  · unfold selectBiome
    norm_num
  · unfold selectBiome
    norm_num
  · unfold selectBiome
    norm_num

/-! ## Helper lemmas: the host sort -/

theorem insertBy_perm {β : Type} (cmp : β → β → ℤ) (x : β) (l : List β) :
    (insertBy cmp x l).Perm (x :: l) := by
  induction l with
  | nil => exact List.Perm.refl _
  | cons e l ih =>
    unfold insertBy
    split_ifs with h
    · exact List.Perm.refl _
    · exact (List.Perm.cons e ih).trans (List.Perm.swap x e l)

theorem insertBy_pairwise {β : Type} (key : β → α) (cmp : β → β → ℤ)
    (hk : ∀ a b, cmp a b = if key a > key b then 1 else -1) (x : β) (l : List β)
    (hl : l.Pairwise fun a b => ¬ 0 < cmp a b) :
    (insertBy cmp x l).Pairwise fun a b => ¬ 0 < cmp a b := by
  have hpos : ∀ a b, 0 < cmp a b ↔ key a > key b := by
    intro a b
    rw [hk a b]
    split_ifs with h <;> simp [h]
  have hneg : ∀ a b, cmp a b < 0 ↔ ¬ key a > key b := by
    intro a b
    rw [hk a b]
    split_ifs with h <;> simp [h]
  induction l with
  | nil => simp [insertBy]
  | cons e l ih =>
    rw [List.pairwise_cons] at hl
    unfold insertBy
    split_ifs with h
    · rw [List.pairwise_cons]
      refine ⟨?_, List.pairwise_cons.mpr hl⟩
      intro b hb
      rw [hpos]
      rw [hneg] at h
      rcases List.mem_cons.mp hb with rfl | hb
      · exact h
      · have h2 := hl.1 b hb
        rw [hpos] at h2
        exact not_lt.mpr (le_trans (not_lt.mp h) (not_lt.mp h2))
    · rw [List.pairwise_cons]
      refine ⟨?_, ih hl.2⟩
      intro b hb
      rcases List.mem_cons.mp ((insertBy_perm cmp x l).mem_iff.mp hb) with rfl | hb
      · rw [hpos]
        rw [hneg, not_not] at h
        exact not_lt.mpr (le_of_lt h)
      · exact hl.1 b hb

theorem sortFromBack_sortsWith {β : Type} (key : β → α) (cmp : β → β → ℤ)
    (hk : ∀ a b, cmp a b = if key a > key b then 1 else -1) :
    SortsWith sortFromBack cmp := by
  intro l
  induction l with
  | nil => exact ⟨List.Perm.refl _, List.Pairwise.nil⟩
  | cons x l ih =>
    constructor
    · exact (insertBy_perm cmp x _).trans (List.Perm.cons x ih.1)
    · exact insertBy_pairwise key cmp hk x _ ih.2

theorem sortFromFront_sortsWith {β : Type} (key : β → α) (cmp : β → β → ℤ)
    (hk : ∀ a b, cmp a b = if key a > key b then 1 else -1) :
    SortsWith sortFromFront cmp := by
  have gen : ∀ (l acc : List β), (acc.Pairwise fun a b => ¬ 0 < cmp a b) →
      (l.foldl (fun acc x => insertBy cmp x acc) acc).Perm (acc ++ l) ∧
      (l.foldl (fun acc x => insertBy cmp x acc) acc).Pairwise fun a b => ¬ 0 < cmp a b := by
    intro l
    induction l with
    | nil => intro acc h; simpa using h
    | cons x l ih =>
      intro acc h
      have h2 := ih (insertBy cmp x acc) (insertBy_pairwise key cmp hk x acc h)
      refine ⟨?_, h2.2⟩
      refine h2.1.trans ?_
      have h3 : (insertBy cmp x acc ++ l).Perm ((x :: acc) ++ l) :=
        List.Perm.append_right l (insertBy_perm cmp x acc)
      refine h3.trans ?_
      simpa using (@List.perm_middle _ x acc l).symm
  intro l
  simpa [sortFromFront] using gen l [] List.Pairwise.nil

theorem byDistance_key (a b : Target α) :
    byDistance a b = if a.distance > b.distance then 1 else -1 := rfl

/-- The first entry of a sorted `toList` is one of its entries and none has a smaller distance. -/
theorem sorted_head_least
    (sort : (Target α → Target α → ℤ) → List (Target α) → List (Target α))
    (hsort : SortsWith sort byDistance) (l : List (Target α)) (hl : 0 < l.length) :
    ∃ u, (sort byDistance l)[0]? = some u ∧ u ∈ l ∧ ∀ v ∈ l, u.distance ≤ v.distance := by
  obtain ⟨hp, hs⟩ := hsort l
  cases hsl : sort byDistance l with
  | nil =>
    rw [hsl] at hp
    have := hp.length_eq
    simp at this
    omega
  | cons u rest =>
    rw [hsl] at hp hs
    refine ⟨u, by simp, hp.mem_iff.mp (List.mem_cons_self u rest), ?_⟩
    intro v hv
    rcases List.mem_cons.mp (hp.mem_iff.mpr hv) with rfl | hv
    · exact le_refl _
    · have := (List.pairwise_cons.mp hs).1 v hv
      unfold byDistance at this
      by_contra hc
      rw [if_pos (not_le.mp hc)] at this
      exact this (by norm_num)

/-! ## Helper lemmas: streets -/

theorem vec_ne_iff {γ : Type} (t v : Vec γ) : v ≠ t ↔ (t.x ≠ v.x ∨ t.y ≠ v.y) := by
  cases t with | mk tx ty => cases v with | mk vx vy =>
  simp only [ne_eq, Vec.mk.injEq, not_and_or]
  constructor
  · rintro (h | h)
    · exact Or.inl (fun e => h e.symm)
    · exact Or.inr (fun e => h e.symm)
  · rintro (h | h)
    · exact Or.inl (fun e => h e.symm)
    · exact Or.inr (fun e => h e.symm)

theorem mem_toList (sqrt : α → α) (towns : List (Vec α)) (t : Vec α) (u : Target α) :
    u ∈ toList sqrt towns t ↔
      ∃ v ∈ towns, v ≠ t ∧ u = { x := v.x, y := v.y, distance := distance sqrt t v } := by
  unfold toList
  simp only [List.mem_map, List.mem_filter, Bool.or_eq_true, decide_eq_true_eq]
  constructor
  · rintro ⟨v, ⟨hv, hne⟩, rfl⟩
    exact ⟨v, hv, (vec_ne_iff t v).mpr hne, rfl⟩
  · rintro ⟨v, hv, hne, rfl⟩
    exact ⟨v, ⟨hv, (vec_ne_iff t v).mp hne⟩, rfl⟩

theorem toList_length_pos (sqrt : α → α) (towns : List (Vec α)) (t : Vec α)
    (hother : ∃ v ∈ towns, v ≠ t) : 0 < (toList sqrt towns t).length := by
  obtain ⟨v, hv, hne⟩ := hother
  exact List.length_pos_of_mem ((mem_toList sqrt towns t _).mpr ⟨v, hv, hne, rfl⟩)

/-- The road of a town that has another town: its target is an entry of
`toList` of least distance. -/
theorem roadFrom_some
    (sort : (Target α → Target α → ℤ) → List (Target α) → List (Target α))
    (sqrt : α → α) (hsort : SortsWith sort byDistance) (towns : List (Vec α)) (t : Vec α)
    (hother : ∃ v ∈ towns, v ≠ t) :
    ∃ u, roadFrom sort sqrt towns t = some (t, u) ∧ u ∈ toList sqrt towns t ∧
      ∀ v ∈ toList sqrt towns t, u.distance ≤ v.distance := by
  have hpos := toList_length_pos sqrt towns t hother
  obtain ⟨u, hu, hmem, hmin⟩ := sorted_head_least sort hsort _ hpos
  refine ⟨u, ?_, hmem, hmin⟩
  unfold roadFrom
  simp only [gt_iff_lt, hpos, if_true, hu]

/-- C2: nearest-neighbour roads.  For every host sort that orders by the
comparator, every town list and every town t that has at least one other town,
the road drawn from t ends at a town u != t (the first entry of the sorted
toList) whose distance to t is at most the distance from t to every other
town.  With the towns (0,0), (10,0), (3,0) over the reals the road from (0,0)
targets (3,0), at distance 3. -/
theorem roadFrom_targets_nearest
    (sort : (Target α → Target α → ℤ) → List (Target α) → List (Target α))
    (sqrt : α → α) (hsort : SortsWith sort byDistance) (towns : List (Vec α)) (t : Vec α)
    (ht : t ∈ towns) (hother : ∃ v ∈ towns, v ≠ t) :
    (∃ u : Target α, roadFrom sort sqrt towns t = some (t, u) ∧
      (t, u) ∈ streets sort sqrt towns ∧
      u.pos ∈ towns ∧ u.pos ≠ t ∧ u.distance = distance sqrt t u.pos ∧
      ∀ v ∈ towns, v ≠ t → distance sqrt t u.pos ≤ distance sqrt t v) ∧
    (∀ sortR : (Target ℝ → Target ℝ → ℤ) → List (Target ℝ) → List (Target ℝ),
      SortsWith sortR byDistance →
      ∃ u : Target ℝ,
        roadFrom sortR Real.sqrt [⟨0, 0⟩, ⟨10, 0⟩, ⟨3, 0⟩] ⟨0, 0⟩ = some (⟨0, 0⟩, u) ∧
        u.pos = ⟨3, 0⟩ ∧ u.pos ≠ ⟨10, 0⟩ ∧ u.distance = 3) := by
  constructor
  · obtain ⟨u, hu, hmem, hmin⟩ := roadFrom_some sort sqrt hsort towns t hother
    obtain ⟨w, hw, hne, rfl⟩ := (mem_toList sqrt towns t u).mp hmem
    refine ⟨_, hu, ?_, hw, hne, rfl, ?_⟩
    · unfold streets
      exact List.mem_filterMap.mpr ⟨t, ht, hu⟩
    · intro v hv hvne
      exact hmin _ ((mem_toList sqrt towns t _).mpr ⟨v, hv, hvne, rfl⟩)
  · intro sortR hR
    have h9 : Real.sqrt 9 = 3 := by
      rw [show (9 : ℝ) = 3 ^ 2 by norm_num]
      exact Real.sqrt_sq (by norm_num)
    have h100 : Real.sqrt 100 = 10 := by
      rw [show (100 : ℝ) = 10 ^ 2 by norm_num]
      exact Real.sqrt_sq (by norm_num)
    have hne : (⟨3, 0⟩ : Vec ℝ) ≠ ⟨0, 0⟩ := by
      intro h
      have := congrArg Vec.x h
      norm_num at this
    obtain ⟨u, hu, hmem, hmin⟩ := roadFrom_some sortR Real.sqrt hR
      [⟨0, 0⟩, ⟨10, 0⟩, ⟨3, 0⟩] ⟨0, 0⟩ ⟨⟨3, 0⟩, by simp, hne⟩
    have h3 := hmin _ ((mem_toList Real.sqrt _ _ _).mpr ⟨⟨3, 0⟩, by simp, hne, rfl⟩)
    have d3 : distance Real.sqrt (⟨0, 0⟩ : Vec ℝ) ⟨3, 0⟩ = 3 := by
      unfold distance
      norm_num
      exact h9
    have d10 : distance Real.sqrt (⟨0, 0⟩ : Vec ℝ) ⟨10, 0⟩ = 10 := by
      unfold distance
      norm_num
      exact h100
    obtain ⟨w, hw, hwne, rfl⟩ := (mem_toList Real.sqrt _ _ u).mp hmem
    simp only [List.mem_cons, List.mem_singleton, List.not_mem_nil, or_false] at hw
    rcases hw with rfl | rfl | rfl
    · exact absurd rfl hwne
    · exfalso
      simp only [d3, d10] at h3
      norm_num at h3
    · refine ⟨_, hu, rfl, ?_, d3⟩
      intro h
      have := congrArg Vec.x h
      simp [Target.pos] at this

/-- C2 at the towns (0,0), (10,0), (3,0) over the reals, with an insertion sort
as host sort. -/
theorem roadFrom_targets_nearest_witness :
    SortsWith sortFromBack (byDistance : Target ℝ → Target ℝ → ℤ) ∧
    (⟨0, 0⟩ : Vec ℝ) ∈ [(⟨0, 0⟩ : Vec ℝ), ⟨10, 0⟩, ⟨3, 0⟩] ∧
    (∃ v ∈ [(⟨0, 0⟩ : Vec ℝ), ⟨10, 0⟩, ⟨3, 0⟩], v ≠ ⟨0, 0⟩) ∧
    (∃ u : Target ℝ,
      roadFrom sortFromBack Real.sqrt [⟨0, 0⟩, ⟨10, 0⟩, ⟨3, 0⟩] ⟨0, 0⟩ = some (⟨0, 0⟩, u) ∧
      (⟨0, 0⟩, u) ∈ streets sortFromBack Real.sqrt [⟨0, 0⟩, ⟨10, 0⟩, ⟨3, 0⟩] ∧
      u.pos ∈ [(⟨0, 0⟩ : Vec ℝ), ⟨10, 0⟩, ⟨3, 0⟩] ∧ u.pos ≠ ⟨0, 0⟩ ∧
      u.distance = distance Real.sqrt ⟨0, 0⟩ u.pos ∧
      ∀ v ∈ [(⟨0, 0⟩ : Vec ℝ), ⟨10, 0⟩, ⟨3, 0⟩], v ≠ ⟨0, 0⟩ →
        distance Real.sqrt ⟨0, 0⟩ u.pos ≤ distance Real.sqrt ⟨0, 0⟩ v) :=
  have h1 : SortsWith sortFromBack (byDistance : Target ℝ → Target ℝ → ℤ) :=
    sortFromBack_sortsWith Target.distance byDistance byDistance_key
  have h2 : (⟨0, 0⟩ : Vec ℝ) ∈ [(⟨0, 0⟩ : Vec ℝ), ⟨10, 0⟩, ⟨3, 0⟩] := by simp
  have h3 : ∃ v ∈ [(⟨0, 0⟩ : Vec ℝ), ⟨10, 0⟩, ⟨3, 0⟩], v ≠ ⟨0, 0⟩ :=
    ⟨⟨10, 0⟩, by simp, by simp⟩
  ⟨h1, h2, h3, (roadFrom_targets_nearest sortFromBack Real.sqrt h1 _ _ h2 h3).1⟩

/-! ### Equal distances: the towns (0,0), (3,0), (0,3) -/

theorem tie_distances :
    distance Real.sqrt (⟨0, 0⟩ : Vec ℝ) ⟨3, 0⟩ = Real.sqrt 9 ∧
    distance Real.sqrt (⟨0, 0⟩ : Vec ℝ) ⟨0, 3⟩ = Real.sqrt 9 := by
  unfold distance
  constructor <;> norm_num

theorem tie_toList :
    toList Real.sqrt [(⟨0, 0⟩ : Vec ℝ), ⟨3, 0⟩, ⟨0, 3⟩] ⟨0, 0⟩ =
      [⟨3, 0, Real.sqrt 9⟩, ⟨0, 3, Real.sqrt 9⟩] := by
  have h := tie_distances
  simp [toList, h.1, h.2, List.filter]

theorem tie_road_front :
    roadFrom sortFromFront Real.sqrt [(⟨0, 0⟩ : Vec ℝ), ⟨3, 0⟩, ⟨0, 3⟩] ⟨0, 0⟩ =
      some (⟨0, 0⟩, ⟨0, 3, Real.sqrt 9⟩) := by
  simp [roadFrom, tie_toList, sortFromFront, insertBy, byDistance]

theorem tie_road_back :
    roadFrom sortFromBack Real.sqrt [(⟨0, 0⟩ : Vec ℝ), ⟨3, 0⟩, ⟨0, 3⟩] ⟨0, 0⟩ =
      some (⟨0, 0⟩, ⟨3, 0, Real.sqrt 9⟩) := by
  simp [roadFrom, tie_toList, sortFromBack, insertBy, byDistance]

/-- C7, as stated, fails: the towns (3,0) and (0,3) are both at the least
distance from (0,0) and (3,0) comes first in the towns array, yet with a host
sort that takes the entries from the front (it asks the comparator for
(new, old) and gets -1 on equal distances) the road from (0,0) targets (0,3). -/
theorem road_tie_targets_later :
    SortsWith sortFromFront (byDistance : Target ℝ → Target ℝ → ℤ) ∧
    distance Real.sqrt (⟨0, 0⟩ : Vec ℝ) ⟨3, 0⟩ = distance Real.sqrt (⟨0, 0⟩ : Vec ℝ) ⟨0, 3⟩ ∧
    (∀ v ∈ [(⟨0, 0⟩ : Vec ℝ), ⟨3, 0⟩, ⟨0, 3⟩], v ≠ ⟨0, 0⟩ →
      distance Real.sqrt (⟨0, 0⟩ : Vec ℝ) ⟨3, 0⟩ ≤ distance Real.sqrt ⟨0, 0⟩ v) ∧
    ∃ u : Target ℝ,
      roadFrom sortFromFront Real.sqrt [⟨0, 0⟩, ⟨3, 0⟩, ⟨0, 3⟩] ⟨0, 0⟩ = some (⟨0, 0⟩, u) ∧
      u.pos = ⟨0, 3⟩ ∧ u.pos ≠ ⟨3, 0⟩ ∧
      [(⟨0, 0⟩ : Vec ℝ), ⟨3, 0⟩, ⟨0, 3⟩] = [⟨0, 0⟩] ++ ⟨3, 0⟩ :: [u.pos] := by
  have hd := tie_distances
  refine ⟨sortFromFront_sortsWith Target.distance byDistance byDistance_key,
    by rw [hd.1, hd.2], ?_, ⟨_, tie_road_front, rfl, ?_, rfl⟩⟩
  · intro v hv hne
    simp only [List.mem_cons, List.mem_singleton, List.not_mem_nil, or_false] at hv
    rcases hv with rfl | rfl | rfl
    · exact absurd rfl hne
    · exact le_refl _
    · rw [hd.1, hd.2]
  · intro h
    have := congrArg Vec.x h
    simp [Target.pos] at this

/-- C7 as amended: when two or more other towns are at the same least distance
from t, the road from t targets one of the towns at that least distance, for
every host sort that orders by the comparator; which of them is the host
sort's choice, because the comparator answers -1 for equal distances in
either order: on the towns (0,0), (3,0), (0,3) an insertion sort taking the
entries from the back targets (3,0), one taking them from the front (0,3). -/
theorem road_tie_targets_a_nearest
    (sort : (Target α → Target α → ℤ) → List (Target α) → List (Target α))
    (sqrt : α → α) (hsort : SortsWith sort byDistance) (towns : List (Vec α)) (t a b : Vec α)
    (ha : a ∈ towns) (_hb : b ∈ towns) (_hab : a ≠ b) (hat : a ≠ t) (_hbt : b ≠ t)
    (htie : distance sqrt t a = distance sqrt t b)
    (hmin : ∀ v ∈ towns, v ≠ t → distance sqrt t a ≤ distance sqrt t v) :
    (∃ u : Target α, roadFrom sort sqrt towns t = some (t, u) ∧
      u.pos ∈ towns ∧ u.pos ≠ t ∧ distance sqrt t u.pos = distance sqrt t a ∧
      distance sqrt t u.pos = distance sqrt t b) ∧
    (∃ u : Target ℝ,
      roadFrom sortFromBack Real.sqrt [⟨0, 0⟩, ⟨3, 0⟩, ⟨0, 3⟩] ⟨0, 0⟩ = some (⟨0, 0⟩, u) ∧
      u.pos = ⟨3, 0⟩) ∧
    (∃ u : Target ℝ,
      roadFrom sortFromFront Real.sqrt [⟨0, 0⟩, ⟨3, 0⟩, ⟨0, 3⟩] ⟨0, 0⟩ = some (⟨0, 0⟩, u) ∧
      u.pos = ⟨0, 3⟩) := by
  refine ⟨?_, ⟨_, tie_road_back, rfl⟩, ⟨_, tie_road_front, rfl⟩⟩
  obtain ⟨u, hu, hmem, hleast⟩ := roadFrom_some sort sqrt hsort towns t ⟨a, ha, hat⟩
  obtain ⟨w, hw, hne, rfl⟩ := (mem_toList sqrt towns t u).mp hmem
  have h1 := hleast _ ((mem_toList sqrt towns t _).mpr ⟨a, ha, hat, rfl⟩)
  have h2 := hmin w hw hne
  have h3 : distance sqrt t w = distance sqrt t a := le_antisymm h1 h2
  exact ⟨_, hu, hw, hne, h3, h3.trans htie⟩

/-- C7 as amended, at the towns (0,0), (3,0), (0,3) over the reals. -/
theorem road_tie_targets_a_nearest_witness :
    SortsWith sortFromBack (byDistance : Target ℝ → Target ℝ → ℤ) ∧
    (⟨3, 0⟩ : Vec ℝ) ∈ [(⟨0, 0⟩ : Vec ℝ), ⟨3, 0⟩, ⟨0, 3⟩] ∧
    (⟨0, 3⟩ : Vec ℝ) ∈ [(⟨0, 0⟩ : Vec ℝ), ⟨3, 0⟩, ⟨0, 3⟩] ∧
    (⟨3, 0⟩ : Vec ℝ) ≠ ⟨0, 3⟩ ∧ (⟨3, 0⟩ : Vec ℝ) ≠ ⟨0, 0⟩ ∧ (⟨0, 3⟩ : Vec ℝ) ≠ ⟨0, 0⟩ ∧
    distance Real.sqrt (⟨0, 0⟩ : Vec ℝ) ⟨3, 0⟩ = distance Real.sqrt (⟨0, 0⟩ : Vec ℝ) ⟨0, 3⟩ ∧
    (∀ v ∈ [(⟨0, 0⟩ : Vec ℝ), ⟨3, 0⟩, ⟨0, 3⟩], v ≠ ⟨0, 0⟩ →
      distance Real.sqrt (⟨0, 0⟩ : Vec ℝ) ⟨3, 0⟩ ≤ distance Real.sqrt ⟨0, 0⟩ v) ∧
    (∃ u : Target ℝ,
      roadFrom sortFromBack Real.sqrt [⟨0, 0⟩, ⟨3, 0⟩, ⟨0, 3⟩] ⟨0, 0⟩ = some (⟨0, 0⟩, u) ∧
      u.pos ∈ [(⟨0, 0⟩ : Vec ℝ), ⟨3, 0⟩, ⟨0, 3⟩] ∧ u.pos ≠ ⟨0, 0⟩ ∧
      distance Real.sqrt ⟨0, 0⟩ u.pos = distance Real.sqrt (⟨0, 0⟩ : Vec ℝ) ⟨3, 0⟩ ∧
      distance Real.sqrt ⟨0, 0⟩ u.pos = distance Real.sqrt (⟨0, 0⟩ : Vec ℝ) ⟨0, 3⟩) :=
  have h1 : SortsWith sortFromBack (byDistance : Target ℝ → Target ℝ → ℤ) :=
    sortFromBack_sortsWith Target.distance byDistance byDistance_key
  have ha : (⟨3, 0⟩ : Vec ℝ) ∈ [(⟨0, 0⟩ : Vec ℝ), ⟨3, 0⟩, ⟨0, 3⟩] := by simp
  have hb : (⟨0, 3⟩ : Vec ℝ) ∈ [(⟨0, 0⟩ : Vec ℝ), ⟨3, 0⟩, ⟨0, 3⟩] := by simp
  have hab : (⟨3, 0⟩ : Vec ℝ) ≠ ⟨0, 3⟩ := by simp
  have hat : (⟨3, 0⟩ : Vec ℝ) ≠ ⟨0, 0⟩ := by simp
  have hbt : (⟨0, 3⟩ : Vec ℝ) ≠ ⟨0, 0⟩ := by simp
  have htie : distance Real.sqrt (⟨0, 0⟩ : Vec ℝ) ⟨3, 0⟩ =
      distance Real.sqrt (⟨0, 0⟩ : Vec ℝ) ⟨0, 3⟩ := by
    rw [tie_distances.1, tie_distances.2]
  have hmin : ∀ v ∈ [(⟨0, 0⟩ : Vec ℝ), ⟨3, 0⟩, ⟨0, 3⟩], v ≠ ⟨0, 0⟩ →
      distance Real.sqrt (⟨0, 0⟩ : Vec ℝ) ⟨3, 0⟩ ≤ distance Real.sqrt ⟨0, 0⟩ v := by
    intro v hv hne
    simp only [List.mem_cons, List.mem_singleton, List.not_mem_nil, or_false] at hv
    rcases hv with rfl | rfl | rfl
    · exact absurd rfl hne
    · exact le_refl _
    · rw [htie]
  ⟨h1, ha, hb, hab, hat, hbt, htie, hmin,
    (road_tie_targets_a_nearest sortFromBack Real.sqrt h1 _ _ _ _ ha hb hab hat hbt htie hmin).1⟩

theorem filterMap_fst {γ δ : Type} (f : γ → Option (γ × δ)) (l : List γ)
    (h : ∀ x ∈ l, ∃ u, f x = some (x, u)) : (l.filterMap f).map Prod.fst = l := by
  induction l with
  | nil => rfl
  | cons x l ih =>
    obtain ⟨u, hu⟩ := h x (List.mem_cons_self x l)
    rw [List.filterMap_cons_some hu, List.map_cons,
      ih (fun y hy => h y (List.mem_cons_of_mem x hy))]

theorem filterMap_none {γ δ : Type} (f : γ → Option δ) (l : List γ)
    (h : ∀ x ∈ l, f x = none) : l.filterMap f = [] := by
  induction l with
  | nil => rfl
  | cons x l ih =>
    rw [List.filterMap_cons_none (h x (List.mem_cons_self x l)),
      ih (fun y hy => h y (List.mem_cons_of_mem x hy))]

theorem exists_other_of_nodup {γ : Type} (l : List γ) (hd : l.Nodup) (h2 : 2 ≤ l.length)
    (t : γ) : ∃ v ∈ l, v ≠ t := by
  match l, hd, h2 with
  | a :: b :: rest, hd, _ =>
    have hab : a ≠ b := by
      intro h
      rw [List.nodup_cons] at hd
      exact hd.1 (h ▸ List.mem_cons_self b rest)
    by_cases ha : a = t
    · exact ⟨b, by simp, fun hb => hab (ha.trans hb.symm)⟩
    · exact ⟨a, by simp, ha⟩

theorem roadFrom_none_of_alone
    (sort : (Target α → Target α → ℤ) → List (Target α) → List (Target α))
    (sqrt : α → α) (towns : List (Vec α)) (t : Vec α) (h : ∀ v ∈ towns, v = t) :
    roadFrom sort sqrt towns t = none := by
  have hnil : toList sqrt towns t = [] := by
    rw [List.eq_nil_iff_forall_not_mem]
    intro u hu
    obtain ⟨v, hv, hne, _⟩ := (mem_toList sqrt towns t u).mp hu
    exact hne (h v hv)
  simp [roadFrom, hnil]

theorem roadFrom_pair
    (sort : (Target α → Target α → ℤ) → List (Target α) → List (Target α))
    (sqrt : α → α) (hsort : SortsWith sort byDistance) (a b : Vec α) (hab : a ≠ b) :
    roadFrom sort sqrt [a, b] a = some (a, ⟨b.x, b.y, distance sqrt a b⟩) ∧
    roadFrom sort sqrt [a, b] b = some (b, ⟨a.x, a.y, distance sqrt b a⟩) := by
  constructor
  · obtain ⟨u, hu, hmem, _⟩ := roadFrom_some sort sqrt hsort [a, b] a ⟨b, by simp, hab.symm⟩
    obtain ⟨w, hw, hne, rfl⟩ := (mem_toList sqrt _ _ u).mp hmem
    simp only [List.mem_cons, List.mem_singleton, List.not_mem_nil, or_false] at hw
    rcases hw with rfl | rfl
    · exact absurd rfl hne
    · exact hu
  · obtain ⟨u, hu, hmem, _⟩ := roadFrom_some sort sqrt hsort [a, b] b ⟨a, by simp, hab⟩
    obtain ⟨w, hw, hne, rfl⟩ := (mem_toList sqrt _ _ u).mp hmem
    simp only [List.mem_cons, List.mem_singleton, List.not_mem_nil, or_false] at hw
    rcases hw with rfl | rfl
    · exact hu
    · exact absurd rfl hne

/-- C8: road count.  For every town list with pairwise distinct positions (and
every host sort that orders by the comparator), the streets pass emits exactly
one road per town, in town order, when there are at least two towns, and no
road when there are zero or one towns.  Roads are not deduplicated: two towns
a, b alone yield the two roads a->b and b->a, and whenever the road of a
targets b and the road of b targets a both are in the output. -/
theorem streets_one_road_per_town
    (sort : (Target α → Target α → ℤ) → List (Target α) → List (Target α))
    (sqrt : α → α) (hsort : SortsWith sort byDistance) (towns : List (Vec α))
    (hd : towns.Nodup) :
    (2 ≤ towns.length →
      (streets sort sqrt towns).map Prod.fst = towns ∧
      (streets sort sqrt towns).length = towns.length) ∧
    (towns.length ≤ 1 → streets sort sqrt towns = []) ∧
    (∀ a b : Vec α, a ≠ b →
      streets sort sqrt [a, b] =
        [(a, ⟨b.x, b.y, distance sqrt a b⟩), (b, ⟨a.x, a.y, distance sqrt b a⟩)]) ∧
    (∀ (a b : Vec α) (ua ub : Target α), a ∈ towns → b ∈ towns →
      roadFrom sort sqrt towns a = some (a, ua) → ua.pos = b →
      roadFrom sort sqrt towns b = some (b, ub) → ub.pos = a →
      (a, ua) ∈ streets sort sqrt towns ∧ (b, ub) ∈ streets sort sqrt towns) := by
  refine ⟨?_, ?_, ?_, ?_⟩
  · intro h2
    have hfst : (streets sort sqrt towns).map Prod.fst = towns := by
      unfold streets
      apply filterMap_fst
      intro t _
      obtain ⟨u, hu, _⟩ := roadFrom_some sort sqrt hsort towns t
        (exists_other_of_nodup towns hd h2 t)
      exact ⟨u, hu⟩
    refine ⟨hfst, ?_⟩
    have := congrArg List.length hfst
    rwa [List.length_map] at this
  · intro h1
    unfold streets
    apply filterMap_none
    intro t ht
    apply roadFrom_none_of_alone
    intro v hv
    match towns, h1, ht, hv with
    | [x], _, ht, hv =>
      rw [List.mem_singleton] at ht hv
      rw [ht, hv]
  · intro a b hab
    obtain ⟨h1, h2⟩ := roadFrom_pair sort sqrt hsort a b hab
    unfold streets
    rw [List.filterMap_cons_some h1, List.filterMap_cons_some h2, List.filterMap_nil]
  · intro a b ua ub ha hb hra _ hrb _
    unfold streets
    exact ⟨List.mem_filterMap.mpr ⟨a, ha, hra⟩, List.mem_filterMap.mpr ⟨b, hb, hrb⟩⟩

/-- C8 at the two towns (0,0) and (3,0) over the reals: two roads. -/
theorem streets_one_road_per_town_witness :
    SortsWith sortFromBack (byDistance : Target ℝ → Target ℝ → ℤ) ∧
    [(⟨0, 0⟩ : Vec ℝ), ⟨3, 0⟩].Nodup ∧
    2 ≤ [(⟨0, 0⟩ : Vec ℝ), ⟨3, 0⟩].length ∧
    (streets sortFromBack Real.sqrt [(⟨0, 0⟩ : Vec ℝ), ⟨3, 0⟩]).map Prod.fst =
      [⟨0, 0⟩, ⟨3, 0⟩] ∧
    (streets sortFromBack Real.sqrt [(⟨0, 0⟩ : Vec ℝ), ⟨3, 0⟩]).length =
      [(⟨0, 0⟩ : Vec ℝ), ⟨3, 0⟩].length :=
  have h1 : SortsWith sortFromBack (byDistance : Target ℝ → Target ℝ → ℤ) :=
    sortFromBack_sortsWith Target.distance byDistance byDistance_key
  have hd : [(⟨0, 0⟩ : Vec ℝ), ⟨3, 0⟩].Nodup := by simp
  have h2 : 2 ≤ [(⟨0, 0⟩ : Vec ℝ), ⟨3, 0⟩].length := by simp
  ⟨h1, hd, h2, (streets_one_road_per_town sortFromBack Real.sqrt h1 _ hd).1 h2⟩

/-! ## Helper lemmas: coastline -/

theorem pushIf_eq {γ : Type} (c : Bool) (t : Tile γ) (ps : List (Tile γ)) :
    pushIf c t ps = ps ++ (if c then [t] else []) := by
  unfold pushIf
  cases c <;> simp

theorem coastAnchors_of_not_water {γ : Type} (n : Neighbourhood γ)
    (h : n.p.biome ≠ Biome.water) : coastAnchors n = [] := by
  simp [coastAnchors, pushIf, h]

theorem coastCurves_nil (p : Tile α) : coastCurves p [] = [] := by
  simp [coastCurves]

/-- C3: coastline segment emission per tile.  With exactly 2 anchors one curve
is emitted, with start control middle(p, ps[0]), through-point p and end
control middle(p, ps[1]); with exactly 4 anchors two curves, pairing
(ps[0], ps[1]) then (ps[2], ps[3]), both through p; for every other length
nothing is emitted.  middle is the componentwise average.  A neighbourhood
matching no rule (such as one whose nine tiles are all water) yields no
curve. -/
theorem coastCurves_emission (p a b c d : Tile α) (ps : List (Tile α)) (u v : Vec α)
    (n : Neighbourhood α) :
    coastCurves p [a, b] = [⟨middle p.pos a.pos, p.pos, middle p.pos b.pos⟩] ∧
    coastCurves p [a, b, c, d] =
      [⟨middle p.pos a.pos, p.pos, middle p.pos b.pos⟩,
       ⟨middle p.pos c.pos, p.pos, middle p.pos d.pos⟩] ∧
    (ps.length ≠ 2 → ps.length ≠ 4 → coastCurves p ps = []) ∧
    (coastCurves p ps).length =
      (if ps.length = 2 then 1 else if ps.length = 4 then 2 else 0) ∧
    middle u v = ⟨(u.x + v.x) / 2, (u.y + v.y) / 2⟩ ∧
    (coastAnchors n = [] → coastCurves n.p (coastAnchors n) = []) ∧
    coastCurves p (coastAnchors ⟨p, p, p, p, p, p, p, p, p⟩) = [] := by
  refine ⟨by simp [coastCurves], by simp [coastCurves], ?_, ?_, rfl, ?_, ?_⟩
  · intro h2 h4
    simp [coastCurves, h2, h4]
  · unfold coastCurves
    split_ifs <;> simp
  · intro h
    rw [h]
    simp [coastCurves]
  · have : coastAnchors (⟨p, p, p, p, p, p, p, p, p⟩ : Neighbourhood α) = [] := by
      rcases hb : p.biome with _ | _ | _ | _ <;> simp [coastAnchors, pushIf, hb]
    rw [this]
    simp [coastCurves]

/-- C3 at a list of three anchors and at an all-water neighbourhood over the
rationals. -/
theorem coastCurves_emission_witness :
    [(⟨0, 1, 1, 0, Biome.water⟩ : Tile ℚ), ⟨0, 2, 2, 0, Biome.water⟩,
      ⟨0, 3, 3, 0, Biome.water⟩].length ≠ 2 ∧
    [(⟨0, 1, 1, 0, Biome.water⟩ : Tile ℚ), ⟨0, 2, 2, 0, Biome.water⟩,
      ⟨0, 3, 3, 0, Biome.water⟩].length ≠ 4 ∧
    coastCurves (⟨0, 0, 0, 0, Biome.water⟩ : Tile ℚ)
      [⟨0, 1, 1, 0, Biome.water⟩, ⟨0, 2, 2, 0, Biome.water⟩, ⟨0, 3, 3, 0, Biome.water⟩] = [] ∧
    coastAnchors (⟨⟨0, 0, 0, 0, Biome.water⟩, ⟨0, 0, 0, 0, Biome.water⟩,
      ⟨0, 0, 0, 0, Biome.water⟩, ⟨0, 0, 0, 0, Biome.water⟩, ⟨0, 0, 0, 0, Biome.water⟩,
      ⟨0, 0, 0, 0, Biome.water⟩, ⟨0, 0, 0, 0, Biome.water⟩, ⟨0, 0, 0, 0, Biome.water⟩,
      ⟨0, 0, 0, 0, Biome.water⟩⟩ : Neighbourhood ℚ) = [] ∧
    coastCurves (⟨0, 0, 0, 0, Biome.water⟩ : Tile ℚ)
      (coastAnchors (⟨⟨0, 0, 0, 0, Biome.water⟩, ⟨0, 0, 0, 0, Biome.water⟩,
      ⟨0, 0, 0, 0, Biome.water⟩, ⟨0, 0, 0, 0, Biome.water⟩, ⟨0, 0, 0, 0, Biome.water⟩,
      ⟨0, 0, 0, 0, Biome.water⟩, ⟨0, 0, 0, 0, Biome.water⟩, ⟨0, 0, 0, 0, Biome.water⟩,
      ⟨0, 0, 0, 0, Biome.water⟩⟩ : Neighbourhood ℚ)) = [] :=
  have h2 : [(⟨0, 1, 1, 0, Biome.water⟩ : Tile ℚ), ⟨0, 2, 2, 0, Biome.water⟩,
      ⟨0, 3, 3, 0, Biome.water⟩].length ≠ 2 := by decide
  have h4 : [(⟨0, 1, 1, 0, Biome.water⟩ : Tile ℚ), ⟨0, 2, 2, 0, Biome.water⟩,
      ⟨0, 3, 3, 0, Biome.water⟩].length ≠ 4 := by decide
  have hn : coastAnchors (⟨⟨0, 0, 0, 0, Biome.water⟩, ⟨0, 0, 0, 0, Biome.water⟩,
      ⟨0, 0, 0, 0, Biome.water⟩, ⟨0, 0, 0, 0, Biome.water⟩, ⟨0, 0, 0, 0, Biome.water⟩,
      ⟨0, 0, 0, 0, Biome.water⟩, ⟨0, 0, 0, 0, Biome.water⟩, ⟨0, 0, 0, 0, Biome.water⟩,
      ⟨0, 0, 0, 0, Biome.water⟩⟩ : Neighbourhood ℚ) = [] := by
    simp [coastAnchors, pushIf]
  have key := coastCurves_emission (⟨0, 0, 0, 0, Biome.water⟩ : Tile ℚ)
    ⟨0, 0, 0, 0, Biome.water⟩ ⟨0, 0, 0, 0, Biome.water⟩ ⟨0, 0, 0, 0, Biome.water⟩
    ⟨0, 0, 0, 0, Biome.water⟩
    [⟨0, 1, 1, 0, Biome.water⟩, ⟨0, 2, 2, 0, Biome.water⟩, ⟨0, 3, 3, 0, Biome.water⟩]
    ⟨0, 0⟩ ⟨0, 0⟩
    ⟨⟨0, 0, 0, 0, Biome.water⟩, ⟨0, 0, 0, 0, Biome.water⟩,
      ⟨0, 0, 0, 0, Biome.water⟩, ⟨0, 0, 0, 0, Biome.water⟩, ⟨0, 0, 0, 0, Biome.water⟩,
      ⟨0, 0, 0, 0, Biome.water⟩, ⟨0, 0, 0, 0, Biome.water⟩, ⟨0, 0, 0, 0, Biome.water⟩,
      ⟨0, 0, 0, 0, Biome.water⟩⟩
  ⟨h2, h4, key.2.2.1 h2 h4, hn, key.2.2.2.2.2.1 hn⟩

/-- C9: only water tiles are coastline candidates: when the centre tile is not
water (grass, mountain or town) the anchor list is empty, whatever the eight
neighbours are, so none of the 16 rules matched, and no curve is emitted. -/
theorem coast_only_water_centre (n : Neighbourhood α) (h : n.p.biome ≠ Biome.water) :
    coastAnchors n = [] ∧ coastCurves n.p (coastAnchors n) = [] := by
  have h0 := coastAnchors_of_not_water n h
  rw [h0]
  exact ⟨rfl, coastCurves_nil n.p⟩

/-- C9 at a grass centre surrounded by the pattern of the first top-right rule. -/
theorem coast_only_water_centre_witness :
    (⟨⟨0, 1, 1, 1, Biome.grass⟩, ⟨0, 0, 1, 1, Biome.water⟩, ⟨0, 2, 1, 1, Biome.grass⟩,
      ⟨0, 1, 0, 1, Biome.water⟩, ⟨0, 1, 2, 1, Biome.water⟩, ⟨0, 0, 0, 1, Biome.water⟩,
      ⟨0, 2, 0, 1, Biome.water⟩, ⟨0, 0, 2, 1, Biome.water⟩,
      ⟨0, 2, 2, 1, Biome.water⟩⟩ : Neighbourhood ℚ).p.biome ≠ Biome.water ∧
    coastAnchors (⟨⟨0, 1, 1, 1, Biome.grass⟩, ⟨0, 0, 1, 1, Biome.water⟩,
      ⟨0, 2, 1, 1, Biome.grass⟩,
      ⟨0, 1, 0, 1, Biome.water⟩, ⟨0, 1, 2, 1, Biome.water⟩, ⟨0, 0, 0, 1, Biome.water⟩,
      ⟨0, 2, 0, 1, Biome.water⟩, ⟨0, 0, 2, 1, Biome.water⟩,
      ⟨0, 2, 2, 1, Biome.water⟩⟩ : Neighbourhood ℚ) = [] :=
  have h : (⟨⟨0, 1, 1, 1, Biome.grass⟩, ⟨0, 0, 1, 1, Biome.water⟩, ⟨0, 2, 1, 1, Biome.grass⟩,
      ⟨0, 1, 0, 1, Biome.water⟩, ⟨0, 1, 2, 1, Biome.water⟩, ⟨0, 0, 0, 1, Biome.water⟩,
      ⟨0, 2, 0, 1, Biome.water⟩, ⟨0, 0, 2, 1, Biome.water⟩,
      ⟨0, 2, 2, 1, Biome.water⟩⟩ : Neighbourhood ℚ).p.biome ≠ Biome.water := by decide
  ⟨h, (coast_only_water_centre _ h).1⟩

/-- C10: rotational symmetry of the 16 coastline rules.  Turning the eight
neighbours by a quarter around the centre (pt->pr->pb->pl->pt and
ptr->pbr->pbl->ptl->ptr) leaves the multiset of collected anchor tiles
unchanged (each anchor tile is collected again, from the place it was turned
to), so the number of anchors is unchanged too. -/
theorem coastAnchors_rotate {γ : Type} (n : Neighbourhood γ) :
    (coastAnchors n.rotate).Perm (coastAnchors n) ∧
    (coastAnchors n.rotate).length = (coastAnchors n).length ∧
    n.rotate.pr = n.pt ∧ n.rotate.pb = n.pr ∧ n.rotate.pl = n.pb ∧ n.rotate.pt = n.pl ∧
    n.rotate.pbr = n.ptr ∧ n.rotate.pbl = n.pbr ∧ n.rotate.ptl = n.pbl ∧
    n.rotate.ptr = n.ptl ∧ n.rotate.p = n.p := by
  have hp : (coastAnchors n.rotate).Perm (coastAnchors n) := by
    rw [← Multiset.coe_eq_coe]
    simp only [coastAnchors, pushIf_eq, Neighbourhood.rotate, List.nil_append,
      ← Multiset.coe_add]
    simp only [Bool.and_comm, Bool.and_left_comm, Bool.and_assoc]
    abel
  exact ⟨hp, hp.length_eq, rfl, rfl, rfl, rfl, rfl, rfl, rfl, rfl, rfl⟩

/-! ## Helper lemmas: gradient noise -/

theorem index_eq_some_of_lt {β : Type} (xs : List β) (i : ℤ) (h0 : 0 ≤ i)
    (h1 : i < xs.length) : ∃ v, index xs i = some v ∧ v ∈ xs := by
  have hlt : i.toNat < xs.length := by omega
  refine ⟨xs[i.toNat], ?_, List.getElem_mem hlt⟩
  unfold index
  rw [if_pos h0, List.getElem?_eq_getElem hlt]

theorem index_eq_none_of_not {β : Type} (xs : List β) (i : ℤ)
    (h : ¬ (0 ≤ i ∧ i < xs.length)) : index xs i = none := by
  unfold index
  by_cases h0 : 0 ≤ i
  · rw [if_pos h0, List.getElem?_eq_none_iff]
    have : ¬ i < xs.length := fun h1 => h ⟨h0, h1⟩
    omega
  · rw [if_neg h0]

theorem dot_ok (perlin : Grid (Vec α)) (hwf : perlin.WellFormed) (p : Vec α) (pfx pfy : ℤ)
    (hx0 : 0 ≤ pfx) (hx1 : pfx < perlin.width) (hy0 : 0 ≤ pfy) (hy1 : pfy < perlin.height) :
    ∃ g, gradientAt perlin pfx pfy = some g ∧
      dot perlin p pfx pfy =
        Except.ok ((p.x - (pfx : α)) * g.x + (p.y - (pfy : α)) * g.y) := by
  obtain ⟨row, hrow, hmem⟩ := index_eq_some_of_lt perlin.data pfy hy0 (by rw [hwf.1]; exact hy1)
  obtain ⟨g, hg, _⟩ := index_eq_some_of_lt row pfx hx0 (by rw [hwf.2 row hmem]; exact hx1)
  refine ⟨g, ?_, ?_⟩
  · simp [gradientAt, hrow, hg]
  · simp [dot, hrow, hg]

theorem dot_error (perlin : Grid (Vec α)) (hwf : perlin.WellFormed) (p : Vec α) (pfx pfy : ℤ)
    (h : ¬ (0 ≤ pfx ∧ pfx < perlin.width ∧ 0 ≤ pfy ∧ pfy < perlin.height)) :
    dot perlin p pfx pfy = Except.error JsError.typeError := by
  by_cases hy : 0 ≤ pfy ∧ pfy < perlin.data.length
  · obtain ⟨row, hrow, hmem⟩ := index_eq_some_of_lt perlin.data pfy hy.1 hy.2
    have hx : ¬ (0 ≤ pfx ∧ pfx < row.length) := by
      rw [hwf.2 row hmem]
      intro hx
      exact h ⟨hx.1, hx.2, hy.1, by rw [← hwf.1]; exact hy.2⟩
    simp [dot, hrow, index_eq_none_of_not row pfx hx]
  · simp [dot, index_eq_none_of_not perlin.data pfy hy]

theorem smootherstep_zero : smootherstep (0 : α) = 0 := by
  simp [smootherstep]

theorem gridMake_wellFormed {β : Type} (width height : ℕ) (callable : ℕ → ℕ → β) :
    (gridMake width height callable).WellFormed := by
  constructor
  · simp [gridMake]
  · intro row hrow
    simp only [gridMake, List.mem_map] at hrow
    obtain ⟨y, _, rfl⟩ := hrow
    simp [gridMake]

/-- C4, as stated, fails: the 32-bit word 0xffffffff is normalised to exactly
1, so the upper bound is not strict. -/
theorem rnhNorm_reaches_one :
    (4294967295 : ℕ) ≤ 2 ^ 32 - 1 ∧
    rnhNorm (fun _ _ => 4294967295) (fun _ => []) ([3 / 10] : List ℚ) = 1 ∧
    ¬ rnhNorm (fun _ _ => 4294967295) (fun _ => []) ([3 / 10] : List ℚ) < 1 := by
  have h : rnhNorm (fun _ _ => 4294967295) (fun _ => []) ([3 / 10] : List ℚ) = 1 := by
    simp [rnhNorm, UINT32_MAX]
  refine ⟨by norm_num, h, ?_⟩
  rw [h]
  exact lt_irrefl 1

/-- C4 as amended: for every 32-bit word h that xxHash32 returns
(0 <= h <= 2^32-1) the value rnhNorm computes, h / 0xffffffff, satisfies
0 <= result <= 1 (what the console.assert of rnhNorm checks), and result < 1
exactly when h is not 0xffffffff. -/
theorem rnhNorm_range (xxHash32 : List ℕ → ℕ → ℕ) (float2uint32 : List α → List ℕ)
    (seeds : List α) (h : xxHash32 (float2uint32 seeds) 0 ≤ 2 ^ 32 - 1) :
    0 ≤ rnhNorm xxHash32 float2uint32 seeds ∧
    rnhNorm xxHash32 float2uint32 seeds ≤ 1 ∧
    (rnhNorm xxHash32 float2uint32 seeds < 1 ↔
      xxHash32 (float2uint32 seeds) 0 ≠ 0xffffffff) := by
  have hpos : (0 : α) < (UINT32_MAX : α) := by
    simp [UINT32_MAX]
  have hle : ((xxHash32 (float2uint32 seeds) 0 : ℕ) : α) ≤ (UINT32_MAX : α) := by
    have : xxHash32 (float2uint32 seeds) 0 ≤ UINT32_MAX := by
      simpa [UINT32_MAX] using h
    exact_mod_cast this
  unfold rnhNorm
  refine ⟨div_nonneg (Nat.cast_nonneg _) (le_of_lt hpos), (div_le_one hpos).mpr hle, ?_⟩
  rw [div_lt_one hpos]
  constructor
  · intro hlt heq
    rw [heq] at hlt
    simp [UINT32_MAX] at hlt
  · intro hne
    have : xxHash32 (float2uint32 seeds) 0 < UINT32_MAX := by
      have h' : xxHash32 (float2uint32 seeds) 0 ≤ UINT32_MAX := by
        simpa [UINT32_MAX] using h
      exact lt_of_le_of_ne h' (by simpa [UINT32_MAX] using hne)
    exact_mod_cast this

/-- C4 as amended, at a hash that returns the word 7. -/
theorem rnhNorm_range_witness :
    (7 : ℕ) ≤ 2 ^ 32 - 1 ∧
    0 ≤ rnhNorm (fun _ _ => 7) (fun _ => []) ([3 / 10] : List ℚ) ∧
    rnhNorm (fun _ _ => 7) (fun _ => []) ([3 / 10] : List ℚ) ≤ 1 :=
  have h : (7 : ℕ) ≤ 2 ^ 32 - 1 := by norm_num
  have key := rnhNorm_range (fun _ _ => 7) (fun _ => []) ([3 / 10] : List ℚ) h
  ⟨h, key.1, key.2.1⟩

/-- C5: noise at lattice points.  For every gradient lattice of size
width x height (any gradient vectors) and all integers x, y with 0 <= x,
x+1 < width, 0 <= y, y+1 < height, perlinNoise(perlin, {x, y}) returns
exactly 0. -/
theorem perlinNoise_lattice_point [FloorRing α] (perlin : Grid (Vec α))
    (hwf : perlin.WellFormed) (x y : ℤ)
    (hx0 : 0 ≤ x) (hx1 : x + 1 < perlin.width) (hy0 : 0 ≤ y) (hy1 : y + 1 < perlin.height) :
    perlinNoise perlin ⟨(x : α), (y : α)⟩ = Except.ok 0 := by
  obtain ⟨g1, _, h1⟩ := dot_ok perlin hwf ⟨(x : α), (y : α)⟩ (x + 0) (y + 0)
    (by omega) (by omega) (by omega) (by omega)
  obtain ⟨g2, _, h2⟩ := dot_ok perlin hwf ⟨(x : α), (y : α)⟩ (x + 1) (y + 0)
    (by omega) (by omega) (by omega) (by omega)
  obtain ⟨g3, _, h3⟩ := dot_ok perlin hwf ⟨(x : α), (y : α)⟩ (x + 0) (y + 1)
    (by omega) (by omega) (by omega) (by omega)
  obtain ⟨g4, _, h4⟩ := dot_ok perlin hwf ⟨(x : α), (y : α)⟩ (x + 1) (y + 1)
    (by omega) (by omega) (by omega) (by omega)
  unfold perlinNoise
  simp only [Int.floor_intCast, h1, h2, h3, h4]
  simp [interpolate, smootherstep_zero, bind, Except.bind, pure, Except.pure]

/-- C5 at the lattice point (1, 1) of a 3 x 3 lattice over the rationals. -/
theorem perlinNoise_lattice_point_witness :
    (gridMake 3 3 fun x y => (⟨x, y⟩ : Vec ℚ)).WellFormed ∧
    (0 : ℤ) ≤ 1 ∧ (1 : ℤ) + 1 < (gridMake 3 3 fun x y => (⟨x, y⟩ : Vec ℚ)).width ∧
    (0 : ℤ) ≤ 1 ∧ (1 : ℤ) + 1 < (gridMake 3 3 fun x y => (⟨x, y⟩ : Vec ℚ)).height ∧
    perlinNoise (gridMake 3 3 fun x y => (⟨x, y⟩ : Vec ℚ)) ⟨((1 : ℤ) : ℚ), ((1 : ℤ) : ℚ)⟩ =
      Except.ok 0 :=
  have hwf := gridMake_wellFormed 3 3 fun x y => (⟨x, y⟩ : Vec ℚ)
  have hx0 : (0 : ℤ) ≤ 1 := by decide
  have hx1 : (1 : ℤ) + 1 < (gridMake 3 3 fun x y => (⟨x, y⟩ : Vec ℚ)).width := by
    simp [gridMake]
  have hy1 : (1 : ℤ) + 1 < (gridMake 3 3 fun x y => (⟨x, y⟩ : Vec ℚ)).height := by
    simp [gridMake]
  ⟨hwf, hx0, hx1, hx0, hy1, perlinNoise_lattice_point _ hwf 1 1 hx0 hx1 hx0 hy1⟩

theorem perlinNoise_ok_of_inside [FloorRing α] (perlin : Grid (Vec α))
    (hwf : perlin.WellFormed) (coord : Vec α)
    (h : 0 ≤ ⌊coord.x⌋ ∧ ⌊coord.x⌋ + 1 < (perlin.width : ℤ) ∧
      0 ≤ ⌊coord.y⌋ ∧ ⌊coord.y⌋ + 1 < (perlin.height : ℤ)) :
    (∃ v, perlinNoise perlin coord = Except.ok v) ∧
    (∃ g, gradientAt perlin (⌊coord.x⌋ + 0) (⌊coord.y⌋ + 0) = some g) ∧
    (∃ g, gradientAt perlin (⌊coord.x⌋ + 1) (⌊coord.y⌋ + 0) = some g) ∧
    (∃ g, gradientAt perlin (⌊coord.x⌋ + 0) (⌊coord.y⌋ + 1) = some g) ∧
    (∃ g, gradientAt perlin (⌊coord.x⌋ + 1) (⌊coord.y⌋ + 1) = some g) := by
  obtain ⟨hx0, hx1, hy0, hy1⟩ := h
  obtain ⟨g1, e1, h1⟩ := dot_ok perlin hwf coord (⌊coord.x⌋ + 0) (⌊coord.y⌋ + 0)
    (by omega) (by omega) (by omega) (by omega)
  obtain ⟨g2, e2, h2⟩ := dot_ok perlin hwf coord (⌊coord.x⌋ + 1) (⌊coord.y⌋ + 0)
    (by omega) (by omega) (by omega) (by omega)
  obtain ⟨g3, e3, h3⟩ := dot_ok perlin hwf coord (⌊coord.x⌋ + 0) (⌊coord.y⌋ + 1)
    (by omega) (by omega) (by omega) (by omega)
  obtain ⟨g4, e4, h4⟩ := dot_ok perlin hwf coord (⌊coord.x⌋ + 1) (⌊coord.y⌋ + 1)
    (by omega) (by omega) (by omega) (by omega)
  refine ⟨?_, ⟨g1, e1⟩, ⟨g2, e2⟩, ⟨g3, e3⟩, ⟨g4, e4⟩⟩
  unfold perlinNoise
  simp only [h1, h2, h3, h4]
  exact ⟨_, rfl⟩

theorem perlinNoise_error_of_outside [FloorRing α] (perlin : Grid (Vec α))
    (hwf : perlin.WellFormed) (coord : Vec α)
    (h : ¬ (0 ≤ ⌊coord.x⌋ ∧ ⌊coord.x⌋ + 1 < (perlin.width : ℤ) ∧
      0 ≤ ⌊coord.y⌋ ∧ ⌊coord.y⌋ + 1 < (perlin.height : ℤ))) :
    perlinNoise perlin coord = Except.error JsError.typeError := by
  unfold perlinNoise
  by_cases c1 : 0 ≤ ⌊coord.x⌋ + 0 ∧ ⌊coord.x⌋ + 0 < (perlin.width : ℤ) ∧
      0 ≤ ⌊coord.y⌋ + 0 ∧ ⌊coord.y⌋ + 0 < (perlin.height : ℤ)
  · obtain ⟨g1, _, h1⟩ := dot_ok perlin hwf coord _ _ c1.1 c1.2.1 c1.2.2.1 c1.2.2.2
    by_cases c2 : 0 ≤ ⌊coord.x⌋ + 1 ∧ ⌊coord.x⌋ + 1 < (perlin.width : ℤ) ∧
        0 ≤ ⌊coord.y⌋ + 0 ∧ ⌊coord.y⌋ + 0 < (perlin.height : ℤ)
    · obtain ⟨g2, _, h2⟩ := dot_ok perlin hwf coord _ _ c2.1 c2.2.1 c2.2.2.1 c2.2.2.2
      by_cases c3 : 0 ≤ ⌊coord.x⌋ + 0 ∧ ⌊coord.x⌋ + 0 < (perlin.width : ℤ) ∧
          0 ≤ ⌊coord.y⌋ + 1 ∧ ⌊coord.y⌋ + 1 < (perlin.height : ℤ)
      · exfalso
        apply h
        omega
      · simp only [h1, h2, dot_error perlin hwf coord _ _ c3]
        rfl
    · simp only [h1, dot_error perlin hwf coord _ _ c2]
      rfl
  · simp only [dot_error perlin hwf coord _ _ c1]
    rfl

/-- C6: out-of-range sampling.  With xf = floor(coord.x) and
yf = floor(coord.y), perlinNoise on a width x height lattice fails (the
exception raised by reading the missing lattice entry) if and only if not
(0 <= xf and xf+1 < width and 0 <= yf and yf+1 < height); when the four
conditions hold it returns a number and all four gradient lookups are
in-bounds. -/
theorem perlinNoise_fails_iff [FloorRing α] (perlin : Grid (Vec α))
    (hwf : perlin.WellFormed) (coord : Vec α) :
    ((∃ e, perlinNoise perlin coord = Except.error e) ↔
      ¬ (0 ≤ ⌊coord.x⌋ ∧ ⌊coord.x⌋ + 1 < (perlin.width : ℤ) ∧
        0 ≤ ⌊coord.y⌋ ∧ ⌊coord.y⌋ + 1 < (perlin.height : ℤ))) ∧
    ((0 ≤ ⌊coord.x⌋ ∧ ⌊coord.x⌋ + 1 < (perlin.width : ℤ) ∧
        0 ≤ ⌊coord.y⌋ ∧ ⌊coord.y⌋ + 1 < (perlin.height : ℤ)) →
      (∃ v, perlinNoise perlin coord = Except.ok v) ∧
      (∃ g, gradientAt perlin (⌊coord.x⌋ + 0) (⌊coord.y⌋ + 0) = some g) ∧
      (∃ g, gradientAt perlin (⌊coord.x⌋ + 1) (⌊coord.y⌋ + 0) = some g) ∧
      (∃ g, gradientAt perlin (⌊coord.x⌋ + 0) (⌊coord.y⌋ + 1) = some g) ∧
      (∃ g, gradientAt perlin (⌊coord.x⌋ + 1) (⌊coord.y⌋ + 1) = some g)) := by
  refine ⟨⟨?_, ?_⟩, perlinNoise_ok_of_inside perlin hwf coord⟩
  · rintro ⟨e, he⟩ hin
    obtain ⟨v, hv⟩ := (perlinNoise_ok_of_inside perlin hwf coord hin).1
    rw [hv] at he
    cases he
  · intro hout
    exact ⟨_, perlinNoise_error_of_outside perlin hwf coord hout⟩

/-- C6 on a 3 x 3 lattice over the rationals: the sample at (1/2, 1/2)
succeeds, the sample at (5/2, 1/2) fails. -/
theorem perlinNoise_fails_iff_witness :
    (gridMake 3 3 fun x y => (⟨x, y⟩ : Vec ℚ)).WellFormed ∧
    (∃ v, perlinNoise (gridMake 3 3 fun x y => (⟨x, y⟩ : Vec ℚ)) ⟨1 / 2, 1 / 2⟩ =
      Except.ok v) ∧
    (∃ e, perlinNoise (gridMake 3 3 fun x y => (⟨x, y⟩ : Vec ℚ)) ⟨5 / 2, 1 / 2⟩ =
      Except.error e) :=
  have hwf := gridMake_wellFormed 3 3 fun x y => (⟨x, y⟩ : Vec ℚ)
  have hin : 0 ≤ ⌊(1 / 2 : ℚ)⌋ ∧ ⌊(1 / 2 : ℚ)⌋ + 1 < ((3 : ℕ) : ℤ) ∧
      0 ≤ ⌊(1 / 2 : ℚ)⌋ ∧ ⌊(1 / 2 : ℚ)⌋ + 1 < ((3 : ℕ) : ℤ) := by
    have h : ⌊(1 / 2 : ℚ)⌋ = 0 := by
      rw [Int.floor_eq_iff]
      norm_num
    rw [h]
    decide
  have hout : ¬ (0 ≤ ⌊(5 / 2 : ℚ)⌋ ∧ ⌊(5 / 2 : ℚ)⌋ + 1 < ((3 : ℕ) : ℤ) ∧
      0 ≤ ⌊(1 / 2 : ℚ)⌋ ∧ ⌊(1 / 2 : ℚ)⌋ + 1 < ((3 : ℕ) : ℤ)) := by
    have h : ⌊(5 / 2 : ℚ)⌋ = 2 := by
      rw [Int.floor_eq_iff]
      norm_num
    rw [h]
    decide
  ⟨hwf,
    ((perlinNoise_fails_iff (gridMake 3 3 fun x y => (⟨x, y⟩ : Vec ℚ)) hwf ⟨1 / 2, 1 / 2⟩).2
      hin).1,
    (perlinNoise_fails_iff (gridMake 3 3 fun x y => (⟨x, y⟩ : Vec ℚ)) hwf ⟨5 / 2, 1 / 2⟩).1.mpr
      hout⟩

/-! ## Helper lemmas: grid traversal -/

theorem forRange_of_le (start stop : ℤ) (h : stop ≤ start) : forRange start stop = [] := by
  unfold forRange
  have : (stop - start).toNat = 0 := by omega
  rw [this]
  rfl

theorem forRange_of_lt (start stop : ℤ) (h : start < stop) :
    forRange start stop = start :: forRange (start + 1) stop := by
  unfold forRange
  have : (stop - start).toNat = (stop - (start + 1)).toNat + 1 := by omega
  rw [this, List.range_succ_eq_map, List.map_cons, List.map_map]
  congr 1
  · simp
  · apply List.map_congr_left
    intro i _
    simp only [Function.comp_apply, Nat.succ_eq_add_one, Nat.cast_add, Nat.cast_one]
    ring

theorem mem_forRange (start stop i : ℤ) : i ∈ forRange start stop ↔ start ≤ i ∧ i < stop := by
  unfold forRange
  simp only [List.mem_map, List.mem_range]
  constructor
  · rintro ⟨k, hk, rfl⟩
    omega
  · rintro ⟨h1, h2⟩
    exact ⟨(i - start).toNat, by omega, by omega⟩

theorem forRange_sorted (start stop : ℤ) : (forRange start stop).Pairwise (· < ·) := by
  unfold forRange
  rw [List.pairwise_map]
  have h := List.pairwise_lt_range (stop - start).toNat
  exact h.imp (fun hab => by omega)

theorem foldlM_bind_except {γ δ σ : Type} (l : List γ) (f : γ → List δ)
    (step : σ → δ → Except JsError σ) (init : σ) :
    (l.flatMap f).foldlM step init = l.foldlM (fun s a => (f a).foldlM step s) init := by
  induction l generalizing init with
  | nil => rfl
  | cons a l ih =>
    rw [List.flatMap_cons, List.foldlM_append, List.foldlM_cons]
    congr 1
    funext s
    exact ih s

theorem gridForEach_eq_foldlM {β σ : Type} (grid : Grid β) (border : ℤ)
    (callable : σ → ℤ → ℤ → Except JsError σ) (init : σ) :
    gridForEach grid border callable init =
      (gridCells grid border).foldlM (fun s c => callable s c.1 c.2) init := by
  unfold gridForEach gridCells
  rw [foldlM_bind_except]
  congr 1
  funext s y
  rw [List.foldlM_map]

theorem mem_gridCells {β : Type} (grid : Grid β) (border x y : ℤ) :
    (x, y) ∈ gridCells grid border ↔
      (border ≤ x ∧ x < grid.width - border) ∧ (border ≤ y ∧ y < grid.height - border) := by
  unfold gridCells
  simp only [List.mem_flatMap, List.mem_map, mem_forRange, Prod.mk.injEq]
  constructor
  · rintro ⟨y', hy, x', hx, rfl, rfl⟩
    exact ⟨hx, hy⟩
  · rintro ⟨hx, hy⟩
    exact ⟨y, hy, x, hx, rfl, rfl⟩

theorem tileAt_some_of_inside {β : Type} (g : Grid β) (hwf : g.WellFormed) (x y : ℤ)
    (hx0 : 0 ≤ x) (hx1 : x < g.width) (hy0 : 0 ≤ y) (hy1 : y < g.height) :
    ∃ t, tileAt g.data x y = some t := by
  obtain ⟨row, hrow, hmem⟩ := index_eq_some_of_lt g.data y hy0 (by rw [hwf.1]; exact hy1)
  obtain ⟨t, ht, _⟩ := index_eq_some_of_lt row x hx0 (by rw [hwf.2 row hmem]; exact hx1)
  exact ⟨t, by simp [tileAt, hrow, ht]⟩

theorem gridCells_rowMajor {β : Type} (grid : Grid β) (border : ℤ) :
    (gridCells grid border).Pairwise fun a b => a.2 < b.2 ∨ (a.2 = b.2 ∧ a.1 < b.1) := by
  unfold gridCells
  rw [List.pairwise_flatMap]
  constructor
  · intro y _
    rw [List.pairwise_map]
    exact (forRange_sorted _ _).imp (fun hab => Or.inr ⟨rfl, hab⟩)
  · refine (forRange_sorted _ _).imp ?_
    intro y1 y2 hy a ha b hb
    simp only [List.mem_map] at ha hb
    obtain ⟨_, _, rfl⟩ := ha
    obtain ⟨_, _, rfl⟩ := hb
    exact Or.inl hy

theorem foldlM_trace {γ : Type} (l init : List γ) :
    l.foldlM (fun (s : List γ) c => (Except.ok (s ++ [c]) : Except JsError (List γ))) init =
      Except.ok (init ++ l) := by
  induction l generalizing init with
  | nil => simp [pure, Except.pure]
  | cons c l ih =>
    rw [List.foldlM_cons]
    show l.foldlM _ (init ++ [c]) = _
    rw [ih]
    simp

/-- C11: interior-only coastline scan.  For every grid of width w and height h
(also when w < 3 or h < 3), gridForEach(g, 1, f) runs f on the cells of
gridCells g 1 in that order, for every f; these cells are exactly the (x, y)
with 1 <= x <= w-2 and 1 <= y <= h-2, each once, in row-major order (none
when w < 3 or h < 3); and in a grid whose rows are all present every lookup
data[y+dy][x+dx] with dx, dy in -1, 0, 1 made for such a cell is inside the
grid. -/
theorem gridForEach_interior {β : Type} (grid : Grid β) :
    (∀ (σ : Type) (callable : σ → ℤ → ℤ → Except JsError σ) (init : σ),
      gridForEach grid 1 callable init =
        (gridCells grid 1).foldlM (fun s c => callable s c.1 c.2) init) ∧
    gridForEach grid 1 (fun s x y => Except.ok (s ++ [(x, y)])) [] =
      Except.ok (gridCells grid 1) ∧
    (∀ x y : ℤ, (x, y) ∈ gridCells grid 1 ↔
      (1 ≤ x ∧ x ≤ (grid.width : ℤ) - 2) ∧ (1 ≤ y ∧ y ≤ (grid.height : ℤ) - 2)) ∧
    ((gridCells grid 1).Pairwise fun a b => a.2 < b.2 ∨ (a.2 = b.2 ∧ a.1 < b.1)) ∧
    (gridCells grid 1).Nodup ∧
    ((grid.width < 3 ∨ grid.height < 3) → gridCells grid 1 = []) ∧
    (grid.WellFormed → ∀ x y : ℤ, (x, y) ∈ gridCells grid 1 →
      ∀ dx ∈ [(-1 : ℤ), 0, 1], ∀ dy ∈ [(-1 : ℤ), 0, 1],
        ∃ t, tileAt grid.data (x + dx) (y + dy) = some t) := by
  have hmem : ∀ x y : ℤ, (x, y) ∈ gridCells grid 1 ↔
      (1 ≤ x ∧ x ≤ (grid.width : ℤ) - 2) ∧ (1 ≤ y ∧ y ≤ (grid.height : ℤ) - 2) := by
    intro x y
    rw [mem_gridCells]
    constructor
    · rintro ⟨⟨h1, h2⟩, h3, h4⟩
      exact ⟨⟨h1, by omega⟩, h3, by omega⟩
    · rintro ⟨⟨h1, h2⟩, h3, h4⟩
      exact ⟨⟨h1, by omega⟩, h3, by omega⟩
  refine ⟨fun σ callable init => gridForEach_eq_foldlM grid 1 callable init, ?_, hmem,
    gridCells_rowMajor grid 1, ?_, ?_, ?_⟩
  · rw [gridForEach_eq_foldlM]
    exact foldlM_trace (gridCells grid 1) []
  · refine (gridCells_rowMajor grid 1).imp ?_
    intro a b h heq
    rw [heq] at h
    rcases h with h | ⟨_, h⟩ <;> exact lt_irrefl _ h
  · intro hsmall
    rw [List.eq_nil_iff_forall_not_mem]
    rintro ⟨x, y⟩ hxy
    have := (hmem x y).mp hxy
    omega
  · intro hwf x y hxy dx hdx dy hdy
    have hb := (hmem x y).mp hxy
    simp only [List.mem_cons, List.mem_singleton, List.not_mem_nil, or_false] at hdx hdy
    apply tileAt_some_of_inside grid hwf <;> omega

/-- C11 on a 4 x 3 grid: the interior cells are (1,1) and (2,1), and the
lookup right of (2,1) is inside the grid. -/
theorem gridForEach_interior_witness :
    (gridMake 4 3 fun x y => (x, y)).WellFormed ∧
    ((2 : ℤ), (1 : ℤ)) ∈ gridCells (gridMake 4 3 fun x y => (x, y)) 1 ∧
    (∃ t, tileAt (gridMake 4 3 fun x y => (x, y)).data (2 + 1) (1 + 0) = some t) ∧
    ((gridMake 2 2 fun x y => (x, y)).width < 3 ∨
      (gridMake 2 2 fun x y => (x, y)).height < 3) ∧
    gridCells (gridMake 2 2 fun x y => (x, y)) 1 = [] :=
  have hwf := gridMake_wellFormed 4 3 fun x y => (x, y)
  have key := gridForEach_interior (gridMake 4 3 fun x y => (x, y))
  have hin : ((2 : ℤ), (1 : ℤ)) ∈ gridCells (gridMake 4 3 fun x y => (x, y)) 1 :=
    (key.2.2.1 2 1).mpr (by simp [gridMake])
  have hsmall : (gridMake 2 2 fun x y => (x, y)).width < 3 ∨
      (gridMake 2 2 fun x y => (x, y)).height < 3 := Or.inl (by simp [gridMake])
  ⟨hwf, hin, key.2.2.2.2.2.2 hwf 2 1 hin 1 (by simp) 0 (by simp),
    hsmall, (gridForEach_interior (gridMake 2 2 fun x y => (x, y))).2.2.2.2.2.1 hsmall⟩

/-! ## Helper lemmas: the rule blocks -/

theorem coastAnchors_eq_blocks {γ : Type} (n : Neighbourhood γ) :
    coastAnchors n = anchorsTR n ++ anchorsBR n ++ anchorsBL n ++ anchorsTL n := by
  simp only [coastAnchors, anchorsTR, anchorsBR, anchorsBL, anchorsTL, pushIf_eq,
    List.nil_append, List.append_assoc]

theorem anchorsTR_spec {γ : Type} (n : Neighbourhood γ) :
    (anchorsTR n).length ≤ 1 ∧ (∀ t ∈ anchorsTR n, t.biome = Biome.water) ∧
    (n.p.biome = Biome.water → (n.pt.biome = Biome.water ∨ n.pt.biome = Biome.grass) →
      (n.ptr.biome = Biome.water ∨ n.ptr.biome = Biome.grass) →
      (n.pr.biome = Biome.water ∨ n.pr.biome = Biome.grass) →
      (anchorsTR n).length = if n.pt.biome ≠ n.pr.biome then 1 else 0) := by
  rcases h0 : n.p.biome with _ | _ | _ | _ <;> rcases h1 : n.pt.biome with _ | _ | _ | _ <;>
    rcases h2 : n.ptr.biome with _ | _ | _ | _ <;> rcases h3 : n.pr.biome with _ | _ | _ | _ <;>
    simp [anchorsTR, pushIf, h0, h1, h2, h3]

theorem anchorsBR_spec {γ : Type} (n : Neighbourhood γ) :
    (anchorsBR n).length ≤ 1 ∧ (∀ t ∈ anchorsBR n, t.biome = Biome.water) ∧
    (n.p.biome = Biome.water → (n.pb.biome = Biome.water ∨ n.pb.biome = Biome.grass) →
      (n.pbr.biome = Biome.water ∨ n.pbr.biome = Biome.grass) →
      (n.pr.biome = Biome.water ∨ n.pr.biome = Biome.grass) →
      (anchorsBR n).length = if n.pr.biome ≠ n.pb.biome then 1 else 0) := by
  rcases h0 : n.p.biome with _ | _ | _ | _ <;> rcases h1 : n.pb.biome with _ | _ | _ | _ <;>
    rcases h2 : n.pbr.biome with _ | _ | _ | _ <;> rcases h3 : n.pr.biome with _ | _ | _ | _ <;>
    simp [anchorsBR, pushIf, h0, h1, h2, h3]

theorem anchorsBL_spec {γ : Type} (n : Neighbourhood γ) :
    (anchorsBL n).length ≤ 1 ∧ (∀ t ∈ anchorsBL n, t.biome = Biome.water) ∧
    (n.p.biome = Biome.water → (n.pb.biome = Biome.water ∨ n.pb.biome = Biome.grass) →
      (n.pbl.biome = Biome.water ∨ n.pbl.biome = Biome.grass) →
      (n.pl.biome = Biome.water ∨ n.pl.biome = Biome.grass) →
      (anchorsBL n).length = if n.pb.biome ≠ n.pl.biome then 1 else 0) := by
  rcases h0 : n.p.biome with _ | _ | _ | _ <;> rcases h1 : n.pb.biome with _ | _ | _ | _ <;>
    rcases h2 : n.pbl.biome with _ | _ | _ | _ <;> rcases h3 : n.pl.biome with _ | _ | _ | _ <;>
    simp [anchorsBL, pushIf, h0, h1, h2, h3]

theorem anchorsTL_spec {γ : Type} (n : Neighbourhood γ) :
    (anchorsTL n).length ≤ 1 ∧ (∀ t ∈ anchorsTL n, t.biome = Biome.water) ∧
    (n.p.biome = Biome.water → (n.pt.biome = Biome.water ∨ n.pt.biome = Biome.grass) →
      (n.ptl.biome = Biome.water ∨ n.ptl.biome = Biome.grass) →
      (n.pl.biome = Biome.water ∨ n.pl.biome = Biome.grass) →
      (anchorsTL n).length = if n.pl.biome ≠ n.pt.biome then 1 else 0) := by
  rcases h0 : n.p.biome with _ | _ | _ | _ <;> rcases h1 : n.pt.biome with _ | _ | _ | _ <;>
    rcases h2 : n.ptl.biome with _ | _ | _ | _ <;> rcases h3 : n.pl.biome with _ | _ | _ | _ <;>
    simp [anchorsTL, pushIf, h0, h1, h2, h3]

/-- C18: anchor-count parity.  For every 3x3 neighbourhood each of the four
rule blocks (top-right, bottom-right, bottom-left, top-left) pushes at most
one anchor, so at most 4 anchors are collected, and every collected anchor is
a water tile.  When the centre is water and all eight neighbours are water or
grass, the number of anchors is the number of corners whose two adjacent edge
neighbours have different biomes, so it is 0, 2 or 4. -/
theorem coastAnchors_count {γ : Type} (n : Neighbourhood γ) :
    (coastAnchors n = anchorsTR n ++ anchorsBR n ++ anchorsBL n ++ anchorsTL n ∧
      (anchorsTR n).length ≤ 1 ∧ (anchorsBR n).length ≤ 1 ∧
      (anchorsBL n).length ≤ 1 ∧ (anchorsTL n).length ≤ 1) ∧
    (coastAnchors n).length ≤ 4 ∧
    (∀ t ∈ coastAnchors n, t.biome = Biome.water) ∧
    (n.p.biome = Biome.water →
      (∀ t ∈ [n.pl, n.pr, n.pt, n.pb, n.ptl, n.ptr, n.pbl, n.pbr],
        t.biome = Biome.water ∨ t.biome = Biome.grass) →
      (coastAnchors n).length =
        (if n.pt.biome ≠ n.pr.biome then 1 else 0) +
        (if n.pr.biome ≠ n.pb.biome then 1 else 0) +
        (if n.pb.biome ≠ n.pl.biome then 1 else 0) +
        (if n.pl.biome ≠ n.pt.biome then 1 else 0) ∧
      ((coastAnchors n).length = 0 ∨ (coastAnchors n).length = 2 ∨
        (coastAnchors n).length = 4)) := by
  have hdec := coastAnchors_eq_blocks n
  obtain ⟨a1, b1, c1⟩ := anchorsTR_spec n
  obtain ⟨a2, b2, c2⟩ := anchorsBR_spec n
  obtain ⟨a3, b3, c3⟩ := anchorsBL_spec n
  obtain ⟨a4, b4, c4⟩ := anchorsTL_spec n
  have hlen : (coastAnchors n).length =
      (anchorsTR n).length + (anchorsBR n).length + (anchorsBL n).length +
        (anchorsTL n).length := by
    rw [hdec]
    simp only [List.length_append]
  refine ⟨⟨hdec, a1, a2, a3, a4⟩, by omega, ?_, ?_⟩
  · intro t ht
    rw [hdec] at ht
    simp only [List.mem_append] at ht
    rcases ht with ((ht | ht) | ht) | ht
    · exact b1 t ht
    · exact b2 t ht
    · exact b3 t ht
    · exact b4 t ht
  · intro hp hn
    have hpl := hn n.pl (by simp)
    have hpr := hn n.pr (by simp)
    have hpt := hn n.pt (by simp)
    have hpb := hn n.pb (by simp)
    have hptl := hn n.ptl (by simp)
    have hptr := hn n.ptr (by simp)
    have hpbl := hn n.pbl (by simp)
    have hpbr := hn n.pbr (by simp)
    have e1 := c1 hp hpt hptr hpr
    have e2 := c2 hp hpb hpbr hpr
    have e3 := c3 hp hpb hpbl hpl
    have e4 := c4 hp hpt hptl hpl
    have hcount : (coastAnchors n).length =
        (if n.pt.biome ≠ n.pr.biome then 1 else 0) +
        (if n.pr.biome ≠ n.pb.biome then 1 else 0) +
        (if n.pb.biome ≠ n.pl.biome then 1 else 0) +
        (if n.pl.biome ≠ n.pt.biome then 1 else 0) := by
      rw [hlen, e1, e2, e3, e4]
    refine ⟨hcount, ?_⟩
    rw [hcount]
    rcases hpt with h1 | h1 <;> rcases hpr with h2 | h2 <;> rcases hpb with h3 | h3 <;>
      rcases hpl with h4 | h4 <;> simp [h1, h2, h3, h4]

/-- C18 at a water centre whose right, bottom-right and bottom neighbours are
grass and whose other neighbours are water: two anchors. -/
theorem coastAnchors_count_witness :
    (⟨⟨0, 1, 1, 0, Biome.water⟩, ⟨0, 0, 1, 0, Biome.water⟩, ⟨0, 2, 1, 0, Biome.grass⟩,
      ⟨0, 1, 0, 0, Biome.water⟩, ⟨0, 1, 2, 0, Biome.grass⟩, ⟨0, 0, 0, 0, Biome.water⟩,
      ⟨0, 2, 0, 0, Biome.water⟩, ⟨0, 0, 2, 0, Biome.water⟩,
      ⟨0, 2, 2, 0, Biome.grass⟩⟩ : Neighbourhood ℚ).p.biome = Biome.water ∧
    (coastAnchors (⟨⟨0, 1, 1, 0, Biome.water⟩, ⟨0, 0, 1, 0, Biome.water⟩,
      ⟨0, 2, 1, 0, Biome.grass⟩,
      ⟨0, 1, 0, 0, Biome.water⟩, ⟨0, 1, 2, 0, Biome.grass⟩, ⟨0, 0, 0, 0, Biome.water⟩,
      ⟨0, 2, 0, 0, Biome.water⟩, ⟨0, 0, 2, 0, Biome.water⟩,
      ⟨0, 2, 2, 0, Biome.grass⟩⟩ : Neighbourhood ℚ)).length = 2 :=
  have hp : (⟨⟨0, 1, 1, 0, Biome.water⟩, ⟨0, 0, 1, 0, Biome.water⟩, ⟨0, 2, 1, 0, Biome.grass⟩,
      ⟨0, 1, 0, 0, Biome.water⟩, ⟨0, 1, 2, 0, Biome.grass⟩, ⟨0, 0, 0, 0, Biome.water⟩,
      ⟨0, 2, 0, 0, Biome.water⟩, ⟨0, 0, 2, 0, Biome.water⟩,
      ⟨0, 2, 2, 0, Biome.grass⟩⟩ : Neighbourhood ℚ).p.biome = Biome.water := rfl
  have key := (coastAnchors_count (⟨⟨0, 1, 1, 0, Biome.water⟩, ⟨0, 0, 1, 0, Biome.water⟩,
      ⟨0, 2, 1, 0, Biome.grass⟩,
      ⟨0, 1, 0, 0, Biome.water⟩, ⟨0, 1, 2, 0, Biome.grass⟩, ⟨0, 0, 0, 0, Biome.water⟩,
      ⟨0, 2, 0, 0, Biome.water⟩, ⟨0, 0, 2, 0, Biome.water⟩,
      ⟨0, 2, 2, 0, Biome.grass⟩⟩ : Neighbourhood ℚ)).2.2.2 hp (by simp)
  ⟨hp, key.1.trans (by simp)⟩

/-! ## Helper lemmas: the range of the noise -/

theorem smootherstep_nonneg (u : α) (h0 : 0 ≤ u) : 0 ≤ smootherstep u := by
  have h : smootherstep u = u ^ 3 * (6 * (u - 5 / 4) ^ 2 + 5 / 8) := by
    unfold smootherstep
    ring
  rw [h]
  have h1 : (0 : α) ≤ 6 * (u - 5 / 4) ^ 2 + 5 / 8 := by positivity
  exact mul_nonneg (pow_nonneg h0 3) h1

theorem smootherstep_le_one (u : α) (h0 : 0 ≤ u) (h1 : u ≤ 1) : smootherstep u ≤ 1 := by
  have h : 1 - smootherstep u = (1 - u) ^ 3 * (6 * u ^ 2 + 3 * u + 1) := by
    unfold smootherstep
    ring
  have h2 : (0 : α) ≤ (1 - u) ^ 3 * (6 * u ^ 2 + 3 * u + 1) :=
    mul_nonneg (pow_nonneg (by linarith) 3) (by positivity)
  linarith

theorem blend_le_half (u : α) (h0 : 0 ≤ u) (h1 : u ≤ 1) :
    (1 - smootherstep u) * u + smootherstep u * (1 - u) ≤ 1 / 2 := by
  have h : 1 / 2 - ((1 - smootherstep u) * u + smootherstep u * (1 - u)) =
      2 * (1 / 2 - u) ^ 2 * (6 * (u * (1 - u)) ^ 2 + 2 * (u * (1 - u)) + 1) := by
    unfold smootherstep
    ring
  have hq : (0 : α) ≤ u * (1 - u) := mul_nonneg h0 (by linarith)
  have h2 : (0 : α) ≤ 2 * (1 / 2 - u) ^ 2 * (6 * (u * (1 - u)) ^ 2 + 2 * (u * (1 - u)) + 1) :=
    mul_nonneg (by positivity) (by positivity)
  linarith

theorem corner_bound (a b A B : α) (g : Vec α) (hg : g.x ^ 2 + g.y ^ 2 = 1)
    (ha : |a| ≤ A) (hb : |b| ≤ B) : |a * g.x + b * g.y| ≤ A + B := by
  have hx : |g.x| ≤ 1 := by
    rw [abs_le]
    constructor <;> nlinarith [sq_nonneg g.y, sq_nonneg (g.x - 1), sq_nonneg (g.x + 1)]
  have hy : |g.y| ≤ 1 := by
    rw [abs_le]
    constructor <;> nlinarith [sq_nonneg g.x, sq_nonneg (g.y - 1), sq_nonneg (g.y + 1)]
  have h1 : |a * g.x| ≤ A := by
    rw [abs_mul]
    calc |a| * |g.x| ≤ |a| * 1 := mul_le_mul_of_nonneg_left hx (abs_nonneg a)
      _ = |a| := mul_one _
      _ ≤ A := ha
  have h2 : |b * g.y| ≤ B := by
    rw [abs_mul]
    calc |b| * |g.y| ≤ |b| * 1 := mul_le_mul_of_nonneg_left hy (abs_nonneg b)
      _ = |b| := mul_one _
      _ ≤ B := hb
  exact (abs_add _ _).trans (add_le_add h1 h2)

theorem noise_abs_le_one (u w : α) (hu0 : 0 ≤ u) (hu1 : u ≤ 1) (hw0 : 0 ≤ w) (hw1 : w ≤ 1)
    (g1 g2 g3 g4 : Vec α) (h1 : g1.x ^ 2 + g1.y ^ 2 = 1) (h2 : g2.x ^ 2 + g2.y ^ 2 = 1)
    (h3 : g3.x ^ 2 + g3.y ^ 2 = 1) (h4 : g4.x ^ 2 + g4.y ^ 2 = 1) :
    |interpolate (interpolate (u * g1.x + w * g1.y) ((u - 1) * g2.x + w * g2.y) u)
      (interpolate (u * g3.x + (w - 1) * g3.y) ((u - 1) * g4.x + (w - 1) * g4.y) u) w| ≤ 1 := by
  have au : |u| ≤ u := le_of_eq (abs_of_nonneg hu0)
  have aw : |w| ≤ w := le_of_eq (abs_of_nonneg hw0)
  have au1 : |u - 1| ≤ 1 - u := by
    rw [abs_sub_comm]
    exact le_of_eq (abs_of_nonneg (by linarith))
  have aw1 : |w - 1| ≤ 1 - w := by
    rw [abs_sub_comm]
    exact le_of_eq (abs_of_nonneg (by linarith))
  have b1 := abs_le.mp (corner_bound u w u w g1 h1 au aw)
  have b2 := abs_le.mp (corner_bound (u - 1) w (1 - u) w g2 h2 au1 aw)
  have b3 := abs_le.mp (corner_bound u (w - 1) u (1 - w) g3 h3 au aw1)
  have b4 := abs_le.mp (corner_bound (u - 1) (w - 1) (1 - u) (1 - w) g4 h4 au1 aw1)
  have s0 := smootherstep_nonneg u hu0
  have s1 := smootherstep_le_one u hu0 hu1
  have r0 := smootherstep_nonneg w hw0
  have r1 := smootherstep_le_one w hw0 hw1
  have fu := blend_le_half u hu0 hu1
  have fw := blend_le_half w hw0 hw1
  simp only [interpolate]
  generalize smootherstep u = s at *
  generalize smootherstep w = r at *
  generalize u * g1.x + w * g1.y = tl at *
  generalize (u - 1) * g2.x + w * g2.y = tr at *
  generalize u * g3.x + (w - 1) * g3.y = bl at *
  generalize (u - 1) * g4.x + (w - 1) * g4.y = br at *
  have hs' : 0 ≤ 1 - s := by linarith
  have hr' : 0 ≤ 1 - r := by linarith
  have c1 := mul_nonneg hr' hs'
  have c2 := mul_nonneg hr' s0
  have c3 := mul_nonneg r0 hs'
  have c4 := mul_nonneg r0 s0
  have e : tl + s * (tr - tl) + r * (bl + s * (br - bl) - (tl + s * (tr - tl))) =
      (1 - r) * (1 - s) * tl + (1 - r) * s * tr + r * (1 - s) * bl + r * s * br := by
    ring
  have esum : (1 - r) * (1 - s) * (u + w) + (1 - r) * s * (1 - u + w) +
      r * (1 - s) * (u + (1 - w)) + r * s * (1 - u + (1 - w)) =
      ((1 - s) * u + s * (1 - u)) + ((1 - r) * w + r * (1 - w)) := by
    ring
  rw [e, abs_le]
  constructor
  · have k1 := mul_le_mul_of_nonneg_left b1.1 c1
    have k2 := mul_le_mul_of_nonneg_left b2.1 c2
    have k3 := mul_le_mul_of_nonneg_left b3.1 c3
    have k4 := mul_le_mul_of_nonneg_left b4.1 c4
    linarith
  · have k1 := mul_le_mul_of_nonneg_left b1.2 c1
    have k2 := mul_le_mul_of_nonneg_left b2.2 c2
    have k3 := mul_le_mul_of_nonneg_left b3.2 c3
    have k4 := mul_le_mul_of_nonneg_left b4.2 c4
    linarith

theorem dot_ok_mem (perlin : Grid (Vec α)) (hwf : perlin.WellFormed) (p : Vec α) (pfx pfy : ℤ)
    (hx0 : 0 ≤ pfx) (hx1 : pfx < perlin.width) (hy0 : 0 ≤ pfy) (hy1 : pfy < perlin.height) :
    ∃ g, (∃ row ∈ perlin.data, g ∈ row) ∧
      dot perlin p pfx pfy =
        Except.ok ((p.x - (pfx : α)) * g.x + (p.y - (pfy : α)) * g.y) := by
  obtain ⟨row, hrow, hmem⟩ := index_eq_some_of_lt perlin.data pfy hy0 (by rw [hwf.1]; exact hy1)
  obtain ⟨g, hg, hgm⟩ := index_eq_some_of_lt row pfx hx0 (by rw [hwf.2 row hmem]; exact hx1)
  exact ⟨g, ⟨row, hmem, hgm⟩, by simp [dot, hrow, hg]⟩

/-- C12: noise range.  For every lattice whose gradients are unit vectors and
every coordinate inside the lattice coverage, perlinNoise returns a value v
with -1 <= v <= 1, so the tile level v + 1.0 lies in [0, 2]. -/
theorem perlinNoise_range [FloorRing α] (perlin : Grid (Vec α)) (hwf : perlin.WellFormed)
    (hunit : ∀ row ∈ perlin.data, ∀ g ∈ row, g.x ^ 2 + g.y ^ 2 = 1) (coord : Vec α)
    (hin : 0 ≤ ⌊coord.x⌋ ∧ ⌊coord.x⌋ + 1 < (perlin.width : ℤ) ∧
      0 ≤ ⌊coord.y⌋ ∧ ⌊coord.y⌋ + 1 < (perlin.height : ℤ)) :
    ∃ v, perlinNoise perlin coord = Except.ok v ∧ -1 ≤ v ∧ v ≤ 1 ∧
      0 ≤ v + 1.0 ∧ v + 1.0 ≤ 2 := by
  obtain ⟨hx0, hx1, hy0, hy1⟩ := hin
  obtain ⟨g1, ⟨r1, hr1, m1⟩, h1⟩ := dot_ok_mem perlin hwf coord (⌊coord.x⌋ + 0) (⌊coord.y⌋ + 0)
    (by omega) (by omega) (by omega) (by omega)
  obtain ⟨g2, ⟨r2, hr2, m2⟩, h2⟩ := dot_ok_mem perlin hwf coord (⌊coord.x⌋ + 1) (⌊coord.y⌋ + 0)
    (by omega) (by omega) (by omega) (by omega)
  obtain ⟨g3, ⟨r3, hr3, m3⟩, h3⟩ := dot_ok_mem perlin hwf coord (⌊coord.x⌋ + 0) (⌊coord.y⌋ + 1)
    (by omega) (by omega) (by omega) (by omega)
  obtain ⟨g4, ⟨r4, hr4, m4⟩, h4⟩ := dot_ok_mem perlin hwf coord (⌊coord.x⌋ + 1) (⌊coord.y⌋ + 1)
    (by omega) (by omega) (by omega) (by omega)
  have ex0 : coord.x - ((⌊coord.x⌋ + 0 : ℤ) : α) = coord.x - (⌊coord.x⌋ : α) := by
    push_cast
    ring
  have ex1 : coord.x - ((⌊coord.x⌋ + 1 : ℤ) : α) = coord.x - (⌊coord.x⌋ : α) - 1 := by
    push_cast
    ring
  have ey0 : coord.y - ((⌊coord.y⌋ + 0 : ℤ) : α) = coord.y - (⌊coord.y⌋ : α) := by
    push_cast
    ring
  have ey1 : coord.y - ((⌊coord.y⌋ + 1 : ℤ) : α) = coord.y - (⌊coord.y⌋ : α) - 1 := by
    push_cast
    ring
  rw [ex0, ey0] at h1
  rw [ex1, ey0] at h2
  rw [ex0, ey1] at h3
  rw [ex1, ey1] at h4
  have hu0 : 0 ≤ coord.x - (⌊coord.x⌋ : α) := sub_nonneg.mpr (Int.floor_le coord.x)
  have hu1 : coord.x - (⌊coord.x⌋ : α) ≤ 1 := by
    have := Int.lt_floor_add_one coord.x
    linarith
  have hw0 : 0 ≤ coord.y - (⌊coord.y⌋ : α) := sub_nonneg.mpr (Int.floor_le coord.y)
  have hw1 : coord.y - (⌊coord.y⌋ : α) ≤ 1 := by
    have := Int.lt_floor_add_one coord.y
    linarith
  have hb := abs_le.mp (noise_abs_le_one _ _ hu0 hu1 hw0 hw1 g1 g2 g3 g4
    (hunit r1 hr1 g1 m1) (hunit r2 hr2 g2 m2) (hunit r3 hr3 g3 m3) (hunit r4 hr4 g4 m4))
  refine ⟨_, ?_, hb.1, hb.2, ?_, ?_⟩
  · unfold perlinNoise
    simp only [h1, h2, h3, h4]
    rfl
  · have e10 : (1.0 : α) = 1 := by norm_num
    rw [e10]
    linarith [hb.1]
  · have e10 : (1.0 : α) = 1 := by norm_num
    rw [e10]
    linarith [hb.2]

/-- C12 on the 3 x 3 lattice whose gradients are all (1, 0), at (1/2, 1/2). -/
theorem perlinNoise_range_witness :
    (gridMake 3 3 fun _ _ => (⟨1, 0⟩ : Vec ℚ)).WellFormed ∧
    (∀ row ∈ (gridMake 3 3 fun _ _ => (⟨1, 0⟩ : Vec ℚ)).data, ∀ g ∈ row,
      g.x ^ 2 + g.y ^ 2 = 1) ∧
    (0 ≤ ⌊(1 / 2 : ℚ)⌋ ∧ ⌊(1 / 2 : ℚ)⌋ + 1 < ((3 : ℕ) : ℤ) ∧
      0 ≤ ⌊(1 / 2 : ℚ)⌋ ∧ ⌊(1 / 2 : ℚ)⌋ + 1 < ((3 : ℕ) : ℤ)) ∧
    (∃ v, perlinNoise (gridMake 3 3 fun _ _ => (⟨1, 0⟩ : Vec ℚ)) ⟨1 / 2, 1 / 2⟩ =
      Except.ok v ∧ -1 ≤ v ∧ v ≤ 1 ∧ 0 ≤ v + 1.0 ∧ v + 1.0 ≤ 2) :=
  have hwf := gridMake_wellFormed 3 3 fun _ _ => (⟨1, 0⟩ : Vec ℚ)
  have hunit : ∀ row ∈ (gridMake 3 3 fun _ _ => (⟨1, 0⟩ : Vec ℚ)).data, ∀ g ∈ row,
      g.x ^ 2 + g.y ^ 2 = 1 := by
    intro row hrow g hg
    simp only [gridMake, List.mem_map] at hrow
    obtain ⟨y, _, rfl⟩ := hrow
    simp only [List.mem_map] at hg
    obtain ⟨x, _, rfl⟩ := hg
    norm_num
  have hin : 0 ≤ ⌊(1 / 2 : ℚ)⌋ ∧ ⌊(1 / 2 : ℚ)⌋ + 1 < ((3 : ℕ) : ℤ) ∧
      0 ≤ ⌊(1 / 2 : ℚ)⌋ ∧ ⌊(1 / 2 : ℚ)⌋ + 1 < ((3 : ℕ) : ℤ) := by
    have h : ⌊(1 / 2 : ℚ)⌋ = 0 := by
      rw [Int.floor_eq_iff]
      norm_num
    rw [h]
    decide
  ⟨hwf, hunit, hin,
    perlinNoise_range (gridMake 3 3 fun _ _ => (⟨1, 0⟩ : Vec ℚ)) hwf hunit ⟨1 / 2, 1 / 2⟩ hin⟩

/-! ## Helper lemmas: the pass "assign level & biomes" -/

theorem index_natCast {β : Type} (xs : List β) (n : ℕ) : index xs (n : ℤ) = xs[n]? := by
  unfold index
  simp

theorem index_append_length {β : Type} (pre rest : List β) (p : β) :
    index (pre ++ p :: rest) (pre.length : ℤ) = some p := by
  rw [index_natCast, List.getElem?_append_right (le_refl _)]
  simp

theorem set_append_length {β : Type} (pre rest : List β) (p q : β) :
    (pre ++ p :: rest).set pre.length q = (pre ++ [q]) ++ rest := by
  rw [List.set_append_right _ _ (le_refl _)]
  simp

theorem townPositions_append {γ : Type} (l1 l2 : List (Cell γ)) :
    townPositions (l1 ++ l2) = townPositions l1 ++ townPositions l2 := by
  simp [townPositions]

theorem assignLevelAndBiome_step [FloorRing α] (perlin : Grid (Vec α))
    (rowsPre rowsPost : List (List (Cell α))) (pre rest : List (Cell α)) (p : Cell α)
    (towns : List (Vec α))
    (hp : ∃ v, perlinNoise perlin { x := p.x / 200, y := p.y / 200 } = Except.ok v) :
    assignLevelAndBiome perlin (rowsPre ++ (pre ++ p :: rest) :: rowsPost, towns)
        (pre.length : ℤ) (rowsPre.length : ℤ) =
      Except.ok (rowsPre ++ ((pre ++ [classifyCell perlin p]) ++ rest) :: rowsPost,
        towns ++ townPositions [classifyCell perlin p]) := by
  obtain ⟨v, hv⟩ := hp
  unfold assignLevelAndBiome
  simp only [index_append_length, hv, Int.toNat_ofNat]
  rw [set_append_length, set_append_length]
  simp only [classifyCell, hv, townPositions]
  by_cases hb : selectBiome (v + 1.0) p.random = Biome.town
  · simp [hb]
  · simp [hb]

theorem assign_row [FloorRing α] (perlin : Grid (Vec α))
    (rowsPre rowsPost : List (List (Cell α))) (rest : List (Cell α)) :
    ∀ (pre : List (Cell α)) (towns : List (Vec α)),
    (∀ p ∈ rest, ∃ v, perlinNoise perlin { x := p.x / 200, y := p.y / 200 } = Except.ok v) →
    (forRange (pre.length : ℤ) ((pre.length : ℤ) + (rest.length : ℤ))).foldlM
        (fun s x => assignLevelAndBiome perlin s x (rowsPre.length : ℤ))
        (rowsPre ++ (pre ++ rest) :: rowsPost, towns) =
      Except.ok (rowsPre ++ (pre ++ rest.map (classifyCell perlin)) :: rowsPost,
        towns ++ townPositions (rest.map (classifyCell perlin))) := by
  induction rest with
  | nil =>
    intro pre towns _
    rw [forRange_of_le _ _ (by simp)]
    simp [townPositions, pure, Except.pure]
  | cons p rest ih =>
    intro pre towns h
    rw [forRange_of_lt _ _ (by simp only [List.length_cons]; push_cast; omega),
      List.foldlM_cons,
      assignLevelAndBiome_step perlin rowsPre rowsPost pre rest p towns
        (h p (List.mem_cons_self p rest))]
    have ih' := ih (pre ++ [classifyCell perlin p])
      (towns ++ townPositions [classifyCell perlin p])
      (fun q hq => h q (List.mem_cons_of_mem p hq))
    have e1 : ((pre ++ [classifyCell perlin p]).length : ℤ) = (pre.length : ℤ) + 1 := by
      simp
    have e2 : ((pre ++ [classifyCell perlin p]).length : ℤ) + (rest.length : ℤ) =
        (pre.length : ℤ) + ((p :: rest).length : ℤ) := by
      simp only [List.length_append, List.length_cons, List.length_nil]
      push_cast
      ring
    rw [e2, e1] at ih'
    show Except.bind _ _ = _
    simp only [Except.bind]
    rw [ih']
    have e3 : townPositions (classifyCell perlin p :: rest.map (classifyCell perlin)) =
        townPositions [classifyCell perlin p] ++ townPositions (rest.map (classifyCell perlin)) :=
      townPositions_append [classifyCell perlin p] _
    simp [e3, List.append_assoc]

theorem assign_rows [FloorRing α] (perlin : Grid (Vec α)) (width : ℕ)
    (rest : List (List (Cell α))) :
    ∀ (rowsPre : List (List (Cell α))) (towns : List (Vec α)),
    (∀ row ∈ rest, row.length = width) →
    (∀ row ∈ rest, ∀ p ∈ row,
      ∃ v, perlinNoise perlin { x := p.x / 200, y := p.y / 200 } = Except.ok v) →
    (forRange (rowsPre.length : ℤ) ((rowsPre.length : ℤ) + (rest.length : ℤ))).foldlM
        (fun s y => (forRange 0 ((width : ℤ) - 0)).foldlM
          (fun s x => assignLevelAndBiome perlin s x y) s)
        (rowsPre ++ rest, towns) =
      Except.ok (rowsPre ++ rest.map (List.map (classifyCell perlin)),
        towns ++ townPositions (rest.map (List.map (classifyCell perlin))).flatten) := by
  induction rest with
  | nil =>
    intro rowsPre towns _ _
    rw [forRange_of_le (rowsPre.length : ℤ) ((rowsPre.length : ℤ) + (([] : List (List (Cell α))).length : ℤ))
      (by simp)]
    simp [townPositions, pure, Except.pure]
  | cons row rest ih =>
    intro rowsPre towns hw h
    rw [forRange_of_lt (rowsPre.length : ℤ) ((rowsPre.length : ℤ) + ((row :: rest).length : ℤ))
      (by simp only [List.length_cons]; push_cast; omega),
      List.foldlM_cons]
    have hrow := assign_row perlin rowsPre rest row [] towns
      (h row (List.mem_cons_self row rest))
    have e0 : (([] : List (Cell α)).length : ℤ) + (row.length : ℤ) = (width : ℤ) - 0 := by
      rw [hw row (List.mem_cons_self row rest)]
      simp
    rw [e0] at hrow
    simp only [List.length_nil, Nat.cast_zero, List.nil_append] at hrow
    rw [hrow]
    have ih' := ih (rowsPre ++ [row.map (classifyCell perlin)])
      (towns ++ townPositions (row.map (classifyCell perlin)))
      (fun r hr => hw r (List.mem_cons_of_mem row hr))
      (fun r hr => h r (List.mem_cons_of_mem row hr))
    have e1 : ((rowsPre ++ [row.map (classifyCell perlin)]).length : ℤ) =
        (rowsPre.length : ℤ) + 1 := by
      simp
    have e2 : ((rowsPre ++ [row.map (classifyCell perlin)]).length : ℤ) + (rest.length : ℤ) =
        (rowsPre.length : ℤ) + ((row :: rest).length : ℤ) := by
      simp only [List.length_append, List.length_cons, List.length_nil]
      push_cast
      ring
    rw [e2, e1] at ih'
    show Except.bind _ _ = _
    simp only [Except.bind]
    have e3 : rowsPre ++ List.map (classifyCell perlin) row :: rest =
        rowsPre ++ [List.map (classifyCell perlin) row] ++ rest := by
      simp
    rw [e3, ih']
    simp [townPositions_append, List.append_assoc]

/-- The pass "assign level & biomes" on a grid all of whose samples are inside
the lattice: every tile is classified in place and `towns` collects the town
tiles in row-major order. -/
theorem assignPass_ok [FloorRing α] (perlin : Grid (Vec α)) (g : Grid (Cell α))
    (hwf : g.WellFormed)
    (h : ∀ row ∈ g.data, ∀ p ∈ row,
      ∃ v, perlinNoise perlin { x := p.x / 200, y := p.y / 200 } = Except.ok v) :
    gridForEach g 0 (assignLevelAndBiome perlin) (g.data, []) =
      Except.ok (g.data.map (List.map (classifyCell perlin)),
        townPositions (g.data.map (List.map (classifyCell perlin))).flatten) := by
  unfold gridForEach
  have key := assign_rows perlin g.width g.data [] [] hwf.2 h
  simp only [List.length_nil, Nat.cast_zero, List.nil_append, zero_add] at key
  rw [hwf.1] at key
  simp only [sub_zero] at key ⊢
  exact key

/-- C15: town list.  After the pass "assign level & biomes" (on a grid whose
rows are all present and whose samples are all inside the noise lattice) every
tile carries its level and biome, and the towns array holds exactly the
positions (x, y) of the tiles whose biome is 'town', each once, in row-major
order of the grid. -/
theorem towns_are_town_tiles [FloorRing α] (perlin : Grid (Vec α)) (g : Grid (Cell α))
    (hwf : g.WellFormed)
    (h : ∀ row ∈ g.data, ∀ p ∈ row,
      ∃ v, perlinNoise perlin { x := p.x / 200, y := p.y / 200 } = Except.ok v) :
    ∃ data towns,
      gridForEach g 0 (assignLevelAndBiome perlin) (g.data, []) = Except.ok (data, towns) ∧
      data = g.data.map (List.map (classifyCell perlin)) ∧
      (∀ row ∈ g.data, ∀ p ∈ row, ∃ v,
        perlinNoise perlin { x := p.x / 200, y := p.y / 200 } = Except.ok v ∧
        classifyCell perlin p =
          { p with level := some (v + 1.0), biome := some (selectBiome (v + 1.0) p.random) }) ∧
      towns = (data.flatten.filter fun c => decide (c.biome = some Biome.town)).map
        (fun c => ({ x := c.x, y := c.y } : Vec α)) ∧
      towns.length = (data.flatten.filter fun c => decide (c.biome = some Biome.town)).length ∧
      (∀ v : Vec α, v ∈ towns ↔
        ∃ c ∈ data.flatten, c.biome = some Biome.town ∧ v = { x := c.x, y := c.y }) := by
  refine ⟨_, _, assignPass_ok perlin g hwf h, rfl, ?_, rfl, ?_, ?_⟩
  · intro row hrow p hp
    obtain ⟨v, hv⟩ := h row hrow p hp
    exact ⟨v, hv, by simp [classifyCell, hv]⟩
  · unfold townPositions
    rw [List.length_map]
  · intro v
    simp only [townPositions, List.mem_map, List.mem_filter, decide_eq_true_eq]
    constructor
    · rintro ⟨c, ⟨hc, hb⟩, rfl⟩
      exact ⟨c, hc, hb, rfl⟩
    · rintro ⟨c, hc, hb, rfl⟩
      exact ⟨c, ⟨hc, hb⟩, rfl⟩

/-- C15 on a 2 x 1 grid whose tiles are at (10, 10), with a 3 x 3 lattice of
gradients (1, 0). -/
theorem towns_are_town_tiles_witness :
    (gridMake 2 1 fun _ _ => (⟨0, 10, 10, none, none⟩ : Cell ℚ)).WellFormed ∧
    (∀ row ∈ (gridMake 2 1 fun _ _ => (⟨0, 10, 10, none, none⟩ : Cell ℚ)).data, ∀ p ∈ row,
      ∃ v, perlinNoise (gridMake 3 3 fun _ _ => (⟨1, 0⟩ : Vec ℚ))
        { x := p.x / 200, y := p.y / 200 } = Except.ok v) ∧
    (∃ data towns,
      gridForEach (gridMake 2 1 fun _ _ => (⟨0, 10, 10, none, none⟩ : Cell ℚ)) 0
        (assignLevelAndBiome (gridMake 3 3 fun _ _ => (⟨1, 0⟩ : Vec ℚ)))
        ((gridMake 2 1 fun _ _ => (⟨0, 10, 10, none, none⟩ : Cell ℚ)).data, []) =
          Except.ok (data, towns) ∧
      towns = (data.flatten.filter fun c => decide (c.biome = some Biome.town)).map
        (fun c => ({ x := c.x, y := c.y } : Vec ℚ))) :=
  have hwf := gridMake_wellFormed 2 1 fun _ _ => (⟨0, 10, 10, none, none⟩ : Cell ℚ)
  have h : ∀ row ∈ (gridMake 2 1 fun _ _ => (⟨0, 10, 10, none, none⟩ : Cell ℚ)).data,
      ∀ p ∈ row, ∃ v, perlinNoise (gridMake 3 3 fun _ _ => (⟨1, 0⟩ : Vec ℚ))
        { x := p.x / 200, y := p.y / 200 } = Except.ok v := by
    intro row hrow p hp
    simp only [gridMake, List.mem_map] at hrow
    obtain ⟨y, _, rfl⟩ := hrow
    simp only [List.mem_map] at hp
    obtain ⟨x, _, rfl⟩ := hp
    have hf : ⌊(10 / 200 : ℚ)⌋ = 0 := by
      rw [Int.floor_eq_iff]
      norm_num
    exact (perlinNoise_ok_of_inside (gridMake 3 3 fun _ _ => (⟨1, 0⟩ : Vec ℚ))
      (gridMake_wellFormed 3 3 _) ⟨10 / 200, 10 / 200⟩ (by
        simp only [hf]
        simp [gridMake])).1
  have key := towns_are_town_tiles (gridMake 3 3 fun _ _ => (⟨1, 0⟩ : Vec ℚ))
    (gridMake 2 1 fun _ _ => (⟨0, 10, 10, none, none⟩ : Cell ℚ)) hwf h
  ⟨hwf, h, key.elim fun data hd => hd.elim fun towns ht => ⟨data, towns, ht.1, ht.2.2.2.1⟩⟩

/-! ## Helper lemmas: the built-in configuration -/

theorem rnhNorm_unit_interval (xxHash32 : List ℕ → ℕ → ℕ) (float2uint32 : List α → List ℕ)
    (hhash : ∀ ws s, xxHash32 ws s ≤ 2 ^ 32 - 1) (seeds : List α) :
    0 ≤ rnhNorm xxHash32 float2uint32 seeds ∧ rnhNorm xxHash32 float2uint32 seeds ≤ 1 := by
  have hpos : (0 : α) < (UINT32_MAX : α) := by
    simp [UINT32_MAX]
  have hle : ((xxHash32 (float2uint32 seeds) 0 : ℕ) : α) ≤ (UINT32_MAX : α) := by
    have : xxHash32 (float2uint32 seeds) 0 ≤ UINT32_MAX := by
      simpa [UINT32_MAX] using hhash (float2uint32 seeds) 0
    exact_mod_cast this
  unfold rnhNorm
  exact ⟨div_nonneg (Nat.cast_nonneg _) (le_of_lt hpos), (div_le_one hpos).mpr hle⟩

theorem rnhMinMax_bounds (xxHash32 : List ℕ → ℕ → ℕ) (float2uint32 : List α → List ℕ)
    (hhash : ∀ ws s, xxHash32 ws s ≤ 2 ^ 32 - 1) (seeds : List α) (lo hi : α) (h : lo ≤ hi) :
    lo ≤ rnhMinMax xxHash32 float2uint32 seeds lo hi ∧
    rnhMinMax xxHash32 float2uint32 seeds lo hi ≤ hi := by
  obtain ⟨h0, h1⟩ := rnhNorm_unit_interval xxHash32 float2uint32 hhash seeds
  unfold rnhMinMax
  simp only
  have hd : 0 ≤ hi - lo := sub_nonneg.mpr h
  constructor
  · have := mul_nonneg h0 hd
    linarith
  · have := mul_le_mul_of_nonneg_right h1 hd
    linarith

theorem mainCell_position (xxHash32 : List ℕ → ℕ → ℕ) (float2uint32 : List α → List ℕ)
    (hhash : ∀ ws s, xxHash32 ws s ≤ 2 ^ 32 - 1) (seed : α) (w h col row : ℕ) :
    ((col : α) + 0.2) * 25 ≤ (mainCell xxHash32 float2uint32 seed w h col row).x ∧
    (mainCell xxHash32 float2uint32 seed w h col row).x ≤ ((col : α) + 0.8) * 25 ∧
    ((row : α) + 0.2) * 25 ≤ (mainCell xxHash32 float2uint32 seed w h col row).y ∧
    (mainCell xxHash32 float2uint32 seed w h col row).y ≤ ((row : α) + 0.8) * 25 := by
  have hb : (0.2 : α) ≤ 0.8 := by norm_num
  have hx := rnhMinMax_bounds xxHash32 float2uint32 hhash
    [seed, 0.9, (col : α) / (w : α), (row : α) / (h : α)] 0.2 0.8 hb
  have hy := rnhMinMax_bounds xxHash32 float2uint32 hhash
    [seed, 0.8, (col : α) / (w : α), (row : α) / (h : α)] 0.2 0.8 hb
  have hg : ((GRID_SIZE : ℕ) : α) = 25 := by
    simp [GRID_SIZE]
  simp only [mainCell, hg]
  refine ⟨?_, ?_, ?_, ?_⟩ <;> nlinarith [hx.1, hx.2, hy.1, hy.2]

theorem mainCell_sample_inside [FloorRing α] (xxHash32 : List ℕ → ℕ → ℕ)
    (float2uint32 : List α → List ℕ) (hhash : ∀ ws s, xxHash32 ws s ≤ 2 ^ 32 - 1)
    (seed : α) (w h col row : ℕ) (hcol : col < 40) (hrow : row < 28) :
    0 ≤ ⌊(mainCell xxHash32 float2uint32 seed w h col row).x / 200⌋ ∧
    ⌊(mainCell xxHash32 float2uint32 seed w h col row).x / 200⌋ + 1 < 12 ∧
    0 ≤ ⌊(mainCell xxHash32 float2uint32 seed w h col row).y / 200⌋ ∧
    ⌊(mainCell xxHash32 float2uint32 seed w h col row).y / 200⌋ + 1 < 10 := by
  obtain ⟨hx0, hx1, hy0, hy1⟩ := mainCell_position xxHash32 float2uint32 hhash seed w h col row
  have hc0 : (0 : α) ≤ (col : α) := Nat.cast_nonneg col
  have hr0 : (0 : α) ≤ (row : α) := Nat.cast_nonneg row
  have hc1 : (col : α) ≤ 39 := by
    have : col ≤ 39 := by omega
    exact_mod_cast this
  have hr1 : (row : α) ≤ 27 := by
    have : row ≤ 27 := by omega
    exact_mod_cast this
  generalize (mainCell xxHash32 float2uint32 seed w h col row).x = x at *
  generalize (mainCell xxHash32 float2uint32 seed w h col row).y = y at *
  have e2 : (0.2 : α) = 1 / 5 := by norm_num
  have e8 : (0.8 : α) = 4 / 5 := by norm_num
  rw [e2] at hx0 hy0
  rw [e8] at hx1 hy1
  have hx200 : 0 ≤ x / 200 := div_nonneg (by linarith) (by norm_num)
  have hy200 : 0 ≤ y / 200 := div_nonneg (by linarith) (by norm_num)
  have hxu : x / 200 < 5 := by
    rw [div_lt_iff₀ (by norm_num)]
    linarith
  have hyu : y / 200 < 4 := by
    rw [div_lt_iff₀ (by norm_num)]
    linarith
  have fx : ⌊x / 200⌋ < 5 := Int.floor_lt.mpr (by exact_mod_cast hxu)
  have fy : ⌊y / 200⌋ < 4 := Int.floor_lt.mpr (by exact_mod_cast hyu)
  have gx : 0 ≤ ⌊x / 200⌋ := Int.floor_nonneg.mpr hx200
  have gy : 0 ≤ ⌊y / 200⌋ := Int.floor_nonneg.mpr hy200
  omega

/-- C19: noise sampling never leaves the lattice in the built-in configuration.
With w = 40, h = 28, GRID_SIZE = 25, jitter bounds 0.2 and 0.8, sampling scale
200 and the 12 x 10 gradient lattice, for every tile (col, row) and every hash
with 32-bit results (so that the rnhNorm results are in [0, 1]) the tile
position satisfies (col + 0.2) * 25 <= x <= (col + 0.8) * 25, likewise y with
row, the sample coordinate (x/200, y/200) has 0 <= floor(x/200),
floor(x/200)+1 < 12, 0 <= floor(y/200), floor(y/200)+1 < 10, and perlinNoise
returns a number there. -/
theorem builtin_sampling_inside [FloorRing α] (xxHash32 : List ℕ → ℕ → ℕ)
    (float2uint32 : List α → List ℕ) (cos sin : α → α) (pi seed : α)
    (hhash : ∀ ws s, xxHash32 ws s ≤ 2 ^ 32 - 1)
    (col row : ℕ) (hcol : col < 40) (hrow : row < 28) :
    WIDTH / GRID_SIZE = 40 ∧ HEIGHT / GRID_SIZE = 28 ∧
    (perlinCreate xxHash32 float2uint32 cos sin pi seed (10 + 2) (8 + 2)).width = 12 ∧
    (perlinCreate xxHash32 float2uint32 cos sin pi seed (10 + 2) (8 + 2)).height = 10 ∧
    (0 ≤ rnhNorm xxHash32 float2uint32 [seed, 0.9, (col : α) / (40 : ℕ), (row : α) / (28 : ℕ)] ∧
      rnhNorm xxHash32 float2uint32 [seed, 0.9, (col : α) / (40 : ℕ), (row : α) / (28 : ℕ)] ≤ 1) ∧
    ((col : α) + 0.2) * 25 ≤ (mainCell xxHash32 float2uint32 seed 40 28 col row).x ∧
    (mainCell xxHash32 float2uint32 seed 40 28 col row).x ≤ ((col : α) + 0.8) * 25 ∧
    ((row : α) + 0.2) * 25 ≤ (mainCell xxHash32 float2uint32 seed 40 28 col row).y ∧
    (mainCell xxHash32 float2uint32 seed 40 28 col row).y ≤ ((row : α) + 0.8) * 25 ∧
    0 ≤ ⌊(mainCell xxHash32 float2uint32 seed 40 28 col row).x / 200⌋ ∧
    ⌊(mainCell xxHash32 float2uint32 seed 40 28 col row).x / 200⌋ + 1 < 12 ∧
    0 ≤ ⌊(mainCell xxHash32 float2uint32 seed 40 28 col row).y / 200⌋ ∧
    ⌊(mainCell xxHash32 float2uint32 seed 40 28 col row).y / 200⌋ + 1 < 10 ∧
    ∃ v, perlinNoise (perlinCreate xxHash32 float2uint32 cos sin pi seed (10 + 2) (8 + 2))
      { x := (mainCell xxHash32 float2uint32 seed 40 28 col row).x / 200
        y := (mainCell xxHash32 float2uint32 seed 40 28 col row).y / 200 } = Except.ok v := by
  obtain ⟨p1, p2, p3, p4⟩ := mainCell_position xxHash32 float2uint32 hhash seed 40 28 col row
  obtain ⟨f1, f2, f3, f4⟩ :=
    mainCell_sample_inside xxHash32 float2uint32 hhash seed 40 28 col row hcol hrow
  refine ⟨by decide, by decide, rfl, rfl,
    rnhNorm_unit_interval xxHash32 float2uint32 hhash _, p1, p2, p3, p4, f1, f2, f3, f4, ?_⟩
  exact (perlinNoise_ok_of_inside
    (perlinCreate xxHash32 float2uint32 cos sin pi seed (10 + 2) (8 + 2))
    (gridMake_wellFormed _ _ _) _ ⟨f1, f2, f3, f4⟩).1

/-- C19 at the last tile (39, 27), over the rationals with a hash that always
returns 0xffffffff (every rnhNorm result is 1). -/
theorem builtin_sampling_inside_witness :
    (∀ (ws : List ℕ) (s : ℕ), (fun (_ : List ℕ) (_ : ℕ) => 4294967295) ws s ≤ 2 ^ 32 - 1) ∧
    (39 : ℕ) < 40 ∧ (27 : ℕ) < 28 ∧
    (mainCell (fun _ _ => 4294967295) (fun _ => []) (3 / 10 : ℚ) 40 28 39 27).x ≤
      (((39 : ℕ) : ℚ) + 0.8) * 25 ∧
    ⌊(mainCell (fun _ _ => 4294967295) (fun _ => []) (3 / 10 : ℚ) 40 28 39 27).x / 200⌋ + 1
      < 12 ∧
    ∃ v, perlinNoise
      (perlinCreate (fun _ _ => 4294967295) (fun _ => []) (fun _ => 1) (fun _ => 0) 3
        (3 / 10 : ℚ) (10 + 2) (8 + 2))
      { x := (mainCell (fun _ _ => 4294967295) (fun _ => []) (3 / 10 : ℚ) 40 28 39 27).x / 200
        y := (mainCell (fun _ _ => 4294967295) (fun _ => []) (3 / 10 : ℚ) 40 28 39 27).y / 200 } =
        Except.ok v :=
  have hh : ∀ (ws : List ℕ) (s : ℕ),
      (fun (_ : List ℕ) (_ : ℕ) => 4294967295) ws s ≤ 2 ^ 32 - 1 := by
    intro _ _
    norm_num
  have key := builtin_sampling_inside (fun _ _ => 4294967295) (fun _ => [])
    (fun _ => 1) (fun _ => 0) 3 (3 / 10 : ℚ) hh 39 27 (by decide) (by decide)
  ⟨hh, by decide, by decide, key.2.2.2.2.2.2.1, key.2.2.2.2.2.2.2.2.2.2.1,
    key.2.2.2.2.2.2.2.2.2.2.2.2.2⟩

/-- C16: gradient unit length.  For every seed and every lattice size, every
vector (x, y) stored by perlinCreate satisfies x^2 + y^2 = 1, because
rnhUnitVector returns (cos a, sin a) for a = rnhNorm(seeds) * 2 * pi (for any
cos and sin with cos^2 + sin^2 = 1, in particular the real cosine and sine). -/
theorem perlinCreate_unit (xxHash32 : List ℕ → ℕ → ℕ) (float2uint32 : List α → List ℕ)
    (cos sin : α → α) (pi seed : α) (width height : ℕ)
    (hcs : ∀ a, cos a ^ 2 + sin a ^ 2 = 1) :
    (∀ seeds, rnhUnitVector xxHash32 float2uint32 cos sin pi seeds =
      { x := cos (rnhNorm xxHash32 float2uint32 seeds * 2 * pi)
        y := sin (rnhNorm xxHash32 float2uint32 seeds * 2 * pi) }) ∧
    (∀ row ∈ (perlinCreate xxHash32 float2uint32 cos sin pi seed width height).data,
      ∀ g ∈ row, g.x ^ 2 + g.y ^ 2 = 1) ∧
    (∀ (hash : List ℕ → ℕ → ℕ) (cast : List ℝ → List ℕ) (s : ℝ) (w h : ℕ),
      ∀ row ∈ (perlinCreate hash cast Real.cos Real.sin Real.pi s w h).data,
        ∀ g ∈ row, g.x ^ 2 + g.y ^ 2 = 1) := by
  have gen : ∀ (β : Type) [LinearOrderedField β] (hash : List ℕ → ℕ → ℕ)
      (cast : List β → List ℕ) (c s : β → β) (p sd : β) (w h : ℕ),
      (∀ a, c a ^ 2 + s a ^ 2 = 1) →
      ∀ row ∈ (perlinCreate hash cast c s p sd w h).data, ∀ g ∈ row, g.x ^ 2 + g.y ^ 2 = 1 := by
    intro β _ hash cast c s p sd w h hid row hrow g hg
    simp only [perlinCreate, gridMake, List.mem_map] at hrow
    obtain ⟨y, _, rfl⟩ := hrow
    simp only [List.mem_map] at hg
    obtain ⟨x, _, rfl⟩ := hg
    exact hid _
  refine ⟨fun seeds => rfl, gen α xxHash32 float2uint32 cos sin pi seed width height hcs, ?_⟩
  intro hash cast s w h
  exact gen ℝ hash cast Real.cos Real.sin Real.pi s w h Real.cos_sq_add_sin_sq

/-- C16 over the reals with the real cosine and sine, on a 12 x 10 lattice. -/
theorem perlinCreate_unit_witness :
    (∀ a : ℝ, Real.cos a ^ 2 + Real.sin a ^ 2 = 1) ∧
    (∀ row ∈ (perlinCreate (fun _ _ => 7) (fun _ => []) Real.cos Real.sin Real.pi
        (3 / 10 : ℝ) 12 10).data,
      ∀ g ∈ row, g.x ^ 2 + g.y ^ 2 = 1) :=
  ⟨Real.cos_sq_add_sin_sq,
    (perlinCreate_unit (fun _ _ => 7) (fun _ => []) Real.cos Real.sin Real.pi
      (3 / 10 : ℝ) 12 10 Real.cos_sq_add_sin_sq).2.1⟩

/-! ## Helper lemmas: reading a grid in row-major order -/

theorem index_row_cells {β : Type} (rest : List β) :
    ∀ pre : List β,
    (forRange (pre.length : ℤ) ((pre.length : ℤ) + (rest.length : ℤ))).map
        (fun x => index (pre ++ rest) x) = rest.map some := by
  induction rest with
  | nil =>
    intro pre
    rw [forRange_of_le _ _ (by simp)]
    rfl
  | cons p rest ih =>
    intro pre
    rw [forRange_of_lt _ _ (by simp only [List.length_cons]; push_cast; omega),
      List.map_cons, index_append_length]
    have ih' := ih (pre ++ [p])
    have e1 : ((pre ++ [p]).length : ℤ) = (pre.length : ℤ) + 1 := by simp
    have e2 : ((pre ++ [p]).length : ℤ) + (rest.length : ℤ) =
        (pre.length : ℤ) + ((p :: rest).length : ℤ) := by
      simp only [List.length_append, List.length_cons, List.length_nil]
      push_cast
      ring
    have e3 : pre ++ [p] ++ rest = pre ++ p :: rest := by simp
    rw [e2, e1, e3] at ih'
    rw [ih', List.map_cons]

theorem tileAt_rows_cells {β : Type} (width : ℕ) (rest : List (List β)) :
    ∀ rowsPre : List (List β),
    (∀ row ∈ rest, row.length = width) →
    (forRange (rowsPre.length : ℤ) ((rowsPre.length : ℤ) + (rest.length : ℤ))).flatMap
        (fun y => (forRange 0 ((width : ℤ) - 0)).map fun x => tileAt (rowsPre ++ rest) x y) =
      rest.flatten.map some := by
  induction rest with
  | nil =>
    intro rowsPre _
    rw [forRange_of_le (rowsPre.length : ℤ)
      ((rowsPre.length : ℤ) + (([] : List (List β)).length : ℤ)) (by simp)]
    rfl
  | cons row rest ih =>
    intro rowsPre hw
    rw [forRange_of_lt (rowsPre.length : ℤ) ((rowsPre.length : ℤ) + ((row :: rest).length : ℤ))
      (by simp only [List.length_cons]; push_cast; omega), List.flatMap_cons]
    have hrow : (forRange 0 ((width : ℤ) - 0)).map
        (fun x => tileAt (rowsPre ++ row :: rest) x (rowsPre.length : ℤ)) = row.map some := by
      have h1 := index_row_cells row []
      simp only [List.length_nil, Nat.cast_zero, List.nil_append, zero_add] at h1
      rw [hw row (List.mem_cons_self row rest)] at h1
      rw [sub_zero, ← h1]
      apply List.map_congr_left
      intro x _
      simp only [tileAt, index_append_length]
    have ih' := ih (rowsPre ++ [row]) (fun r hr => hw r (List.mem_cons_of_mem row hr))
    have e1 : ((rowsPre ++ [row]).length : ℤ) = (rowsPre.length : ℤ) + 1 := by simp
    have e2 : ((rowsPre ++ [row]).length : ℤ) + (rest.length : ℤ) =
        (rowsPre.length : ℤ) + ((row :: rest).length : ℤ) := by
      simp only [List.length_append, List.length_cons, List.length_nil]
      push_cast
      ring
    have e3 : rowsPre ++ [row] ++ rest = rowsPre ++ row :: rest := by simp
    rw [e2, e1, e3] at ih'
    rw [hrow, ih']
    simp

/-- Reading the cells of `gridCells g 0` in order gives the tiles of the grid
in row-major order. -/
theorem gridCells_tiles {β : Type} (g : Grid β) (hwf : g.WellFormed) :
    (gridCells g 0).map (fun c => tileAt g.data c.1 c.2) = g.data.flatten.map some := by
  have key := tileAt_rows_cells g.width g.data [] hwf.2
  simp only [List.length_nil, Nat.cast_zero, List.nil_append, zero_add] at key
  rw [hwf.1] at key
  unfold gridCells
  rw [List.map_flatMap]
  simp only [List.map_map, sub_zero] at key ⊢
  exact key
/-! ## Helper lemmas: the mountains pass -/

theorem mountainItems_eq_foldlM [FloorRing α] {μ : Type} (mountains : List μ)
    (g : Grid (Tile α)) (hwf : g.WellFormed) :
    mountainItems mountains g = g.data.flatten.foldlM (pushMountain mountains) [] := by
  unfold mountainItems
  rw [gridForEach_eq_foldlM]
  have e1 : (gridCells g 0).foldlM
        (fun (s : List (Item α μ)) (c : ℤ × ℤ) => mountainStep mountains g.data s c.1 c.2) [] =
      ((gridCells g 0).map fun c => tileAt g.data c.1 c.2).foldlM
        (fun (s : List (Item α μ)) (o : Option (Tile α)) =>
          match o with
          | none => Except.error JsError.typeError
          | some p => pushMountain mountains s p) [] := by
    rw [List.foldlM_map]
    rfl
  rw [e1, gridCells_tiles g hwf, List.foldlM_map]

theorem pushMountain_foldlM [FloorRing α] {μ : Type} (mountains : List μ)
    (tiles : List (Tile α)) :
    ∀ init : List (Item α μ),
    (∀ p ∈ tiles, p.biome = Biome.mountain → ∃ item, mountainItemOf mountains p = some item) →
    ∃ items, tiles.foldlM (pushMountain mountains) init = Except.ok (init ++ items) ∧
      List.Forall₂ (fun p item => mountainItemOf mountains p = some item)
        (tiles.filter fun p => decide (p.biome = Biome.mountain)) items := by
  induction tiles with
  | nil =>
    intro init _
    exact ⟨[], by simp [pure, Except.pure], by simp⟩
  | cons p tiles ih =>
    intro init h
    rw [List.foldlM_cons]
    by_cases hb : p.biome = Biome.mountain
    · obtain ⟨item, hitem⟩ := h p (List.mem_cons_self p tiles) hb
      obtain ⟨items, h1, h2⟩ := ih (init ++ [item])
        (fun q hq => h q (List.mem_cons_of_mem p hq))
      refine ⟨item :: items, ?_, ?_⟩
      · have : pushMountain mountains init p = Except.ok (init ++ [item]) := by
          simp [pushMountain, hb, hitem]
        rw [this]
        show tiles.foldlM _ _ = _
        rw [h1]
        simp
      · rw [List.filter_cons_of_pos (by simpa using hb)]
        exact List.Forall₂.cons hitem h2
    · obtain ⟨items, h1, h2⟩ := ih init (fun q hq => h q (List.mem_cons_of_mem p hq))
      refine ⟨items, ?_, ?_⟩
      · have : pushMountain mountains init p = Except.ok init := by
          simp [pushMountain, hb]
        rw [this]
        exact h1
      · rw [List.filter_cons_of_neg (by simpa using hb)]
        exact h2

theorem mountainItemOf_some [FloorRing α] {μ : Type} (mountains : List μ) (p : Tile α)
    (hm : 0 < mountains.length) (h0 : 0 ≤ p.random) (h1 : p.random < 1) :
    ∃ item, mountainItemOf mountains p = some item := by
  have hN : (0 : α) < (mountains.length : α) := by exact_mod_cast hm
  have hlo : 0 ≤ ⌊p.random * (mountains.length : α)⌋ :=
    Int.floor_nonneg.mpr (mul_nonneg h0 (le_of_lt hN))
  have hhi : ⌊p.random * (mountains.length : α)⌋ < (mountains.length : ℤ) := by
    rw [Int.floor_lt]
    have := mul_lt_mul_of_pos_right h1 hN
    rw [one_mul] at this
    exact_mod_cast this
  obtain ⟨m, hm', _⟩ := index_eq_some_of_lt mountains _ hlo hhi
  unfold mountainItemOf
  rw [hm']
  exact ⟨_, rfl⟩

theorem byY_key {μ : Type} (a b : Item α μ) : byY a b = if a.y > b.y then 1 else -1 := rfl

/-- C13: mountain decoration draw order.  For every grid and every host sort
that orders by the comparator, whenever the mountains pass returns its items
the list after items.sort is a permutation of them in ascending y order (each
item's y is at most the y of every item after it).  The pass returns, with one
item per mountain tile in row-major order, when the rows of the grid are all
present, the random value of every mountain tile is in [0, 1) and the
mountains array is not empty. -/
theorem mountains_draw_order [FloorRing α] {μ : Type}
    (sort : (Item α μ → Item α μ → ℤ) → List (Item α μ) → List (Item α μ))
    (hsort : SortsWith sort byY) (mountains : List μ) (g : Grid (Tile α)) :
    (∀ items, mountainItems mountains g = Except.ok items →
      (sort byY items).Perm items ∧ (sort byY items).Pairwise fun a b => a.y ≤ b.y) ∧
    (g.WellFormed → 0 < mountains.length →
      (∀ row ∈ g.data, ∀ p ∈ row, p.biome = Biome.mountain → 0 ≤ p.random ∧ p.random < 1) →
      ∃ items, mountainItems mountains g = Except.ok items ∧
        List.Forall₂ (fun p item => mountainItemOf mountains p = some item ∧
            item.x = p.x ∧ item.y = p.y)
          (g.data.flatten.filter fun p => decide (p.biome = Biome.mountain)) items ∧
        (sort byY items).Perm items ∧
        (sort byY items).Pairwise fun a b => a.y ≤ b.y) := by
  have hsorted : ∀ items : List (Item α μ),
      (sort byY items).Perm items ∧ (sort byY items).Pairwise fun a b => a.y ≤ b.y := by
    intro items
    refine ⟨(hsort items).1, (hsort items).2.imp ?_⟩
    intro a b hab
    unfold byY at hab
    by_contra hc
    rw [if_pos (not_le.mp hc)] at hab
    exact hab (by norm_num)
  refine ⟨fun items _ => hsorted items, ?_⟩
  intro hwf hm hr
  have hall : ∀ p ∈ g.data.flatten, p.biome = Biome.mountain →
      ∃ item, mountainItemOf mountains p = some item := by
    intro p hp hb
    obtain ⟨row, hrow, hprow⟩ := List.mem_flatten.mp hp
    obtain ⟨h0, h1⟩ := hr row hrow p hprow hb
    exact mountainItemOf_some mountains p hm h0 h1
  obtain ⟨items, h1, h2⟩ := pushMountain_foldlM mountains g.data.flatten [] hall
  rw [List.nil_append] at h1
  refine ⟨items, ?_, ?_, (hsorted items).1, (hsorted items).2⟩
  · rw [mountainItems_eq_foldlM mountains g hwf, h1]
  · refine h2.imp ?_
    intro p item hpi
    refine ⟨hpi, ?_⟩
    unfold mountainItemOf at hpi
    split at hpi
    · cases hpi
    · cases hpi
      exact ⟨rfl, rfl⟩

/-- C13 on a 1 x 2 grid over the rationals with a mountain tile at y = 30
above a mountain tile at y = 5. -/
theorem mountains_draw_order_witness :
    SortsWith sortFromBack (byY : Item ℚ ℕ → Item ℚ ℕ → ℤ) ∧
    (⟨1, 2, [[⟨1 / 2, 10, 30, 3 / 2, Biome.mountain⟩],
      [⟨1 / 4, 10, 5, 3 / 2, Biome.mountain⟩]]⟩ : Grid (Tile ℚ)).WellFormed ∧
    0 < [(0 : ℕ), 1, 2].length ∧
    (∀ row ∈ (⟨1, 2, [[⟨1 / 2, 10, 30, 3 / 2, Biome.mountain⟩],
        [⟨1 / 4, 10, 5, 3 / 2, Biome.mountain⟩]]⟩ : Grid (Tile ℚ)).data,
      ∀ p ∈ row, p.biome = Biome.mountain → 0 ≤ p.random ∧ p.random < 1) ∧
    (∃ items, mountainItems [(0 : ℕ), 1, 2]
        (⟨1, 2, [[⟨1 / 2, 10, 30, 3 / 2, Biome.mountain⟩],
          [⟨1 / 4, 10, 5, 3 / 2, Biome.mountain⟩]]⟩ : Grid (Tile ℚ)) = Except.ok items ∧
      (sortFromBack byY items).Perm items ∧
      (sortFromBack byY items).Pairwise fun a b => a.y ≤ b.y) :=
  have hs : SortsWith sortFromBack (byY : Item ℚ ℕ → Item ℚ ℕ → ℤ) :=
    sortFromBack_sortsWith Item.y byY byY_key
  have hwf : (⟨1, 2, [[⟨1 / 2, 10, 30, 3 / 2, Biome.mountain⟩],
      [⟨1 / 4, 10, 5, 3 / 2, Biome.mountain⟩]]⟩ : Grid (Tile ℚ)).WellFormed := by
    constructor
    · rfl
    · intro row hrow
      simp only [List.mem_cons, List.mem_singleton, List.not_mem_nil, or_false] at hrow
      rcases hrow with rfl | rfl <;> rfl
  have hm : 0 < [(0 : ℕ), 1, 2].length := by decide
  have hr : ∀ row ∈ (⟨1, 2, [[⟨1 / 2, 10, 30, 3 / 2, Biome.mountain⟩],
        [⟨1 / 4, 10, 5, 3 / 2, Biome.mountain⟩]]⟩ : Grid (Tile ℚ)).data,
      ∀ p ∈ row, p.biome = Biome.mountain → 0 ≤ p.random ∧ p.random < 1 := by
    intro row hrow p hp _
    simp only [List.mem_cons, List.mem_singleton, List.not_mem_nil, or_false] at hrow
    rcases hrow with rfl | rfl
    · simp only [List.mem_singleton] at hp
      subst hp
      norm_num
    · simp only [List.mem_singleton] at hp
      subst hp
      norm_num
  have key := (mountains_draw_order sortFromBack hs [(0 : ℕ), 1, 2] _).2 hwf hm hr
  ⟨hs, hwf, hm, hr, key.elim fun items hi => ⟨items, hi.1, hi.2.2.1, hi.2.2.2⟩⟩

/-- C20 fails on the code at the hash word 0xffffffff: rnhNorm returns 1, the
index Math.floor(1 * 3) is 3, mountains[3] is undefined and the clone of it
throws; for 32-bit words h the index floor(h / 0xffffffff * 3) is outside
0 <= index < 3 exactly when h = 0xffffffff. -/
theorem mountain_index_out_of_range :
    rnhNorm (fun _ _ => 4294967295) (fun _ => []) ([3 / 10, 7 / 10, 0, 0] : List ℚ) = 1 ∧
    ⌊rnhNorm (fun _ _ => 4294967295) (fun _ => []) ([3 / 10, 7 / 10, 0, 0] : List ℚ) *
      (([0, 1, 2] : List ℕ).length : ℚ)⌋ = 3 ∧
    index [(0 : ℕ), 1, 2] 3 = none ∧
    mountainItemOf [(0 : ℕ), 1, 2]
      (⟨rnhNorm (fun _ _ => 4294967295) (fun _ => []) ([3 / 10, 7 / 10, 0, 0] : List ℚ),
        5, 5, 3 / 2, Biome.mountain⟩ : Tile ℚ) = none ∧
    mountainItems [(0 : ℕ), 1, 2]
      (⟨1, 1, [[⟨rnhNorm (fun _ _ => 4294967295) (fun _ => []) ([3 / 10, 7 / 10, 0, 0] : List ℚ),
        5, 5, 3 / 2, Biome.mountain⟩]]⟩ : Grid (Tile ℚ)) = Except.error JsError.typeError ∧
    (∀ h : ℕ, (h ≤ 4294967295 ∧
        ¬ (0 ≤ ⌊(h : ℚ) / (UINT32_MAX : ℚ) * 3⌋ ∧ ⌊(h : ℚ) / (UINT32_MAX : ℚ) * 3⌋ < 3)) ↔
      h = 4294967295) := by
  have h1 : rnhNorm (fun _ _ => 4294967295) (fun _ => [])
      ([3 / 10, 7 / 10, 0, 0] : List ℚ) = 1 := by
    simp [rnhNorm, UINT32_MAX]
  have h3 : ⌊(1 : ℚ) * (([0, 1, 2] : List ℕ).length : ℚ)⌋ = 3 := by
    rw [Int.floor_eq_iff]
    norm_num
  have hidx : index [(0 : ℕ), 1, 2] 3 = none := by
    simp [index]
  have hitem : mountainItemOf [(0 : ℕ), 1, 2] (⟨1, 5, 5, 3 / 2, Biome.mountain⟩ : Tile ℚ) =
      none := by
    unfold mountainItemOf
    simp only [h3, hidx]
  have hwf : (⟨1, 1, [[⟨1, 5, 5, 3 / 2, Biome.mountain⟩]]⟩ : Grid (Tile ℚ)).WellFormed := by
    constructor
    · rfl
    · intro row hrow
      simp only [List.mem_singleton] at hrow
      subst hrow
      rfl
  refine ⟨h1, by rw [h1]; exact h3, hidx, by rw [h1]; exact hitem, ?_, ?_⟩
  · rw [h1, mountainItems_eq_foldlM _ _ hwf]
    simp [pushMountain, hitem, bind, Except.bind]
  · intro h
    have hU : (UINT32_MAX : ℚ) = 4294967295 := by
      simp [UINT32_MAX]
    rw [hU]
    constructor
    · rintro ⟨hle, hnot⟩
      by_contra hne
      apply hnot
      have hlt : h < 4294967295 := lt_of_le_of_ne hle hne
      have hq : (h : ℚ) < 4294967295 := by exact_mod_cast hlt
      have hq0 : (0 : ℚ) ≤ (h : ℚ) := Nat.cast_nonneg h
      constructor
      · exact Int.floor_nonneg.mpr (by positivity)
      · rw [Int.floor_lt]
        have : (h : ℚ) / 4294967295 < 1 := by
          rw [div_lt_one (by norm_num)]
          exact hq
        push_cast
        linarith
    · rintro rfl
      refine ⟨le_refl _, ?_⟩
      have : ⌊((4294967295 : ℕ) : ℚ) / 4294967295 * 3⌋ = 3 := by
        rw [Int.floor_eq_iff]
        norm_num
      rw [this]
      decide
/-! ## Helper lemmas: the whole run -/

theorem mem_gridMake {β : Type} (w h : ℕ) (callable : ℕ → ℕ → β) (row : List β) (p : β)
    (hrow : row ∈ (gridMake w h callable).data) (hp : p ∈ row) :
    ∃ x y, x < w ∧ y < h ∧ p = callable x y := by
  simp only [gridMake, List.mem_map, List.mem_range] at hrow
  obtain ⟨y, hy, rfl⟩ := hrow
  simp only [List.mem_map, List.mem_range] at hp
  obtain ⟨x, hx, rfl⟩ := hp
  exact ⟨x, y, hx, hy, rfl⟩

theorem classifyCell_toTile [FloorRing α] (perlin : Grid (Vec α)) (p : Cell α) (v : α)
    (hv : perlinNoise perlin { x := p.x / 200, y := p.y / 200 } = Except.ok v) :
    (classifyCell perlin p).toTile =
      some { random := p.random, x := p.x, y := p.y, level := v + 1.0,
             biome := selectBiome (v + 1.0) p.random } := by
  simp [classifyCell, hv, Cell.toTile]

theorem classifiedRow_map {γ : Type} (f : Cell γ → Cell γ) (cs : List (Cell γ))
    (h : ∀ c ∈ cs, ∃ t, (f c).toTile = some t ∧ t.random = c.random) :
    ∃ ts, classifiedRow (cs.map f) = some ts ∧
      List.Forall₂ (fun c t => t.random = c.random) cs ts := by
  induction cs with
  | nil => exact ⟨[], rfl, List.Forall₂.nil⟩
  | cons c cs ih =>
    obtain ⟨t, ht, hr⟩ := h c (List.mem_cons_self c cs)
    obtain ⟨ts, hts, hf⟩ := ih (fun d hd => h d (List.mem_cons_of_mem c hd))
    refine ⟨t :: ts, ?_, List.Forall₂.cons hr hf⟩
    simp [classifiedRow, ht, hts]

theorem classified_map {γ : Type} (f : Cell γ → Cell γ) (data : List (List (Cell γ)))
    (h : ∀ row ∈ data, ∀ c ∈ row, ∃ t, (f c).toTile = some t ∧ t.random = c.random) :
    ∃ tiles, classified (data.map (List.map f)) = some tiles ∧
      List.Forall₂ (List.Forall₂ fun c t => t.random = c.random) data tiles := by
  induction data with
  | nil => exact ⟨[], rfl, List.Forall₂.nil⟩
  | cons row data ih =>
    obtain ⟨ts, hts, hf⟩ := classifiedRow_map f row (h row (List.mem_cons_self row data))
    obtain ⟨tiles, htiles, hF⟩ := ih (fun r hr => h r (List.mem_cons_of_mem row hr))
    refine ⟨ts :: tiles, ?_, List.Forall₂.cons hf hF⟩
    simp [classified, hts, htiles]

theorem forall₂_mem_right {γ δ : Type} (R : γ → δ → Prop) (l1 : List γ) (l2 : List δ)
    (h : List.Forall₂ R l1 l2) (b : δ) (hb : b ∈ l2) : ∃ a ∈ l1, R a b := by
  induction h with
  | nil => cases hb
  | cons hab _ ih =>
    rcases List.mem_cons.mp hb with rfl | hb
    · exact ⟨_, List.mem_cons_self _ _, hab⟩
    · obtain ⟨a, ha, hr⟩ := ih hb
      exact ⟨a, List.mem_cons_of_mem _ ha, hr⟩

theorem foldlM_ok_of_forall {γ σ : Type} (step : σ → γ → Except JsError σ) (l : List γ)
    (h : ∀ c ∈ l, ∀ s, ∃ s', step s c = Except.ok s') :
    ∀ init, ∃ r, l.foldlM step init = Except.ok r := by
  induction l with
  | nil =>
    intro init
    exact ⟨init, rfl⟩
  | cons c l ih =>
    intro init
    obtain ⟨s', hs'⟩ := h c (List.mem_cons_self c l) init
    obtain ⟨r, hr⟩ := ih (fun d hd => h d (List.mem_cons_of_mem c hd)) s'
    refine ⟨r, ?_⟩
    rw [List.foldlM_cons, hs']
    exact hr

theorem coastStep_ok (t : Grid (Tile α)) (hwf : t.WellFormed) (x y : ℤ)
    (hxy : (x, y) ∈ gridCells t 1) (s : List (Curve α)) :
    ∃ s', coastStep t.data s x y = Except.ok s' := by
  obtain ⟨⟨hx0, hx1⟩, hy0, hy1⟩ := (mem_gridCells t 1 x y).mp hxy
  obtain ⟨p, hp⟩ := tileAt_some_of_inside t hwf x y (by omega) (by omega) (by omega) (by omega)
  obtain ⟨pl, hpl⟩ := tileAt_some_of_inside t hwf (x - 1) (y + 0)
    (by omega) (by omega) (by omega) (by omega)
  obtain ⟨pr, hpr⟩ := tileAt_some_of_inside t hwf (x + 1) (y + 0)
    (by omega) (by omega) (by omega) (by omega)
  obtain ⟨pt, hpt⟩ := tileAt_some_of_inside t hwf (x - 0) (y - 1)
    (by omega) (by omega) (by omega) (by omega)
  obtain ⟨pb, hpb⟩ := tileAt_some_of_inside t hwf (x + 0) (y + 1)
    (by omega) (by omega) (by omega) (by omega)
  obtain ⟨ptl, hptl⟩ := tileAt_some_of_inside t hwf (x - 1) (y - 1)
    (by omega) (by omega) (by omega) (by omega)
  obtain ⟨ptr, hptr⟩ := tileAt_some_of_inside t hwf (x + 1) (y - 1)
    (by omega) (by omega) (by omega) (by omega)
  obtain ⟨pbl, hpbl⟩ := tileAt_some_of_inside t hwf (x - 1) (y + 1)
    (by omega) (by omega) (by omega) (by omega)
  obtain ⟨pbr, hpbr⟩ := tileAt_some_of_inside t hwf (x + 1) (y + 1)
    (by omega) (by omega) (by omega) (by omega)
  unfold coastStep
  rw [hp, hpl, hpr, hpt, hpb, hptl, hptr, hpbl, hpbr]
  exact ⟨_, rfl⟩

theorem forall₂_length_rows {γ δ : Type} (R : γ → δ → Prop) (data : List (List γ))
    (tiles : List (List δ)) (h : List.Forall₂ (List.Forall₂ R) data tiles) (w : ℕ)
    (hw : ∀ row ∈ data, row.length = w) :
    tiles.length = data.length ∧ ∀ row ∈ tiles, row.length = w := by
  refine ⟨h.length_eq.symm, ?_⟩
  intro row hrow
  obtain ⟨r, hr, hf⟩ := forall₂_mem_right _ data tiles h row hrow
  rw [← hf.length_eq]
  exact hw r hr

/-- A run on a grid of at most 40 x 28 tiles returns, when the hash never
yields the word 0xffffffff and `mountains` is not empty: every tile is built
and classified, and the coastline pass adds no curve when the grid has no
interior. -/
theorem generate_ok [FloorRing α] {μ : Type} (host : Host α μ) (seed : α) (w h : ℕ)
    (hw : w ≤ 40) (hh : h ≤ 28) (hhash : ∀ ws s, host.xxHash32 ws s < 2 ^ 32 - 1)
    (hm : 0 < host.mountains.length) :
    ∃ out, generate host seed w h = Except.ok out ∧ out.tiles.length = h ∧
      (∀ row ∈ out.tiles, row.length = w) ∧ ((w < 3 ∨ h < 3) → out.curves = []) := by
  have hhash' : ∀ ws s, host.xxHash32 ws s ≤ 2 ^ 32 - 1 := fun ws s => le_of_lt (hhash ws s)
  have hgwf := gridMake_wellFormed w h (mainCell host.xxHash32 host.float2uint32 seed w h)
  -- every sample is inside the lattice
  have hs : ∀ row ∈ (gridMake w h (mainCell host.xxHash32 host.float2uint32 seed w h)).data,
      ∀ p ∈ row, ∃ v, perlinNoise
        (perlinCreate host.xxHash32 host.float2uint32 host.cos host.sin host.pi seed
          (10 + 2) (8 + 2)) { x := p.x / 200, y := p.y / 200 } = Except.ok v := by
    intro row hrow p hp
    obtain ⟨x, y, hx, hy, rfl⟩ := mem_gridMake w h _ row p hrow hp
    exact (perlinNoise_ok_of_inside _ (gridMake_wellFormed _ _ _) _
      (mainCell_sample_inside host.xxHash32 host.float2uint32 hhash' seed w h x y
        (by omega) (by omega))).1
  -- the random value of every tile is in [0, 1)
  have hr : ∀ row ∈ (gridMake w h (mainCell host.xxHash32 host.float2uint32 seed w h)).data,
      ∀ p ∈ row, 0 ≤ p.random ∧ p.random < 1 := by
    intro row hrow p hp
    obtain ⟨x, y, _, _, rfl⟩ := mem_gridMake w h _ row p hrow hp
    have hU : (0 : α) < (UINT32_MAX : α) := by simp [UINT32_MAX]
    simp only [mainCell, rnhNorm]
    refine ⟨div_nonneg (Nat.cast_nonneg _) (le_of_lt hU), ?_⟩
    rw [div_lt_one hU]
    have := hhash (host.float2uint32
      [seed, 0.7, (x : α) / (w : α), (y : α) / (h : α)]) 0
    have h2 : host.xxHash32 (host.float2uint32
        [seed, 0.7, (x : α) / (w : α), (y : α) / (h : α)]) 0 < UINT32_MAX := by
      simpa [UINT32_MAX] using this
    exact_mod_cast h2
  have hpass := assignPass_ok _ _ hgwf hs
  obtain ⟨tiles, htiles, hF⟩ := classified_map
    (classifyCell (perlinCreate host.xxHash32 host.float2uint32 host.cos host.sin host.pi seed
      (10 + 2) (8 + 2)))
    (gridMake w h (mainCell host.xxHash32 host.float2uint32 seed w h)).data
    (by
      intro row hrow c hc
      obtain ⟨v, hv⟩ := hs row hrow c hc
      exact ⟨_, classifyCell_toTile _ c v hv, rfl⟩)
  obtain ⟨hlen, hrows⟩ := forall₂_length_rows _ _ tiles hF w hgwf.2
  have hth : tiles.length = h := by
    rw [hlen, hgwf.1]
    rfl
  have htwf : ({ width := w, height := h, data := tiles } : Grid (Tile α)).WellFormed :=
    ⟨hth, hrows⟩
  -- the mountains pass returns
  have hmount : ∃ items, gridForEach ({ width := w, height := h, data := tiles } : Grid (Tile α))
      0 (mountainStep host.mountains tiles) [] = Except.ok items := by
    have hall : ∀ p ∈ tiles.flatten, p.biome = Biome.mountain →
        ∃ item, mountainItemOf host.mountains p = some item := by
      intro p hp _
      obtain ⟨row, hrow, hprow⟩ := List.mem_flatten.mp hp
      obtain ⟨r, hr', hf⟩ := forall₂_mem_right _ _ tiles hF row hrow
      obtain ⟨c, hc, hcr⟩ := forall₂_mem_right _ r row hf p hprow
      obtain ⟨h0, h1⟩ := hr r hr' c hc
      rw [← hcr] at h0 h1
      exact mountainItemOf_some host.mountains p hm h0 h1
    obtain ⟨items, h1, _⟩ := pushMountain_foldlM host.mountains tiles.flatten [] hall
    refine ⟨items, ?_⟩
    have := mountainItems_eq_foldlM host.mountains
      ({ width := w, height := h, data := tiles } : Grid (Tile α)) htwf
    unfold mountainItems at this
    rw [this, h1]
    rfl
  obtain ⟨items, hitems⟩ := hmount
  -- the coastline pass returns
  have hcoast : ∃ curves,
      gridForEach ({ width := w, height := h, data := tiles } : Grid (Tile α)) 1
        (coastStep tiles) [] = Except.ok curves ∧ ((w < 3 ∨ h < 3) → curves = []) := by
    rw [gridForEach_eq_foldlM]
    by_cases hsmall : w < 3 ∨ h < 3
    · have hnil : gridCells ({ width := w, height := h, data := tiles } : Grid (Tile α)) 1 =
          [] := by
        rw [List.eq_nil_iff_forall_not_mem]
        rintro ⟨x, y⟩ hxy
        have := (mem_gridCells _ 1 x y).mp hxy
        simp only at this
        omega
      rw [hnil]
      exact ⟨[], rfl, fun _ => rfl⟩
    · obtain ⟨r, hr⟩ := foldlM_ok_of_forall
        (fun s (c : ℤ × ℤ) => coastStep tiles s c.1 c.2)
        (gridCells ({ width := w, height := h, data := tiles } : Grid (Tile α)) 1)
        (fun c hc s => coastStep_ok _ htwf c.1 c.2 hc s) []
      exact ⟨r, hr, fun hc => absurd hc hsmall⟩
  obtain ⟨curves, hcurves, hcnil⟩ := hcoast
  have hgen : generate host seed w h = Except.ok
      { tiles := tiles
        towns := townPositions (List.map (List.map (classifyCell
          (perlinCreate host.xxHash32 host.float2uint32 host.cos host.sin host.pi seed
            (10 + 2) (8 + 2))))
          (gridMake w h (mainCell host.xxHash32 host.float2uint32 seed w h)).data).flatten
        roads := streets host.sortTargets host.sqrt
          (townPositions (List.map (List.map (classifyCell
            (perlinCreate host.xxHash32 host.float2uint32 host.cos host.sin host.pi seed
              (10 + 2) (8 + 2))))
            (gridMake w h (mainCell host.xxHash32 host.float2uint32 seed w h)).data).flatten)
        items := host.sortItems byY items
        curves := curves } := by
    unfold generate
    simp only [hpass, htiles, hitems, hcurves]
  exact ⟨_, hgen, hth, hrows, hcnil⟩
/-- C14, as stated, fails: a run with a grid of width 2 and height 2 returns
(no ConfigurationError is raised); its 2 x 2 tiles are all built and
classified, and the coastline pass adds no curve. -/
theorem generate_small_grid_returns :
    ∃ out, generate sampleHost (3 / 10) 2 2 = Except.ok out ∧
      out.tiles.length = 2 ∧ (∀ row ∈ out.tiles, row.length = 2) ∧ out.curves = [] ∧
      (gridMake 2 2 (mainCell sampleHost.xxHash32 sampleHost.float2uint32
        (3 / 10 : ℚ) 2 2)).data.length = 2 := by
  obtain ⟨out, h1, h2, h3, h4⟩ := generate_ok sampleHost (3 / 10) 2 2 (by decide) (by decide)
    (fun _ _ => by simp [sampleHost]) (by simp [sampleHost])
  exact ⟨out, h1, h2, h3, h4 (Or.inl (by decide)), by simp [gridMake]⟩

/-- The passes of a run on a grid of at most 40 x 28 tiles, for a hash with
32-bit results: the pass "assign level & biomes" returns, every tile is
classified with its random value in [0, 1], and the coastline pass returns,
with no curve when the grid has no interior. -/
theorem generate_passes [FloorRing α] {μ : Type} (host : Host α μ) (seed : α) (w h : ℕ)
    (hw : w ≤ 40) (hh : h ≤ 28) (hhash : ∀ ws s, host.xxHash32 ws s ≤ 2 ^ 32 - 1) :
    ∃ data towns tiles curves,
      gridForEach (gridMake w h (mainCell host.xxHash32 host.float2uint32 seed w h)) 0
        (assignLevelAndBiome (perlinCreate host.xxHash32 host.float2uint32 host.cos host.sin
          host.pi seed (10 + 2) (8 + 2)))
        ((gridMake w h (mainCell host.xxHash32 host.float2uint32 seed w h)).data, []) =
          Except.ok (data, towns) ∧
      classified data = some tiles ∧ tiles.length = h ∧ (∀ row ∈ tiles, row.length = w) ∧
      (∀ row ∈ tiles, ∀ p ∈ row, 0 ≤ p.random ∧ p.random ≤ 1) ∧
      gridForEach ({ width := w, height := h, data := tiles } : Grid (Tile α)) 1
        (coastStep tiles) [] = Except.ok curves ∧
      ((w < 3 ∨ h < 3) → curves = []) := by
  have hgwf := gridMake_wellFormed w h (mainCell host.xxHash32 host.float2uint32 seed w h)
  have hs : ∀ row ∈ (gridMake w h (mainCell host.xxHash32 host.float2uint32 seed w h)).data,
      ∀ p ∈ row, ∃ v, perlinNoise
        (perlinCreate host.xxHash32 host.float2uint32 host.cos host.sin host.pi seed
          (10 + 2) (8 + 2)) { x := p.x / 200, y := p.y / 200 } = Except.ok v := by
    intro row hrow p hp
    obtain ⟨x, y, hx, hy, rfl⟩ := mem_gridMake w h _ row p hrow hp
    exact (perlinNoise_ok_of_inside _ (gridMake_wellFormed _ _ _) _
      (mainCell_sample_inside host.xxHash32 host.float2uint32 hhash seed w h x y
        (by omega) (by omega))).1
  have hr : ∀ row ∈ (gridMake w h (mainCell host.xxHash32 host.float2uint32 seed w h)).data,
      ∀ p ∈ row, 0 ≤ p.random ∧ p.random ≤ 1 := by
    intro row hrow p hp
    obtain ⟨x, y, _, _, rfl⟩ := mem_gridMake w h _ row p hrow hp
    exact rnhNorm_unit_interval host.xxHash32 host.float2uint32 hhash _
  have hpass := assignPass_ok _ _ hgwf hs
  obtain ⟨tiles, htiles, hF⟩ := classified_map
    (classifyCell (perlinCreate host.xxHash32 host.float2uint32 host.cos host.sin host.pi seed
      (10 + 2) (8 + 2)))
    (gridMake w h (mainCell host.xxHash32 host.float2uint32 seed w h)).data
    (by
      intro row hrow c hc
      obtain ⟨v, hv⟩ := hs row hrow c hc
      exact ⟨_, classifyCell_toTile _ c v hv, rfl⟩)
  obtain ⟨hlen, hrows⟩ := forall₂_length_rows _ _ tiles hF w hgwf.2
  have hth : tiles.length = h := by
    rw [hlen, hgwf.1]
    rfl
  have htwf : ({ width := w, height := h, data := tiles } : Grid (Tile α)).WellFormed :=
    ⟨hth, hrows⟩
  have hrand : ∀ row ∈ tiles, ∀ p ∈ row, 0 ≤ p.random ∧ p.random ≤ 1 := by
    intro row hrow p hp
    obtain ⟨r, hr', hf⟩ := forall₂_mem_right _ _ tiles hF row hrow
    obtain ⟨c, hc, hcr⟩ := forall₂_mem_right _ r row hf p hp
    rw [hcr]
    exact hr r hr' c hc
  have hcoast : ∃ curves,
      gridForEach ({ width := w, height := h, data := tiles } : Grid (Tile α)) 1
        (coastStep tiles) [] = Except.ok curves ∧ ((w < 3 ∨ h < 3) → curves = []) := by
    rw [gridForEach_eq_foldlM]
    by_cases hsmall : w < 3 ∨ h < 3
    · have hnil : gridCells ({ width := w, height := h, data := tiles } : Grid (Tile α)) 1 =
          [] := by
        rw [List.eq_nil_iff_forall_not_mem]
        rintro ⟨x, y⟩ hxy
        have := (mem_gridCells _ 1 x y).mp hxy
        simp only at this
        omega
      rw [hnil]
      exact ⟨[], rfl, fun _ => rfl⟩
    · obtain ⟨r, hr⟩ := foldlM_ok_of_forall
        (fun s (c : ℤ × ℤ) => coastStep tiles s c.1 c.2)
        (gridCells ({ width := w, height := h, data := tiles } : Grid (Tile α)) 1)
        (fun c hc s => coastStep_ok _ htwf c.1 c.2 hc s) []
      exact ⟨r, hr, fun hc => absurd hc hsmall⟩
  obtain ⟨curves, hcurves, hcnil⟩ := hcoast
  exact ⟨_, _, tiles, curves, hpass, htiles, hth, hrows, hrand, hcurves, hcnil⟩

/-- C14 as amended: the code has no configuration check and raises no
ConfigurationError.  For a grid of width 2 and height 2 (more generally
width < 3 or height < 3, within the 40 x 28 tiles that the 12 x 10 noise
lattice covers) and every hash with 32-bit results, gridMake builds all
width x height tiles, the pass "assign level & biomes" returns and classifies
them all, and the coastline pass visits no tile and adds no curve.  The run
then returns exactly when the mountains pass does: it fails only with the
exception of that pass, which needs a mountain tile whose random value is 1
(or an empty mountains array). -/
theorem generate_without_validation [FloorRing α] {μ : Type} (host : Host α μ) (seed : α)
    (w h : ℕ) (hsmall : w < 3 ∨ h < 3) (hw : w ≤ 40) (hh : h ≤ 28)
    (hhash : ∀ ws s, host.xxHash32 ws s ≤ 2 ^ 32 - 1) :
    (gridMake w h (mainCell host.xxHash32 host.float2uint32 seed w h)).WellFormed ∧
    (gridMake w h (mainCell host.xxHash32 host.float2uint32 seed w h)).data.length = h ∧
    (∀ row ∈ (gridMake w h (mainCell host.xxHash32 host.float2uint32 seed w h)).data,
      row.length = w) ∧
    gridCells (gridMake w h (mainCell host.xxHash32 host.float2uint32 seed w h)) 1 = [] ∧
    ∃ data towns tiles,
      gridForEach (gridMake w h (mainCell host.xxHash32 host.float2uint32 seed w h)) 0
        (assignLevelAndBiome (perlinCreate host.xxHash32 host.float2uint32 host.cos host.sin
          host.pi seed (10 + 2) (8 + 2)))
        ((gridMake w h (mainCell host.xxHash32 host.float2uint32 seed w h)).data, []) =
          Except.ok (data, towns) ∧
      classified data = some tiles ∧ tiles.length = h ∧ (∀ row ∈ tiles, row.length = w) ∧
      gridForEach ({ width := w, height := h, data := tiles } : Grid (Tile α)) 1
        (coastStep tiles) [] = Except.ok [] ∧
      (∀ e, gridForEach ({ width := w, height := h, data := tiles } : Grid (Tile α)) 0
          (mountainStep host.mountains tiles) [] = Except.error e →
        generate host seed w h = Except.error e) ∧
      (∀ items, gridForEach ({ width := w, height := h, data := tiles } : Grid (Tile α)) 0
          (mountainStep host.mountains tiles) [] = Except.ok items →
        generate host seed w h = Except.ok
          { tiles := tiles, towns := towns
            roads := streets host.sortTargets host.sqrt towns
            items := host.sortItems byY items, curves := [] }) ∧
      (0 < host.mountains.length →
        (∀ row ∈ tiles, ∀ p ∈ row, p.biome = Biome.mountain → p.random ≠ 1) →
        ∃ out, generate host seed w h = Except.ok out ∧ out.tiles = tiles ∧
          out.curves = []) := by
  have hwf := gridMake_wellFormed w h (mainCell host.xxHash32 host.float2uint32 seed w h)
  obtain ⟨data, towns, tiles, curves, hpass, htiles, hth, hrows, hrand, hcurves, hcnil⟩ :=
    generate_passes host seed w h hw hh hhash
  have hc0 := hcnil hsmall
  subst hc0
  have herr : ∀ e, gridForEach ({ width := w, height := h, data := tiles } : Grid (Tile α)) 0
      (mountainStep host.mountains tiles) [] = Except.error e →
      generate host seed w h = Except.error e := by
    intro e he
    unfold generate
    simp only [hpass, htiles, he]
  have hok : ∀ items, gridForEach ({ width := w, height := h, data := tiles } : Grid (Tile α)) 0
      (mountainStep host.mountains tiles) [] = Except.ok items →
      generate host seed w h = Except.ok
        { tiles := tiles, towns := towns
          roads := streets host.sortTargets host.sqrt towns
          items := host.sortItems byY items, curves := [] } := by
    intro items hi
    unfold generate
    simp only [hpass, htiles, hi, hcurves]
  refine ⟨hwf, by simp [gridMake], ?_, ?_, data, towns, tiles, hpass, htiles, hth, hrows,
    hcurves, herr, hok, ?_⟩
  · intro row hrow
    rw [hwf.2 row hrow]
    rfl
  · rw [List.eq_nil_iff_forall_not_mem]
    rintro ⟨x, y⟩ hxy
    have := (mem_gridCells _ 1 x y).mp hxy
    simp only [gridMake] at this
    omega
  · intro hm hne
    have htwf : ({ width := w, height := h, data := tiles } : Grid (Tile α)).WellFormed :=
      ⟨hth, hrows⟩
    have hall : ∀ p ∈ tiles.flatten, p.biome = Biome.mountain →
        ∃ item, mountainItemOf host.mountains p = some item := by
      intro p hp hb
      obtain ⟨row, hrow, hprow⟩ := List.mem_flatten.mp hp
      obtain ⟨h0, h1⟩ := hrand row hrow p hprow
      exact mountainItemOf_some host.mountains p hm h0
        (lt_of_le_of_ne h1 (hne row hrow p hprow hb))
    obtain ⟨items, h1, _⟩ := pushMountain_foldlM host.mountains tiles.flatten [] hall
    have hmi := mountainItems_eq_foldlM host.mountains
      ({ width := w, height := h, data := tiles } : Grid (Tile α)) htwf
    unfold mountainItems at hmi
    have hitems : gridForEach ({ width := w, height := h, data := tiles } : Grid (Tile α)) 0
        (mountainStep host.mountains tiles) [] = Except.ok items := by
      rw [hmi, h1]
      rfl
    exact ⟨_, hok items hitems, rfl, rfl⟩

/-- C14 as amended, at width 2 and height 2 over the rationals with a hash
that always returns 0xffffffff (every random value is 1). -/
theorem generate_without_validation_witness :
    ((2 : ℕ) < 3 ∨ (2 : ℕ) < 3) ∧ (2 : ℕ) ≤ 40 ∧ (2 : ℕ) ≤ 28 ∧
    (∀ (ws : List ℕ) (s : ℕ), (fun (_ : List ℕ) (_ : ℕ) => 4294967295) ws s ≤ 2 ^ 32 - 1) ∧
    (gridMake 2 2 (mainCell (fun _ _ => 4294967295) sampleHost.float2uint32
      (3 / 10 : ℚ) 2 2)).data.length = 2 ∧
    (∀ row ∈ (gridMake 2 2 (mainCell (fun _ _ => 4294967295) sampleHost.float2uint32
      (3 / 10 : ℚ) 2 2)).data, row.length = 2) ∧
    gridCells (gridMake 2 2 (mainCell (fun _ _ => 4294967295) sampleHost.float2uint32
      (3 / 10 : ℚ) 2 2)) 1 = [] ∧
    ∃ data towns tiles,
      gridForEach (gridMake 2 2 (mainCell (fun _ _ => 4294967295) sampleHost.float2uint32
          (3 / 10 : ℚ) 2 2)) 0
        (assignLevelAndBiome (perlinCreate (fun _ _ => 4294967295) sampleHost.float2uint32
          sampleHost.cos sampleHost.sin sampleHost.pi (3 / 10 : ℚ) (10 + 2) (8 + 2)))
        ((gridMake 2 2 (mainCell (fun _ _ => 4294967295) sampleHost.float2uint32
          (3 / 10 : ℚ) 2 2)).data, []) = Except.ok (data, towns) ∧
      classified data = some tiles ∧ tiles.length = 2 ∧ (∀ row ∈ tiles, row.length = 2) ∧
      gridForEach ({ width := 2, height := 2, data := tiles } : Grid (Tile ℚ)) 1
        (coastStep tiles) [] = Except.ok [] :=
  have hsmall : (2 : ℕ) < 3 ∨ (2 : ℕ) < 3 := Or.inl (by decide)
  have hw : (2 : ℕ) ≤ 40 := by decide
  have hh : (2 : ℕ) ≤ 28 := by decide
  have hhash : ∀ (ws : List ℕ) (s : ℕ),
      (fun (_ : List ℕ) (_ : ℕ) => 4294967295) ws s ≤ 2 ^ 32 - 1 := fun _ _ => by
    norm_num
  have key := generate_without_validation
    { sampleHost with xxHash32 := fun _ _ => 4294967295 } (3 / 10) 2 2 hsmall hw hh hhash
  ⟨hsmall, hw, hh, hhash, key.2.1, key.2.2.1, key.2.2.2.1,
    key.2.2.2.2.elim fun data hd => hd.elim fun towns ht => ht.elim fun tiles h =>
      ⟨data, towns, tiles, h.1, h.2.1, h.2.2.1, h.2.2.2.1, h.2.2.2.2.1⟩⟩

end MapYard
